import Mathlib

/-!
# RV32IM simulator: `simulate.c` and `disassemble.c`

A shallow embedding of the fetch/decode/execute loop of `src/simulate.c` and
of the disassembler of `src/disassemble.c`.  Machine integers are `Nat`
(`uint32_t` bit patterns, kept below 2^32 by an explicit `%`) and `Int`
(`int32_t` values, brought back into range by `toS32`).  The register file
`static int32_t registers[32]` is a function from the index to the signed
value; the log file is not modelled, as no architectural state depends on it.
-/

namespace A5

/-! ## 32-bit machine integers -/

/-- Conversion of a C integer to `uint32_t`: the value modulo 2^32. -/
def toU32 (x : Int) : Nat := (x % 4294967296).toNat

/-- Conversion of a 32-bit pattern to `int32_t` (two-complement reading). -/
def toS32 (n : Nat) : Int :=
  if n % 4294967296 < 2147483648 then ((n % 4294967296 : Nat) : Int)
  else ((n % 4294967296 : Nat) : Int) - 4294967296

/-- Signed 32-bit arithmetic result: the exact value wrapped into `int32_t`. -/
def wrap32 (x : Int) : Int := toS32 (toU32 x)

/-- The values an `int32_t` can hold. -/
def IsInt32 (x : Int) : Prop := -2147483648 ≤ x ∧ x < 2147483648

instance (x : Int) : Decidable (IsInt32 x) := by
  unfold IsInt32; infer_instance

/-! ## Instruction fields (`simulate.c` lines 119-124, `disassemble.c` lines 6-11) -/

def get_opcode (inst : Nat) : Nat := inst &&& 0x7F
def get_rd (inst : Nat) : Nat := (inst >>> 7) &&& 0x1F
def get_rs1 (inst : Nat) : Nat := (inst >>> 15) &&& 0x1F
def get_rs2 (inst : Nat) : Nat := (inst >>> 20) &&& 0x1F
def get_funct3 (inst : Nat) : Nat := (inst >>> 12) &&& 0x7
def get_funct7 (inst : Nat) : Nat := (inst >>> 25) &&& 0x7F

/-! ## Immediates (`simulate.c` lines 48-82) -/

/-- The function `sign_extend(uint32_t x, int bits)`: `(x ^ sign_bit) - sign_bit`
in `uint32_t` arithmetic, returned as `int32_t`. -/
def sign_extend (x : Nat) (bits : Nat) : Int :=
  let sign_bit := (1 <<< (bits - 1)) % 4294967296
  toS32 ((((x % 4294967296) ^^^ sign_bit) + 4294967296 - sign_bit) % 4294967296)

def get_i_imm (inst : Nat) : Int :=
  sign_extend (inst >>> 20) 12

def get_s_imm (inst : Nat) : Int :=
  sign_extend ((((inst >>> 25) <<< 5) % 4294967296) ||| ((inst >>> 7) &&& 0x1F)) 12

def get_b_imm (inst : Nat) : Int :=
  sign_extend
    ((((inst >>> 31) <<< 12) % 4294967296) |||
      ((((inst >>> 7) &&& 0x1) <<< 11) % 4294967296) |||
      ((((inst >>> 25) &&& 0x3F) <<< 5) % 4294967296) |||
      ((((inst >>> 8) &&& 0xF) <<< 1) % 4294967296))
    13

def get_u_imm (inst : Nat) : Int :=
  toS32 (inst &&& 0xFFFFF000)

def get_j_imm (inst : Nat) : Int :=
  sign_extend
    ((((inst >>> 31) <<< 20) % 4294967296) |||
      ((((inst >>> 12) &&& 0xFF) <<< 12) % 4294967296) |||
      ((((inst >>> 20) &&& 0x1) <<< 11) % 4294967296) |||
      ((((inst >>> 21) &&& 0x3FF) <<< 1) % 4294967296))
    21

/-! ## What the engine takes from outside `simulate.c` -/

/-- The collaborators of the engine that are not part of `simulate.c`:
the memory module behind `memory.h` (values and addresses travel as 32-bit
patterns), and what C leaves undefined and is therefore whatever the host
does: the result of a 32-bit shift whose count is 32 or more, and the signed
division and remainder of `INT32_MIN` by `-1`. -/
structure Host (M : Type) where
  memory_rd_b : M → Nat → Nat
  memory_rd_h : M → Nat → Nat
  memory_rd_w : M → Nat → Nat
  memory_wr_b : M → Nat → Nat → M
  memory_wr_h : M → Nat → Nat → M
  memory_wr_w : M → Nat → Nat → M
  /-- Pattern of `x << n` for an `int32_t` pattern `x` and `n ≥ 32`. -/
  shl_wide : Nat → Nat → Nat
  /-- Pattern of `x >> n` for a `uint32_t` `x` and `n ≥ 32`. -/
  shr_wide : Nat → Nat → Nat
  /-- Pattern of `x >> n` for an `int32_t` pattern `x` and `n ≥ 32`. -/
  sar_wide : Nat → Nat → Nat
  /-- The value of `INT32_MIN / -1` on `int32_t`, or `none` when the host ends
  the process at that division (the x86 division instruction raises the divide
  error there and the process is killed by SIGFPE). -/
  div_overflow : Option Int
  /-- The value of `INT32_MIN % -1` on `int32_t`, or `none` when the host ends
  the process at that division. -/
  rem_overflow : Option Int

/-- The C shift `x << n` on an `int32_t`, as the 32-bit pattern of the result. -/
def shl32 {M : Type} (h : Host M) (x : Int) (n : Nat) : Nat :=
  if n < 32 then (toU32 x <<< n) % 4294967296 else h.shl_wide (toU32 x) n % 4294967296

/-- The C shift `x >> n` on a `uint32_t`. -/
def shr32 {M : Type} (h : Host M) (x : Nat) (n : Nat) : Nat :=
  if n < 32 then (x % 4294967296) >>> n else h.shr_wide (x % 4294967296) n % 4294967296

/-- The C shift `x >> n` on an `int32_t`: arithmetic, rounding toward minus
infinity. -/
def sar32 {M : Type} (h : Host M) (x : Int) (n : Nat) : Int :=
  if n < 32 then x / (2 : Int) ^ n else toS32 (h.sar_wide (toU32 x) n)

/-- The C division `a / b` on `int32_t` for `b ≠ 0`, stored in an `int32_t`: the
quotient truncated toward zero.  The quotient of `INT32_MIN` by `-1` is no
`int32_t` and C leaves that division undefined: there the result is what the
host yields, and `none` when the host ends the process. -/
def sdiv32 {M : Type} (h : Host M) (a b : Int) : Option Int :=
  if a = -2147483648 ∧ b = -1 then h.div_overflow.map wrap32
  else some (wrap32 (Int.tdiv a b))

/-- The C remainder `a % b` on `int32_t` for `b ≠ 0`, stored in an `int32_t`:
the remainder of the truncating division.  For `INT32_MIN % -1`, undefined in C
as the division is, the result is what the host yields, and `none` when the
host ends the process. -/
def srem32 {M : Type} (h : Host M) (a b : Int) : Option Int :=
  if a = -2147483648 ∧ b = -1 then h.rem_overflow.map wrap32
  else some (wrap32 (Int.tmod a b))

/-! ## Architectural state -/

/-- The state the loop of `simulate` carries from one iteration to the next,
together with the standard input still to be read and the standard output
written so far. -/
structure State (M : Type) where
  registers : Nat → Int
  pc : Nat
  prev_pc : Nat
  insns : Nat
  mem : M
  stdin : List Nat
  stdout : List Nat

/-- How one iteration of the loop ends. -/
inductive Outcome (M : Type) where
  /-- The loop goes on with `pc = next_pc`. -/
  | running (s : State M) : Outcome M
  /-- The `exit` system call: `return stats`. -/
  | exited (s : State M) : Outcome M
  /-- The call `exit(1)` after a diagnostic on the error stream. -/
  | fatal : Outcome M
  /-- The host ends the process inside the iteration, at a division it cannot
  carry out (SIGFPE on x86): no diagnostic, no `exit(1)`, no next PC and no
  `return stats`. -/
  | trapped : Outcome M

/-- The assignment `registers[i] = v`. -/
def setReg (r : Nat → Int) (i : Nat) (v : Int) : Nat → Int :=
  fun j => if j = i then v else r j

/-- The state after `registers[rd] = v`. -/
def State.write {M : Type} (s : State M) (rd : Nat) (v : Int) : State M :=
  { s with registers := setReg s.registers rd v }

/-- The end of an iteration that reaches `pc = next_pc`. -/
def State.retire {M : Type} (s : State M) (next_pc : Nat) : Outcome M :=
  Outcome.running { s with pc := next_pc }

/-- The assignment `registers[rd] = v` and the end of the iteration for a value
`v` of a division: when the host has ended the process at the division
(`none`), nothing is assigned and the loop does not go on. -/
def State.write_or_trap {M : Type} (s : State M) (rd : Nat) (v : Option Int)
    (next_pc : Nat) : Outcome M :=
  match v with
  | some x => (s.write rd x).retire next_pc
  | none => Outcome.trapped

/-- The value `getchar()` returns: the next byte of the input, or `EOF` (-1). -/
def getchar_value (input : List Nat) : Int :=
  match input with
  | [] => -1
  | c :: _ => ((c % 256 : Nat) : Int)

/-! ## One iteration of the loop (`simulate.c` lines 112-390) -/

/-- The state after `stats.insns++`, `zero = 0` and `prev_pc = pc`
(lines 113, 116 and 128), before the instruction is executed. -/
def State.enter {M : Type} (s : State M) : State M :=
  { s with insns := s.insns + 1, registers := setReg s.registers 0 0, prev_pc := s.pc }

/-- The value of register `i` as an instruction reads it: index 0 is reset by
`zero = 0` (line 116) before any operand is read, so it reads as 0 whatever
the array holds there. -/
def State.reg {M : Type} (s : State M) (i : Nat) : Int :=
  if i = 0 then 0 else s.registers i

/-- The value of `take_branch` (lines 159-179) for the operands
`a = registers[rs1]` and `b = registers[rs2]`; an undefined `funct3` leaves it
`false`. -/
def take_branch (funct3 : Nat) (a b : Int) : Bool :=
  if funct3 = 0x0 then decide (a = b)
  else if funct3 = 0x1 then decide (a ≠ b)
  else if funct3 = 0x4 then decide (a < b)
  else if funct3 = 0x5 then decide (a ≥ b)
  else if funct3 = 0x6 then decide (toU32 a < toU32 b)
  else if funct3 = 0x7 then decide (toU32 a ≥ toU32 b)
  else false

/-- Branch instructions, `case 0x63` (lines 157-185): `s0` is the state at the
`switch`, `pc` the address of the instruction, `a = registers[rs1]`,
`b = registers[rs2]`. -/
def exec_branch {M : Type} (s0 : State M) (pc funct3 : Nat) (a b : Int)
    (instruction : Nat) : Outcome M :=
  if take_branch funct3 a b then
    s0.retire ((pc + toU32 (get_b_imm instruction)) % 4294967296)
  else
    s0.retire ((pc + 4) % 4294967296)

/-- Load instructions, `case 0x03` (lines 187-213), at the address
`addr = registers[rs1] + get_i_imm(instruction)`. -/
def exec_load {M : Type} (h : Host M) (s0 : State M) (next_pc rd funct3 addr : Nat) :
    Outcome M :=
  if funct3 = 0x0 then
    (s0.write rd (sign_extend (h.memory_rd_b s0.mem addr) 8)).retire next_pc
  else if funct3 = 0x1 then
    (s0.write rd (sign_extend (h.memory_rd_h s0.mem addr) 16)).retire next_pc
  else if funct3 = 0x2 then
    (s0.write rd (toS32 (h.memory_rd_w s0.mem addr))).retire next_pc
  else if funct3 = 0x4 then
    (s0.write rd (toS32 ((h.memory_rd_b s0.mem addr % 4294967296) &&& 0xFF))).retire next_pc
  else if funct3 = 0x5 then
    (s0.write rd (toS32 ((h.memory_rd_h s0.mem addr % 4294967296) &&& 0xFFFF))).retire next_pc
  else
    s0.retire next_pc

/-- Store instructions, `case 0x23` (lines 215-233), at the address
`addr = registers[rs1] + get_s_imm(instruction)` with `value = registers[rs2]`. -/
def exec_store {M : Type} (h : Host M) (s0 : State M) (next_pc funct3 addr value : Nat) :
    Outcome M :=
  if funct3 = 0x0 then
    State.retire { s0 with mem := h.memory_wr_b s0.mem addr value } next_pc
  else if funct3 = 0x1 then
    State.retire { s0 with mem := h.memory_wr_h s0.mem addr value } next_pc
  else if funct3 = 0x2 then
    State.retire { s0 with mem := h.memory_wr_w s0.mem addr value } next_pc
  else
    s0.retire next_pc

/-- Immediate arithmetic, `case 0x13` (lines 235-274), with `a = registers[rs1]`.
In the three shifts the C expression `registers[rs1] << (instruction >> 20) & 0x1F`
parses as `(registers[rs1] << (instruction >> 20)) & 0x1F`, since `<<` and `>>`
bind tighter than `&`. -/
def exec_imm_arith {M : Type} (h : Host M) (s0 : State M) (next_pc rd funct3 funct7 : Nat)
    (a : Int) (instruction : Nat) : Outcome M :=
  if funct3 = 0x0 then
    (s0.write rd (wrap32 (a + get_i_imm instruction))).retire next_pc
  else if funct3 = 0x1 then
    (s0.write rd (toS32 (shl32 h a (instruction >>> 20) &&& 0x1F))).retire next_pc
  else if funct3 = 0x2 then
    (s0.write rd (if a < get_i_imm instruction then 1 else 0)).retire next_pc
  else if funct3 = 0x3 then
    (s0.write rd (if toU32 a < toU32 (get_i_imm instruction) then 1 else 0)).retire next_pc
  else if funct3 = 0x4 then
    (s0.write rd (toS32 (toU32 a ^^^ toU32 (get_i_imm instruction)))).retire next_pc
  else if funct3 = 0x5 then
    if funct7 = 0x20 then
      (s0.write rd (toS32 (toU32 (sar32 h a (instruction >>> 20)) &&& 0x1F))).retire next_pc
    else
      (s0.write rd (toS32 (shr32 h (toU32 a) (instruction >>> 20) &&& 0x1F))).retire next_pc
  else if funct3 = 0x6 then
    (s0.write rd (toS32 (toU32 a ||| toU32 (get_i_imm instruction)))).retire next_pc
  else if funct3 = 0x7 then
    (s0.write rd (toS32 (toU32 a &&& toU32 (get_i_imm instruction)))).retire next_pc
  else
    s0.retire next_pc

/-- Register arithmetic, `case 0x33` (lines 276-355), with `a = registers[rs1]`
and `b = registers[rs2]`.  Signed `+`, `-`, `*` wrap; the signed `/` and `%` of
lines 307 and 333 are `sdiv32` and `srem32`, which at `INT32_MIN` by `-1`, where
the source has no guard, do what the host does. -/
def exec_reg_arith {M : Type} (h : Host M) (s0 : State M) (next_pc rd funct3 funct7 : Nat)
    (a b : Int) : Outcome M :=
  if funct3 = 0x0 then
    if funct7 = 0x20 then
      (s0.write rd (wrap32 (a - b))).retire next_pc
    else if funct7 = 0x01 then
      (s0.write rd (wrap32 (a * b))).retire next_pc
    else
      (s0.write rd (wrap32 (a + b))).retire next_pc
  else if funct3 = 0x1 then
    if funct7 = 0x01 then
      (s0.write rd (wrap32 ((a * b) / 4294967296))).retire next_pc
    else
      (s0.write rd (toS32 (shl32 h a (toU32 b &&& 0x1F)))).retire next_pc
  else if funct3 = 0x2 then
    (s0.write rd (if a < b then 1 else 0)).retire next_pc
  else if funct3 = 0x3 then
    (s0.write rd (if toU32 a < toU32 b then 1 else 0)).retire next_pc
  else if funct3 = 0x4 then
    if funct7 = 0x01 then
      if b ≠ 0 then
        s0.write_or_trap rd (sdiv32 h a b) next_pc
      else
        (s0.write rd (-1)).retire next_pc
    else
      (s0.write rd (toS32 (toU32 a ^^^ toU32 b))).retire next_pc
  else if funct3 = 0x5 then
    if funct7 = 0x20 then
      (s0.write rd (wrap32 (sar32 h a (toU32 b &&& 0x1F)))).retire next_pc
    else if funct7 = 0x01 then
      if b ≠ 0 then
        (s0.write rd (toS32 (toU32 a / toU32 b))).retire next_pc
      else
        (s0.write rd (-1)).retire next_pc
    else
      (s0.write rd (toS32 (shr32 h (toU32 a) (toU32 b &&& 0x1F)))).retire next_pc
  else if funct3 = 0x6 then
    if funct7 = 0x01 then
      if b ≠ 0 then
        s0.write_or_trap rd (srem32 h a b) next_pc
      else
        (s0.write rd a).retire next_pc
    else
      (s0.write rd (toS32 (toU32 a ||| toU32 b))).retire next_pc
  else if funct3 = 0x7 then
    if funct7 = 0x01 then
      if b ≠ 0 then
        (s0.write rd (toS32 (toU32 a % toU32 b))).retire next_pc
      else
        (s0.write rd a).retire next_pc
    else
      (s0.write rd (toS32 (toU32 a &&& toU32 b))).retire next_pc
  else
    s0.retire next_pc

/-- The `ECALL` case, `case 0x73` (lines 357-377): the system calls are
dispatched on `a7 = registers[17]` only when the word is exactly `0x73`. -/
def exec_system {M : Type} (s0 : State M) (next_pc instruction : Nat) : Outcome M :=
  if instruction = 0x73 then
    if s0.registers 17 = 1 then
      State.retire
        { (s0.write 10 (getchar_value s0.stdin)) with stdin := s0.stdin.tail } next_pc
    else if s0.registers 17 = 2 then
      State.retire { s0 with stdout := s0.stdout ++ [toU32 (s0.registers 10) % 256] } next_pc
    else if s0.registers 17 = 3 ∨ s0.registers 17 = 93 then
      Outcome.exited s0
    else
      Outcome.fatal
  else
    s0.retire next_pc

/-- The body of the loop of `simulate` from `stats.insns++` to `pc = next_pc`,
on the fetched word `instruction`: the `switch (opcode)` of line 131, entered
in the state `s.enter` with `next_pc = pc + 4`. -/
def exec {M : Type} (h : Host M) (s : State M) (instruction : Nat) : Outcome M :=
  if get_opcode instruction = 0x37 then
    (s.enter.write (get_rd instruction) (get_u_imm instruction)).retire
      ((s.pc + 4) % 4294967296)
  else if get_opcode instruction = 0x17 then
    (s.enter.write (get_rd instruction)
      (toS32 ((s.pc + toU32 (get_u_imm instruction)) % 4294967296))).retire
      ((s.pc + 4) % 4294967296)
  else if get_opcode instruction = 0x6F then
    (s.enter.write (get_rd instruction) (toS32 ((s.pc + 4) % 4294967296))).retire
      ((s.pc + toU32 (get_j_imm instruction)) % 4294967296)
  else if get_opcode instruction = 0x67 then
    (s.enter.write (get_rd instruction) (toS32 ((s.pc + 4) % 4294967296))).retire
      (toU32 (wrap32 (s.enter.registers (get_rs1 instruction) + get_i_imm instruction))
        &&& 0xFFFFFFFE)
  else if get_opcode instruction = 0x63 then
    exec_branch s.enter s.pc (get_funct3 instruction)
      (s.enter.registers (get_rs1 instruction)) (s.enter.registers (get_rs2 instruction))
      instruction
  else if get_opcode instruction = 0x03 then
    exec_load h s.enter ((s.pc + 4) % 4294967296) (get_rd instruction)
      (get_funct3 instruction)
      (toU32 (s.enter.registers (get_rs1 instruction) + get_i_imm instruction))
  else if get_opcode instruction = 0x23 then
    exec_store h s.enter ((s.pc + 4) % 4294967296) (get_funct3 instruction)
      (toU32 (s.enter.registers (get_rs1 instruction) + get_s_imm instruction))
      (toU32 (s.enter.registers (get_rs2 instruction)))
  else if get_opcode instruction = 0x13 then
    exec_imm_arith h s.enter ((s.pc + 4) % 4294967296) (get_rd instruction)
      (get_funct3 instruction) (get_funct7 instruction)
      (s.enter.registers (get_rs1 instruction)) instruction
  else if get_opcode instruction = 0x33 then
    exec_reg_arith h s.enter ((s.pc + 4) % 4294967296) (get_rd instruction)
      (get_funct3 instruction) (get_funct7 instruction)
      (s.enter.registers (get_rs1 instruction)) (s.enter.registers (get_rs2 instruction))
  else if get_opcode instruction = 0x73 then
    exec_system s.enter ((s.pc + 4) % 4294967296) instruction
  else
    Outcome.fatal

/-- The word `memory_rd_w(mem, pc)` as a `uint32_t`. -/
def fetch {M : Type} (h : Host M) (s : State M) : Nat :=
  h.memory_rd_w s.mem s.pc % 4294967296

/-- One iteration of `while (1)` in `simulate`: fetch, then execute. -/
def step {M : Type} (h : Host M) (s : State M) : Outcome M :=
  exec h s (fetch h s)

/-- The state `simulate` starts from: registers zeroed, `pc = prev_pc = start_addr`. -/
def init {M : Type} (mem : M) (start_addr : Int) (input : List Nat) : State M :=
  { registers := fun _ => 0, pc := toU32 start_addr, prev_pc := toU32 start_addr,
    insns := 0, mem := mem, stdin := input, stdout := [] }

/-- The loop of `simulate`, cut off after `fuel` iterations (`none` when the
program has not ended by then). -/
def run {M : Type} (h : Host M) : Nat → State M → Option (Outcome M)
  | 0, _ => none
  | fuel + 1, s =>
    match step h s with
    | Outcome.running s1 => run h fuel s1
    | o => some o

/-- The function `simulate`, with a bound on the number of iterations. -/
def simulate {M : Type} (h : Host M) (mem : M) (start_addr : Int) (input : List Nat)
    (fuel : Nat) : Option (Outcome M) :=
  run h fuel (init mem start_addr input)

/-! ## A concrete host -/

/-- Modelled from the spec: the memory module (`memory.c`) is not among the
sources.  Following sections 3 and 6 of the specification it is a store of
bytes at arbitrary addresses, little-endian, here a function from the address
to the byte held there. -/
def FlatMem : Type := Nat → Nat

/-- Modelled from the spec: `rd_b(addr) -> byte`, an 8-bit read. -/
def flat_rd_b (m : FlatMem) (addr : Nat) : Nat := m (addr % 4294967296) % 256

/-- Modelled from the spec: `rd_h(addr) -> halfword`, little-endian assembly
from two bytes. -/
def flat_rd_h (m : FlatMem) (addr : Nat) : Nat :=
  flat_rd_b m addr + 256 * flat_rd_b m (addr + 1)

/-- Modelled from the spec: `rd_w(addr) -> word`, a 32-bit little-endian read. -/
def flat_rd_w (m : FlatMem) (addr : Nat) : Nat :=
  flat_rd_b m addr + 256 * flat_rd_b m (addr + 1) + 65536 * flat_rd_b m (addr + 2)
    + 16777216 * flat_rd_b m (addr + 3)

/-- Modelled from the spec: `wr_b(addr, byte)`, a write of the low 8 bits. -/
def flat_wr_b (m : FlatMem) (addr : Nat) (v : Nat) : FlatMem :=
  fun a => if a = addr % 4294967296 then v % 256 else m a

/-- Modelled from the spec: `wr_h(addr, halfword)`, a write of the low 16 bits. -/
def flat_wr_h (m : FlatMem) (addr : Nat) (v : Nat) : FlatMem :=
  flat_wr_b (flat_wr_b m addr v) (addr + 1) (v / 256)

/-- Modelled from the spec: `wr_w(addr, word)`, a write of all 32 bits. -/
def flat_wr_w (m : FlatMem) (addr : Nat) (v : Nat) : FlatMem :=
  flat_wr_b (flat_wr_b (flat_wr_b (flat_wr_b m addr v) (addr + 1) (v / 256))
    (addr + 2) (v / 65536)) (addr + 3) (v / 16777216)

/-- The host with the flat memory in which the shifts by 32 or more yield what
the three given functions say, and which ends the process at the division and
at the remainder of `INT32_MIN` by `-1`, as the x86 division instruction does. -/
def flatHostWith (shl shr sar : Nat → Nat → Nat) : Host FlatMem where
  memory_rd_b := flat_rd_b
  memory_rd_h := flat_rd_h
  memory_rd_w := flat_rd_w
  memory_wr_b := flat_wr_b
  memory_wr_h := flat_wr_h
  memory_wr_w := flat_wr_w
  shl_wide := shl
  shr_wide := shr
  sar_wide := sar
  div_overflow := none
  rem_overflow := none

/-- A host with the flat memory that behaves as x86 does: the shift
instructions use the count modulo 32, and the division instruction traps at
`INT32_MIN` by `-1`. -/
def flatHost : Host FlatMem :=
  flatHostWith (fun x n => (x <<< (n % 32)) % 4294967296) (fun x n => x >>> (n % 32))
    (fun x n => toU32 (toS32 x / (2 : Int) ^ (n % 32)))

/-- The memory that holds the words `ws` from address `base` on and zero
bytes elsewhere. -/
def loadWords (base : Nat) (ws : List Nat) : FlatMem :=
  fun a =>
    if base ≤ a ∧ a < base + 4 * ws.length then
      (ws.getD ((a - base) / 4) 0 / 256 ^ ((a - base) % 4)) % 256
    else 0

/-- The state at `pc = 0x1000` of a run over the flat memory that holds the
words `ws` from `0x1000` on, with the register file `rs`. -/
def progState (ws : List Nat) (rs : Nat → Int) : State FlatMem :=
  { registers := rs, pc := 0x1000, prev_pc := 0x1000, insns := 0,
    mem := loadWords 0x1000 ws, stdin := [], stdout := [] }

/-! ## The encodings as the specification reads them -/

/-- Bits `hi:lo` of the word `w`, as a number. -/
def bitsOf (w hi lo : Nat) : Nat := w / 2 ^ lo % 2 ^ (hi + 1 - lo)

/-- The signed value of the `n`-bit field `x`, sign-extended from `n` bits:
`x` when bit `n - 1` is clear and `x - 2^n` when it is set. -/
def signed_of_field (n x : Nat) : Int :=
  if x < 2 ^ (n - 1) then (x : Int) else (x : Int) - 2 ^ n

/-- The 13-bit field of the B-immediate in the words of the specification:
bit 12 is `w[31]`, bit 11 is `w[7]`, bits 10:5 are `w[30:25]`, bits 4:1 are
`w[11:8]`, bit 0 is 0. -/
def spec_b_field (w : Nat) : Nat :=
  2 ^ 12 * bitsOf w 31 31 + 2 ^ 11 * bitsOf w 7 7 + 2 ^ 5 * bitsOf w 30 25
    + 2 ^ 1 * bitsOf w 11 8

/-- The 21-bit field of the J-immediate in the words of the specification:
bit 20 is `w[31]`, bits 19:12 are `w[19:12]`, bit 11 is `w[20]`, bits 10:1 are
`w[30:21]`, bit 0 is 0. -/
def spec_j_field (w : Nat) : Nat :=
  2 ^ 20 * bitsOf w 31 31 + 2 ^ 12 * bitsOf w 19 12 + 2 ^ 11 * bitsOf w 20 20
    + 2 ^ 1 * bitsOf w 30 21

/-- The rows of the mnemonic table of the specification (section 4.2) under
opcode 0x33: the pairs of `funct3` and `funct7` that name an instruction. -/
def spec_reg_arith_row (funct3 funct7 : Nat) : Bool :=
  decide
    ((funct3 = 0 ∧ (funct7 = 0x00 ∨ funct7 = 0x20 ∨ funct7 = 0x01)) ∨
     (funct3 = 1 ∧ (funct7 = 0x00 ∨ funct7 = 0x01)) ∨
     (funct3 = 2 ∧ funct7 = 0x00) ∨
     (funct3 = 3 ∧ funct7 = 0x00) ∨
     (funct3 = 4 ∧ (funct7 = 0x00 ∨ funct7 = 0x01)) ∨
     (funct3 = 5 ∧ (funct7 = 0x00 ∨ funct7 = 0x20 ∨ funct7 = 0x01)) ∨
     (funct3 = 6 ∧ (funct7 = 0x00 ∨ funct7 = 0x01)) ∨
     (funct3 = 7 ∧ (funct7 = 0x00 ∨ funct7 = 0x01)))

/-- Every continuing outcome `o` holds at index 0 what `s0` holds there. -/
def KeepsX0 {M : Type} (s0 : State M) (o : Outcome M) : Prop :=
  ∀ s1, o = Outcome.running s1 → s1.registers 0 = s0.registers 0

/-! ## Notions used by the statements about runs and memory -/

/-- The state after `n` iterations of the loop that all continue; `none` when
one of them ends the run. -/
def steps {M : Type} (h : Host M) : Nat → State M → Option (State M)
  | 0, s => some s
  | n + 1, s =>
    match step h s with
    | Outcome.running s1 => steps h n s1
    | _ => none

/-- A memory whose byte, halfword and word reads return the last value written
at that address at that width, as an unsigned 8, 16 or 32-bit value. -/
def ReadsLastWrite {M : Type} (h : Host M) : Prop :=
  (∀ m a v, h.memory_rd_b (h.memory_wr_b m a v) a = v % 256) ∧
  (∀ m a v, h.memory_rd_h (h.memory_wr_h m a v) a = v % 65536) ∧
  (∀ m a v, h.memory_rd_w (h.memory_wr_w m a v) a = v % 4294967296)

/-- The 12-bit field of the S-immediate in the words of the specification:
bits 11:5 are `w[31:25]` and bits 4:0 are `w[11:7]`. -/
def spec_s_field (w : Nat) : Nat :=
  2 ^ 5 * bitsOf w 31 25 + bitsOf w 11 7

/-- The outcome `o` satisfies `P` when it continues, `Q` when it returns, `F`
when it is the fatal exit and `T` when the host has ended the process. -/
def Outcome.Sat {M : Type} (P Q : State M → Prop) (F T : Prop) : Outcome M → Prop
  | Outcome.running s => P s
  | Outcome.exited s => Q s
  | Outcome.fatal => F
  | Outcome.trapped => T

/-- The step on the word `w` in the state `s` is a signed division or remainder
(opcode 0x33, funct7 0x01, funct3 4 or 6) of `INT32_MIN` by `-1`, on a host
that ends the process at it. -/
def overflow_trap {M : Type} (h : Host M) (s : State M) (w : Nat) : Prop :=
  get_opcode w = 0x33 ∧ get_funct7 w = 0x01 ∧
  ((get_funct3 w = 0x4 ∧ h.div_overflow = none) ∨
    (get_funct3 w = 0x6 ∧ h.rem_overflow = none)) ∧
  s.reg (get_rs1 w) = -2147483648 ∧ s.reg (get_rs2 w) = -1

instance {M : Type} (h : Host M) (s : State M) (w : Nat) : Decidable (overflow_trap h s w) := by
  unfold overflow_trap; infer_instance

/-- The opcodes the `switch` of line 131 has a case for. -/
def defined_opcode (opcode : Nat) : Prop :=
  opcode = 0x37 ∨ opcode = 0x17 ∨ opcode = 0x6F ∨ opcode = 0x67 ∨ opcode = 0x63 ∨
  opcode = 0x03 ∨ opcode = 0x23 ∨ opcode = 0x13 ∨ opcode = 0x33 ∨ opcode = 0x73

instance (opcode : Nat) : Decidable (defined_opcode opcode) := by
  unfold defined_opcode; infer_instance

/-- Every entry of the register file is a value of the type `int32_t`. -/
def RegsInt32 {M : Type} (s : State M) : Prop :=
  ∀ i, IsInt32 (s.registers i)

/-! ## The disassembler (`disassemble.c`)

Strings are lists of characters.  The buffer `result` is a value: `disassemble`
takes what the buffer holds before the call and returns what it holds after. -/

namespace Dis

/-- The function `sign_extend` of `disassemble.c` (lines 14-17). -/
def sign_extend (x : Nat) (bits : Nat) : Int :=
  let sign_bit := (1 <<< (bits - 1)) % 4294967296
  toS32 ((((x % 4294967296) ^^^ sign_bit) + 4294967296 - sign_bit) % 4294967296)

/-- The function `get_i_imm` of `disassemble.c` (lines 20-22). -/
def get_i_imm (inst : Nat) : Int :=
  sign_extend (inst >>> 20) 12

/-- The function `get_s_imm` of `disassemble.c` (lines 24-26). -/
def get_s_imm (inst : Nat) : Int :=
  sign_extend ((((inst >>> 25) <<< 5) % 4294967296) ||| ((inst >>> 7) &&& 0x1F)) 12

/-- The function `get_b_imm` of `disassemble.c` (lines 28-35). -/
def get_b_imm (inst : Nat) : Int :=
  sign_extend
    ((((inst >>> 31) <<< 12) % 4294967296) |||
      ((((inst >>> 7) &&& 0x1) <<< 11) % 4294967296) |||
      ((((inst >>> 25) &&& 0x3F) <<< 5) % 4294967296) |||
      ((((inst >>> 8) &&& 0xF) <<< 1) % 4294967296))
    13

/-- The function `get_u_imm` of `disassemble.c` (lines 37-39). -/
def get_u_imm (inst : Nat) : Int :=
  toS32 (inst &&& 0xFFFFF000)

/-- The function `get_j_imm` of `disassemble.c` (lines 41-48). -/
def get_j_imm (inst : Nat) : Int :=
  sign_extend
    ((((inst >>> 31) <<< 20) % 4294967296) |||
      ((((inst >>> 12) &&& 0xFF) <<< 12) % 4294967296) |||
      ((((inst >>> 20) &&& 0x1) <<< 11) % 4294967296) |||
      ((((inst >>> 21) &&& 0x3FF) <<< 1) % 4294967296))
    21

end Dis

/-- The table `reg_names` (lines 51-56). -/
def reg_names : List String :=
  ["zero", "ra", "sp", "gp", "tp", "t0", "t1", "t2",
   "s0", "s1", "a0", "a1", "a2", "a3", "a4", "a5",
   "a6", "a7", "s2", "s3", "s4", "s5", "s6", "s7",
   "s8", "s9", "s10", "s11", "t3", "t4", "t5", "t6"]

/-- The string `reg_names[i]`. -/
def reg_name (i : Nat) : List Char := (reg_names.getD i "").toList

/-- The conversion `%x` of the C library applied to a 32-bit argument: the
pattern read as unsigned, in hexadecimal with lower-case digits and no padding. -/
def fmt_x (n : Nat) : List Char := Nat.toDigits 16 (n % 4294967296)

/-- The conversion `%08x`: as `%x`, padded on the left with zeros to 8 digits. -/
def fmt_08x (n : Nat) : List Char :=
  List.replicate (8 - (fmt_x n).length) '0' ++ fmt_x n

/-- The conversion `%d` of the C library: the signed value in decimal. -/
def fmt_d (x : Int) : List Char :=
  if x < 0 then "-".toList ++ Nat.toDigits 10 x.natAbs else Nat.toDigits 10 x.toNat

/-- The call `snprintf(result, buf_size, ...)` of the C library for the
formatted text `text`: at most `buf_size - 1` characters of the text are stored,
followed by the terminator, and nothing is stored when `buf_size` is 0.  The
value is the string `result` holds after the call. -/
def snprintf (result : List Char) (buf_size : Nat) (text : List Char) : List Char :=
  if buf_size = 0 then result else text.take (buf_size - 1)

/-- The value of `symbol` at line 67:
`symbols ? symbols_value_to_sym(symbols, addr) : NULL`.  The function
`symbols_value_to_sym` belongs to `read_elf.h` and is taken from outside; a
null pointer is `none`. -/
def symbol_at {S : Type} (symbols_value_to_sym : S → Nat → Option (List Char))
    (symbols : Option S) (addr : Nat) : Option (List Char) :=
  match symbols with
  | some t => symbols_value_to_sym t addr
  | none => none

/-- Branch instructions, `case 0x63` (lines 90-114). -/
def dis_branch (result : List Char) (buf_size addr rs1 rs2 funct3 instruction : Nat) :
    List Char :=
  if funct3 = 0x0 then
    snprintf result buf_size ("beq      ".toList ++ reg_name rs1 ++ ",".toList ++ reg_name rs2
      ++ ",0x".toList ++ fmt_x ((addr + toU32 (Dis.get_b_imm instruction)) % 4294967296))
  else if funct3 = 0x1 then
    snprintf result buf_size ("bne      ".toList ++ reg_name rs1 ++ ",".toList ++ reg_name rs2
      ++ ",0x".toList ++ fmt_x ((addr + toU32 (Dis.get_b_imm instruction)) % 4294967296))
  else if funct3 = 0x4 then
    snprintf result buf_size ("blt      ".toList ++ reg_name rs1 ++ ",".toList ++ reg_name rs2
      ++ ",0x".toList ++ fmt_x ((addr + toU32 (Dis.get_b_imm instruction)) % 4294967296))
  else if funct3 = 0x5 then
    snprintf result buf_size ("bge      ".toList ++ reg_name rs1 ++ ",".toList ++ reg_name rs2
      ++ ",0x".toList ++ fmt_x ((addr + toU32 (Dis.get_b_imm instruction)) % 4294967296))
  else if funct3 = 0x6 then
    snprintf result buf_size ("bltu     ".toList ++ reg_name rs1 ++ ",".toList ++ reg_name rs2
      ++ ",0x".toList ++ fmt_x ((addr + toU32 (Dis.get_b_imm instruction)) % 4294967296))
  else if funct3 = 0x7 then
    snprintf result buf_size ("bgeu     ".toList ++ reg_name rs1 ++ ",".toList ++ reg_name rs2
      ++ ",0x".toList ++ fmt_x ((addr + toU32 (Dis.get_b_imm instruction)) % 4294967296))
  else
    snprintf result buf_size "unknown branch".toList

/-- Load instructions, `case 0x03` (lines 116-137). -/
def dis_load (result : List Char) (buf_size rd rs1 funct3 instruction : Nat) : List Char :=
  if funct3 = 0x0 then
    snprintf result buf_size ("lb       ".toList ++ reg_name rd ++ ",".toList
      ++ fmt_d (Dis.get_i_imm instruction) ++ "(".toList ++ reg_name rs1 ++ ")".toList)
  else if funct3 = 0x1 then
    snprintf result buf_size ("lh       ".toList ++ reg_name rd ++ ",".toList
      ++ fmt_d (Dis.get_i_imm instruction) ++ "(".toList ++ reg_name rs1 ++ ")".toList)
  else if funct3 = 0x2 then
    snprintf result buf_size ("lw       ".toList ++ reg_name rd ++ ",".toList
      ++ fmt_d (Dis.get_i_imm instruction) ++ "(".toList ++ reg_name rs1 ++ ")".toList)
  else if funct3 = 0x4 then
    snprintf result buf_size ("lbu      ".toList ++ reg_name rd ++ ",".toList
      ++ fmt_d (Dis.get_i_imm instruction) ++ "(".toList ++ reg_name rs1 ++ ")".toList)
  else if funct3 = 0x5 then
    snprintf result buf_size ("lhu      ".toList ++ reg_name rd ++ ",".toList
      ++ fmt_d (Dis.get_i_imm instruction) ++ "(".toList ++ reg_name rs1 ++ ")".toList)
  else
    snprintf result buf_size "unknown load".toList

/-- Store instructions, `case 0x23` (lines 139-154). -/
def dis_store (result : List Char) (buf_size rs1 rs2 funct3 instruction : Nat) : List Char :=
  if funct3 = 0x0 then
    snprintf result buf_size ("sb       ".toList ++ reg_name rs2 ++ ",".toList
      ++ fmt_d (Dis.get_s_imm instruction) ++ "(".toList ++ reg_name rs1 ++ ")".toList)
  else if funct3 = 0x1 then
    snprintf result buf_size ("sh       ".toList ++ reg_name rs2 ++ ",".toList
      ++ fmt_d (Dis.get_s_imm instruction) ++ "(".toList ++ reg_name rs1 ++ ")".toList)
  else if funct3 = 0x2 then
    snprintf result buf_size ("sw       ".toList ++ reg_name rs2 ++ ",".toList
      ++ fmt_d (Dis.get_s_imm instruction) ++ "(".toList ++ reg_name rs1 ++ ")".toList)
  else
    snprintf result buf_size "unknown store".toList

/-- Immediate arithmetic, `case 0x13` (lines 156-189).  The shift count printed
with `%d` is the field `rs2`. -/
def dis_imm_arith (result : List Char) (buf_size rd rs1 rs2 funct3 funct7 instruction : Nat) :
    List Char :=
  if funct3 = 0x0 then
    snprintf result buf_size ("addi     ".toList ++ reg_name rd ++ ",".toList ++ reg_name rs1
      ++ ",".toList ++ fmt_d (Dis.get_i_imm instruction))
  else if funct3 = 0x1 then
    snprintf result buf_size ("slli     ".toList ++ reg_name rd ++ ",".toList ++ reg_name rs1
      ++ ",".toList ++ fmt_d (rs2 : Int))
  else if funct3 = 0x2 then
    snprintf result buf_size ("slti     ".toList ++ reg_name rd ++ ",".toList ++ reg_name rs1
      ++ ",".toList ++ fmt_d (Dis.get_i_imm instruction))
  else if funct3 = 0x3 then
    snprintf result buf_size ("sltiu    ".toList ++ reg_name rd ++ ",".toList ++ reg_name rs1
      ++ ",".toList ++ fmt_d (Dis.get_i_imm instruction))
  else if funct3 = 0x4 then
    snprintf result buf_size ("xori     ".toList ++ reg_name rd ++ ",".toList ++ reg_name rs1
      ++ ",".toList ++ fmt_d (Dis.get_i_imm instruction))
  else if funct3 = 0x5 then
    if funct7 = 0x20 then
      snprintf result buf_size ("srai     ".toList ++ reg_name rd ++ ",".toList ++ reg_name rs1
        ++ ",".toList ++ fmt_d (rs2 : Int))
    else
      snprintf result buf_size ("srli     ".toList ++ reg_name rd ++ ",".toList ++ reg_name rs1
        ++ ",".toList ++ fmt_d (rs2 : Int))
  else if funct3 = 0x6 then
    snprintf result buf_size ("ori      ".toList ++ reg_name rd ++ ",".toList ++ reg_name rs1
      ++ ",".toList ++ fmt_d (Dis.get_i_imm instruction))
  else if funct3 = 0x7 then
    snprintf result buf_size ("andi     ".toList ++ reg_name rd ++ ",".toList ++ reg_name rs1
      ++ ",".toList ++ fmt_d (Dis.get_i_imm instruction))
  else
    snprintf result buf_size "unknown immediate arithmetic".toList

/-- Register arithmetic, `case 0x33` (lines 191-243). -/
def dis_reg_arith (result : List Char) (buf_size rd rs1 rs2 funct3 funct7 : Nat) : List Char :=
  if funct3 = 0x0 then
    if funct7 = 0x20 then
      snprintf result buf_size ("sub      ".toList ++ reg_name rd ++ ",".toList ++ reg_name rs1
        ++ ",".toList ++ reg_name rs2)
    else if funct7 = 0x01 then
      snprintf result buf_size ("mul      ".toList ++ reg_name rd ++ ",".toList ++ reg_name rs1
        ++ ",".toList ++ reg_name rs2)
    else
      snprintf result buf_size ("add      ".toList ++ reg_name rd ++ ",".toList ++ reg_name rs1
        ++ ",".toList ++ reg_name rs2)
  else if funct3 = 0x1 then
    if funct7 = 0x01 then
      snprintf result buf_size ("mulh     ".toList ++ reg_name rd ++ ",".toList ++ reg_name rs1
        ++ ",".toList ++ reg_name rs2)
    else
      snprintf result buf_size ("sll      ".toList ++ reg_name rd ++ ",".toList ++ reg_name rs1
        ++ ",".toList ++ reg_name rs2)
  else if funct3 = 0x2 then
    snprintf result buf_size ("slt      ".toList ++ reg_name rd ++ ",".toList ++ reg_name rs1
      ++ ",".toList ++ reg_name rs2)
  else if funct3 = 0x3 then
    snprintf result buf_size ("sltu     ".toList ++ reg_name rd ++ ",".toList ++ reg_name rs1
      ++ ",".toList ++ reg_name rs2)
  else if funct3 = 0x4 then
    if funct7 = 0x01 then
      snprintf result buf_size ("div      ".toList ++ reg_name rd ++ ",".toList ++ reg_name rs1
        ++ ",".toList ++ reg_name rs2)
    else
      snprintf result buf_size ("xor      ".toList ++ reg_name rd ++ ",".toList ++ reg_name rs1
        ++ ",".toList ++ reg_name rs2)
  else if funct3 = 0x5 then
    if funct7 = 0x20 then
      snprintf result buf_size ("sra      ".toList ++ reg_name rd ++ ",".toList ++ reg_name rs1
        ++ ",".toList ++ reg_name rs2)
    else if funct7 = 0x01 then
      snprintf result buf_size ("divu     ".toList ++ reg_name rd ++ ",".toList ++ reg_name rs1
        ++ ",".toList ++ reg_name rs2)
    else
      snprintf result buf_size ("srl      ".toList ++ reg_name rd ++ ",".toList ++ reg_name rs1
        ++ ",".toList ++ reg_name rs2)
  else if funct3 = 0x6 then
    if funct7 = 0x01 then
      snprintf result buf_size ("rem      ".toList ++ reg_name rd ++ ",".toList ++ reg_name rs1
        ++ ",".toList ++ reg_name rs2)
    else
      snprintf result buf_size ("or       ".toList ++ reg_name rd ++ ",".toList ++ reg_name rs1
        ++ ",".toList ++ reg_name rs2)
  else if funct3 = 0x7 then
    if funct7 = 0x01 then
      snprintf result buf_size ("remu     ".toList ++ reg_name rd ++ ",".toList ++ reg_name rs1
        ++ ",".toList ++ reg_name rs2)
    else
      snprintf result buf_size ("and      ".toList ++ reg_name rd ++ ",".toList ++ reg_name rs1
        ++ ",".toList ++ reg_name rs2)
  else
    snprintf result buf_size "unknown register arithmetic".toList

/-- The `switch (opcode)` of `disassemble` (lines 73-256), reached when the
address has no symbol.  In `get_u_imm(instruction) >> 12` the operand is an
`int32_t`, so the shift is arithmetic and rounds toward minus infinity. -/
def dis_opcode (addr instruction : Nat) (result : List Char) (buf_size : Nat) : List Char :=
  if get_opcode instruction = 0x37 then
    snprintf result buf_size ("lui      ".toList ++ reg_name (get_rd instruction)
      ++ ",0x".toList ++ fmt_x (toU32 (Dis.get_u_imm instruction / 4096)))
  else if get_opcode instruction = 0x17 then
    snprintf result buf_size ("auipc    ".toList ++ reg_name (get_rd instruction)
      ++ ",0x".toList ++ fmt_x (toU32 (Dis.get_u_imm instruction / 4096)))
  else if get_opcode instruction = 0x6F then
    snprintf result buf_size ("jal      ".toList ++ reg_name (get_rd instruction)
      ++ ",0x".toList ++ fmt_x ((addr + toU32 (Dis.get_j_imm instruction)) % 4294967296))
  else if get_opcode instruction = 0x67 then
    snprintf result buf_size ("jalr     ".toList ++ reg_name (get_rd instruction)
      ++ ",".toList ++ reg_name (get_rs1 instruction)
      ++ ",".toList ++ fmt_d (Dis.get_i_imm instruction))
  else if get_opcode instruction = 0x63 then
    dis_branch result buf_size addr (get_rs1 instruction) (get_rs2 instruction)
      (get_funct3 instruction) instruction
  else if get_opcode instruction = 0x03 then
    dis_load result buf_size (get_rd instruction) (get_rs1 instruction)
      (get_funct3 instruction) instruction
  else if get_opcode instruction = 0x23 then
    dis_store result buf_size (get_rs1 instruction) (get_rs2 instruction)
      (get_funct3 instruction) instruction
  else if get_opcode instruction = 0x13 then
    dis_imm_arith result buf_size (get_rd instruction) (get_rs1 instruction)
      (get_rs2 instruction) (get_funct3 instruction) (get_funct7 instruction) instruction
  else if get_opcode instruction = 0x33 then
    dis_reg_arith result buf_size (get_rd instruction) (get_rs1 instruction)
      (get_rs2 instruction) (get_funct3 instruction) (get_funct7 instruction)
  else if get_opcode instruction = 0x73 then
    if instruction = 0x73 then
      snprintf result buf_size "ecall".toList
    else
      snprintf result buf_size "unknown system".toList
  else
    snprintf result buf_size ("unknown instruction 0x".toList ++ fmt_08x instruction)

/-- The function `disassemble(addr, instruction, result, buf_size, symbols)`:
the string the buffer `result` holds after the call. -/
def disassemble {S : Type} (symbols_value_to_sym : S → Nat → Option (List Char))
    (addr instruction : Nat) (result : List Char) (buf_size : Nat) (symbols : Option S) :
    List Char :=
  match symbol_at symbols_value_to_sym symbols addr with
  | some symbol => snprintf result buf_size (symbol ++ ":".toList)
  | none => dis_opcode addr instruction result buf_size

/-- Modelled from the spec: the symbol module (`read_elf.c`) is not among the
sources.  Following section 6 of the specification, `value_to_sym(addr)` is an
exact-match lookup from the address to the name, if any; the table is the
function itself.  It stands for `symbols_value_to_sym` in the examples. -/
def lookup_sym (t : Nat → Option (List Char)) (addr : Nat) : Option (List Char) := t addr

/-- The rows of the mnemonic table of the specification (section 4.2) under
opcode 0x13: `funct3` 5 names an instruction with `funct7` 0x00 or 0x20 only,
the other values of `funct3` with every `funct7`. -/
def spec_imm_arith_row (funct3 funct7 : Nat) : Bool :=
  decide (funct3 < 8 ∧ (funct3 = 5 → funct7 = 0x00 ∨ funct7 = 0x20))

/-- The mnemonic, padded to 9 characters, that `disassemble` prints for a word of
opcode 0x33 whose `funct7` is neither 0x20 nor 0x01. -/
def base_mnemonic (funct3 : Nat) : List Char :=
  (["add      ", "sll      ", "slt      ", "sltu     ", "xor      ", "srl      ",
    "or       ", "and      "].getD funct3 "").toList

/-- The formatted text is an instruction line: it starts with a character other
than `u`, so it is none of the placeholders, which all start with "unknown". -/
def IsLine (text : List Char) : Prop := ∃ c t, c ≠ 'u' ∧ text = c :: t

/-- The rows of the mnemonic table of the specification (section 4.2): the word
`w` matches a row. -/
def spec_table_row (w : Nat) : Bool :=
  decide
    (get_opcode w = 0x37 ∨ get_opcode w = 0x17 ∨ get_opcode w = 0x6F ∨ get_opcode w = 0x67 ∨
     (get_opcode w = 0x63 ∧ (get_funct3 w = 0 ∨ get_funct3 w = 1 ∨ get_funct3 w = 4 ∨
        get_funct3 w = 5 ∨ get_funct3 w = 6 ∨ get_funct3 w = 7)) ∨
     (get_opcode w = 0x03 ∧ (get_funct3 w = 0 ∨ get_funct3 w = 1 ∨ get_funct3 w = 2 ∨
        get_funct3 w = 4 ∨ get_funct3 w = 5)) ∨
     (get_opcode w = 0x23 ∧ (get_funct3 w = 0 ∨ get_funct3 w = 1 ∨ get_funct3 w = 2)) ∨
     (get_opcode w = 0x13 ∧ spec_imm_arith_row (get_funct3 w) (get_funct7 w) = true) ∨
     (get_opcode w = 0x33 ∧ spec_reg_arith_row (get_funct3 w) (get_funct7 w) = true) ∨
     w = 0x73)

/-! # Theorems -/

/-! ## Machine integers and bit fields -/

theorem toU32_lt (x : Int) : toU32 x < 4294967296 := by
  unfold toU32; omega

theorem toS32_isInt32 (n : Nat) : IsInt32 (toS32 n) := by
  unfold IsInt32 toS32; split <;> omega

theorem wrap32_of_isInt32 (x : Int) (hx : IsInt32 x) : wrap32 x = x := by
  unfold IsInt32 at hx
  unfold wrap32 toS32 toU32; split <;> omega

theorem toU32_toS32 (n : Nat) : toU32 (toS32 n) = n % 4294967296 := by
  unfold toS32 toU32; split <;> omega

theorem or_eq_add_of_low (k x y : Nat) (hx : x % 2 ^ k = 0) (hy : y < 2 ^ k) :
    x ||| y = x + y := by
  have h1 : x = 2 ^ k * (x / 2 ^ k) := by
    have := Nat.div_add_mod x (2 ^ k)
    omega
  rw [h1]
  exact (Nat.mul_add_lt_is_or hy _).symm

theorem two_pow_xor_of_lt (k r : Nat) (hr : r < 2 ^ k) : 2 ^ k ^^^ r = 2 ^ k + r := by
  have h1 : 2 ^ k + r = 2 ^ k ||| r := by
    have := Nat.mul_add_lt_is_or hr 1
    simpa using this
  rw [h1]
  apply Nat.eq_of_testBit_eq
  intro i
  simp only [Nat.testBit_xor, Nat.testBit_or, Nat.testBit_two_pow]
  by_cases hki : k = i
  · subst hki
    simp [Nat.testBit_lt_two_pow hr]
  · simp [hki]

theorem xor_two_pow (k x : Nat) (hx : x < 2 ^ (k + 1)) :
    x ^^^ 2 ^ k = if x < 2 ^ k then x + 2 ^ k else x - 2 ^ k := by
  have hp : 2 ^ (k + 1) = 2 * 2 ^ k := by rw [Nat.pow_succ]; omega
  split
  · rename_i h
    rw [Nat.xor_comm, two_pow_xor_of_lt k x h]; omega
  · rename_i h
    have hr : x - 2 ^ k < 2 ^ k := by omega
    have hx2 : x = 2 ^ k ^^^ (x - 2 ^ k) := by
      rw [two_pow_xor_of_lt k _ hr]; omega
    conv => lhs; rw [hx2]
    rw [Nat.xor_comm, ← Nat.xor_assoc, Nat.xor_self, Nat.zero_xor]

theorem sign_extend_eq (n x : Nat) (hn : 1 ≤ n) (hn32 : n ≤ 32) (hx : x < 2 ^ n) :
    sign_extend x n = signed_of_field n x := by
  obtain ⟨k, rfl⟩ : ∃ k, n = k + 1 := ⟨n - 1, by omega⟩
  have hk : k < 32 := by omega
  have hpk : 2 ^ k < 4294967296 := by
    have : 2 ^ k < 2 ^ 32 := Nat.pow_lt_pow_right (by norm_num) hk
    simpa using this
  have hpk1 : 2 ^ (k + 1) ≤ 4294967296 := by
    have : 2 ^ (k + 1) ≤ 2 ^ 32 := Nat.pow_le_pow_right (by norm_num) (by omega)
    simpa using this
  have hp : 2 ^ (k + 1) = 2 * 2 ^ k := by rw [Nat.pow_succ]; omega
  unfold sign_extend signed_of_field
  simp only [Nat.add_sub_cancel, Nat.shiftLeft_eq, Nat.one_mul]
  rw [Nat.mod_eq_of_lt hpk, Nat.mod_eq_of_lt (by omega : x < 4294967296), xor_two_pow k x hx]
  have e1 : ((2 : Int) ^ k) = ((2 ^ k : Nat) : Int) := by push_cast; rfl
  have e2 : ((2 : Int) ^ (k + 1)) = ((2 ^ (k + 1) : Nat) : Int) := by push_cast; rfl
  rw [e2, hp]
  generalize 2 ^ k = p at *
  unfold toS32
  split <;> split <;> omega

theorem and_1 (x : Nat) : x &&& 1 = x % 2 := Nat.and_pow_two_sub_one_eq_mod x 1
theorem and_7 (x : Nat) : x &&& 7 = x % 8 := Nat.and_pow_two_sub_one_eq_mod x 3
theorem and_15 (x : Nat) : x &&& 15 = x % 16 := Nat.and_pow_two_sub_one_eq_mod x 4
theorem and_31 (x : Nat) : x &&& 31 = x % 32 := Nat.and_pow_two_sub_one_eq_mod x 5
theorem and_63 (x : Nat) : x &&& 63 = x % 64 := Nat.and_pow_two_sub_one_eq_mod x 6
theorem and_255 (x : Nat) : x &&& 255 = x % 256 := Nat.and_pow_two_sub_one_eq_mod x 8
theorem and_1023 (x : Nat) : x &&& 1023 = x % 1024 := Nat.and_pow_two_sub_one_eq_mod x 10
theorem and_65535 (x : Nat) : x &&& 65535 = x % 65536 := Nat.and_pow_two_sub_one_eq_mod x 16

theorem b_field_eq (w : Nat) (hw : w < 4294967296) :
    ((((w >>> 31) <<< 12) % 4294967296) |||
      ((((w >>> 7) &&& 0x1) <<< 11) % 4294967296) |||
      ((((w >>> 25) &&& 0x3F) <<< 5) % 4294967296) |||
      ((((w >>> 8) &&& 0xF) <<< 1) % 4294967296)) = spec_b_field w := by
  simp only [Nat.shiftRight_eq_div_pow, Nat.shiftLeft_eq, and_1, and_63, and_15]
  unfold spec_b_field bitsOf
  norm_num
  have hA : w / 2147483648 * 4096 % 4294967296 = w / 2147483648 * 4096 := by omega
  have hB : w / 128 % 2 * 2048 % 4294967296 = w / 128 % 2 * 2048 := by omega
  have hC : w / 33554432 % 64 * 32 % 4294967296 = w / 33554432 % 64 * 32 := by omega
  have hD : w / 256 % 16 * 2 % 4294967296 = w / 256 % 16 * 2 := by omega
  rw [hA, hB, hC, hD]
  have e1 : w / 2147483648 * 4096 ||| w / 128 % 2 * 2048
      = w / 2147483648 * 4096 + w / 128 % 2 * 2048 :=
    or_eq_add_of_low 12 _ _ (by omega) (by omega)
  rw [e1]
  have e2 : w / 2147483648 * 4096 + w / 128 % 2 * 2048 ||| w / 33554432 % 64 * 32
      = w / 2147483648 * 4096 + w / 128 % 2 * 2048 + w / 33554432 % 64 * 32 :=
    or_eq_add_of_low 11 _ _ (by omega) (by omega)
  rw [e2]
  have e3 : w / 2147483648 * 4096 + w / 128 % 2 * 2048 + w / 33554432 % 64 * 32
        ||| w / 256 % 16 * 2
      = w / 2147483648 * 4096 + w / 128 % 2 * 2048 + w / 33554432 % 64 * 32
        + w / 256 % 16 * 2 :=
    or_eq_add_of_low 5 _ _ (by omega) (by omega)
  rw [e3]
  omega

theorem j_field_eq (w : Nat) (hw : w < 4294967296) :
    ((((w >>> 31) <<< 20) % 4294967296) |||
      ((((w >>> 12) &&& 0xFF) <<< 12) % 4294967296) |||
      ((((w >>> 20) &&& 0x1) <<< 11) % 4294967296) |||
      ((((w >>> 21) &&& 0x3FF) <<< 1) % 4294967296)) = spec_j_field w := by
  simp only [Nat.shiftRight_eq_div_pow, Nat.shiftLeft_eq, and_1, and_255, and_1023]
  unfold spec_j_field bitsOf
  norm_num
  have hA : w / 2147483648 * 1048576 % 4294967296 = w / 2147483648 * 1048576 := by omega
  have hB : w / 4096 % 256 * 4096 % 4294967296 = w / 4096 % 256 * 4096 := by omega
  have hC : w / 1048576 % 2 * 2048 % 4294967296 = w / 1048576 % 2 * 2048 := by omega
  have hD : w / 2097152 % 1024 * 2 % 4294967296 = w / 2097152 % 1024 * 2 := by omega
  rw [hA, hB, hC, hD]
  have e1 : w / 2147483648 * 1048576 ||| w / 4096 % 256 * 4096
      = w / 2147483648 * 1048576 + w / 4096 % 256 * 4096 :=
    or_eq_add_of_low 20 _ _ (by omega) (by omega)
  rw [e1]
  have e2 : w / 2147483648 * 1048576 + w / 4096 % 256 * 4096 ||| w / 1048576 % 2 * 2048
      = w / 2147483648 * 1048576 + w / 4096 % 256 * 4096 + w / 1048576 % 2 * 2048 :=
    or_eq_add_of_low 12 _ _ (by omega) (by omega)
  rw [e2]
  have e3 : w / 2147483648 * 1048576 + w / 4096 % 256 * 4096 + w / 1048576 % 2 * 2048
        ||| w / 2097152 % 1024 * 2
      = w / 2147483648 * 1048576 + w / 4096 % 256 * 4096 + w / 1048576 % 2 * 2048
        + w / 2097152 % 1024 * 2 :=
    or_eq_add_of_low 11 _ _ (by omega) (by omega)
  rw [e3]
  omega

theorem spec_b_field_lt (w : Nat) :
    spec_b_field w < 8192 ∧ spec_b_field w % 2 = 0 := by
  unfold spec_b_field bitsOf
  norm_num
  omega

theorem spec_j_field_lt (w : Nat) :
    spec_j_field w < 2097152 ∧ spec_j_field w % 2 = 0 := by
  unfold spec_j_field bitsOf
  norm_num
  omega

/-- C5: for every 32-bit word `w`, `get_b_imm w` is the signed value of the
13-bit field with bit 12 = `w[31]`, bit 11 = `w[7]`, bits 10:5 = `w[30:25]`,
bits 4:1 = `w[11:8]` and bit 0 = 0, sign-extended from 13 bits; it is even and
lies between -4096 and 4094. -/
theorem get_b_imm_spec (w : Nat) (hw : w < 4294967296) :
    get_b_imm w = signed_of_field 13 (spec_b_field w) ∧
      get_b_imm w % 2 = 0 ∧ -4096 ≤ get_b_imm w ∧ get_b_imm w ≤ 4094 := by
  have h1 := spec_b_field_lt w
  have h2 : get_b_imm w = signed_of_field 13 (spec_b_field w) := by
    unfold get_b_imm
    rw [b_field_eq w hw]
    exact sign_extend_eq 13 _ (by norm_num) (by norm_num) (by norm_num; omega)
  refine ⟨h2, ?_⟩
  rw [h2]
  unfold signed_of_field
  norm_num
  split <;> omega

/-- C5 (witness): the word 0x7E000FE3, every immediate bit set but `w[31]`,
gives 4094. -/
theorem get_b_imm_spec_witness :
    (0x7E000FE3 : Nat) < 4294967296 ∧
    (get_b_imm 0x7E000FE3 = signed_of_field 13 (spec_b_field 0x7E000FE3) ∧
      get_b_imm 0x7E000FE3 % 2 = 0 ∧ -4096 ≤ get_b_imm 0x7E000FE3 ∧
      get_b_imm 0x7E000FE3 ≤ 4094) :=
  ⟨by decide, get_b_imm_spec 0x7E000FE3 (by decide)⟩

/-- C6: for every 32-bit word `w`, `get_j_imm w` is the signed value of the
21-bit field with bit 20 = `w[31]`, bits 19:12 = `w[19:12]`, bit 11 = `w[20]`,
bits 10:1 = `w[30:21]` and bit 0 = 0, sign-extended from 21 bits; it is even
and lies between -1048576 and 1048574. -/
theorem get_j_imm_spec (w : Nat) (hw : w < 4294967296) :
    get_j_imm w = signed_of_field 21 (spec_j_field w) ∧
      get_j_imm w % 2 = 0 ∧ -1048576 ≤ get_j_imm w ∧ get_j_imm w ≤ 1048574 := by
  have h1 := spec_j_field_lt w
  have h2 : get_j_imm w = signed_of_field 21 (spec_j_field w) := by
    unfold get_j_imm
    rw [j_field_eq w hw]
    exact sign_extend_eq 21 _ (by norm_num) (by norm_num) (by norm_num; omega)
  refine ⟨h2, ?_⟩
  rw [h2]
  unfold signed_of_field
  norm_num
  split <;> omega

theorem keepsX0_ite {M : Type} (s0 : State M) (c : Prop) [Decidable c] (x y : Outcome M)
    (hx : KeepsX0 s0 x) (hy : KeepsX0 s0 y) : KeepsX0 s0 (if c then x else y) := by
  split <;> assumption

theorem keepsX0_write {M : Type} (s0 : State M) (rd : Nat) (v : Int) (n : Nat)
    (hrd : rd ≠ 0) : KeepsX0 s0 ((s0.write rd v).retire n) := by
  intro s1 hs
  simp only [State.retire, State.write, Outcome.running.injEq] at hs
  subst hs
  simp [setReg, Ne.symm hrd]

theorem keepsX0_retire {M : Type} (s0 : State M) (n : Nat) : KeepsX0 s0 (s0.retire n) := by
  intro s1 hs
  simp only [State.retire, Outcome.running.injEq] at hs
  subst hs
  rfl

theorem keepsX0_fatal {M : Type} (s0 : State M) : KeepsX0 s0 (Outcome.fatal) := by
  intro s1 hs; cases hs

theorem keepsX0_write_or_trap {M : Type} (s0 : State M) (rd : Nat) (v : Option Int)
    (n : Nat) (hrd : rd ≠ 0) : KeepsX0 s0 (s0.write_or_trap rd v n) := by
  cases v with
  | none => intro s1 hs; cases hs
  | some x => exact keepsX0_write s0 rd x n hrd

theorem keepsX0_exited {M : Type} (s0 s : State M) : KeepsX0 s0 (Outcome.exited s) := by
  intro s1 hs; cases hs

theorem exec_reg_arith_x0 {M : Type} (h : Host M) (s0 : State M) (n rd f3 f7 : Nat)
    (a b : Int) (hrd : rd ≠ 0) : KeepsX0 s0 (exec_reg_arith h s0 n rd f3 f7 a b) := by
  unfold exec_reg_arith
  repeat (first
    | apply keepsX0_ite
    | exact keepsX0_write _ _ _ _ hrd
    | exact keepsX0_retire _ _
    | exact keepsX0_write_or_trap _ _ _ _ hrd)

theorem exec_imm_arith_x0 {M : Type} (h : Host M) (s0 : State M) (n rd f3 f7 : Nat)
    (a : Int) (w : Nat) (hrd : rd ≠ 0) :
    KeepsX0 s0 (exec_imm_arith h s0 n rd f3 f7 a w) := by
  unfold exec_imm_arith
  repeat (first
    | apply keepsX0_ite
    | exact keepsX0_write _ _ _ _ hrd
    | exact keepsX0_retire _ _)

theorem exec_load_x0 {M : Type} (h : Host M) (s0 : State M) (n rd f3 addr : Nat)
    (hrd : rd ≠ 0) : KeepsX0 s0 (exec_load h s0 n rd f3 addr) := by
  unfold exec_load
  repeat (first
    | apply keepsX0_ite
    | exact keepsX0_write _ _ _ _ hrd
    | exact keepsX0_retire _ _)

theorem exec_branch_x0 {M : Type} (s0 : State M) (p f3 : Nat) (a b : Int) (w : Nat) :
    KeepsX0 s0 (exec_branch s0 p f3 a b w) := by
  unfold exec_branch
  repeat (first
    | apply keepsX0_ite
    | exact keepsX0_retire _ _)

theorem exec_store_x0 {M : Type} (h : Host M) (s0 : State M) (n f3 addr v : Nat) :
    KeepsX0 s0 (exec_store h s0 n f3 addr v) := by
  unfold exec_store
  repeat (first
    | apply keepsX0_ite
    | exact keepsX0_retire _ _)

theorem exec_system_x0 {M : Type} (s0 : State M) (n w : Nat) :
    KeepsX0 s0 (exec_system s0 n w) := by
  unfold exec_system
  repeat (first
    | apply keepsX0_ite
    | exact keepsX0_retire _ _
    | exact keepsX0_fatal _
    | exact keepsX0_exited _ _)

theorem enter_x0 {M : Type} (s : State M) : s.enter.registers 0 = 0 := by
  simp [State.enter, setReg]

theorem exec_keepsX0 {M : Type} (h : Host M) (s : State M) (w : Nat)
    (hrd : get_rd w ≠ 0 ∨ get_opcode w = 0x63 ∨ get_opcode w = 0x23 ∨ get_opcode w = 0x73) :
    KeepsX0 s.enter (exec h s w) := by
  unfold exec
  by_cases h1 : get_opcode w = 0x37
  · rw [if_pos h1]; exact keepsX0_write _ _ _ _ (by simpa [h1] using hrd)
  rw [if_neg h1]
  by_cases h2 : get_opcode w = 0x17
  · rw [if_pos h2]; exact keepsX0_write _ _ _ _ (by simpa [h2] using hrd)
  rw [if_neg h2]
  by_cases h3 : get_opcode w = 0x6F
  · rw [if_pos h3]; exact keepsX0_write _ _ _ _ (by simpa [h3] using hrd)
  rw [if_neg h3]
  by_cases h4 : get_opcode w = 0x67
  · rw [if_pos h4]; exact keepsX0_write _ _ _ _ (by simpa [h4] using hrd)
  rw [if_neg h4]
  by_cases h5 : get_opcode w = 0x63
  · rw [if_pos h5]; exact exec_branch_x0 _ _ _ _ _ _
  rw [if_neg h5]
  by_cases h6 : get_opcode w = 0x03
  · rw [if_pos h6]; exact exec_load_x0 _ _ _ _ _ _ (by simpa [h6] using hrd)
  rw [if_neg h6]
  by_cases h7 : get_opcode w = 0x23
  · rw [if_pos h7]; exact exec_store_x0 _ _ _ _ _ _
  rw [if_neg h7]
  by_cases h8 : get_opcode w = 0x13
  · rw [if_pos h8]; exact exec_imm_arith_x0 _ _ _ _ _ _ _ _ (by simpa [h8] using hrd)
  rw [if_neg h8]
  by_cases h9 : get_opcode w = 0x33
  · rw [if_pos h9]; exact exec_reg_arith_x0 _ _ _ _ _ _ _ _ (by simpa [h9] using hrd)
  rw [if_neg h9]
  by_cases h10 : get_opcode w = 0x73
  · rw [if_pos h10]; exact exec_system_x0 _ _ _
  rw [if_neg h10]
  exact keepsX0_fatal _

/-- C6 (witness): the word 0x800000EF, only `w[31]` set among the immediate
bits, gives -1048576. -/
theorem get_j_imm_spec_witness :
    (0x800000EF : Nat) < 4294967296 ∧
    (get_j_imm 0x800000EF = signed_of_field 21 (spec_j_field 0x800000EF) ∧
      get_j_imm 0x800000EF % 2 = 0 ∧ -1048576 ≤ get_j_imm 0x800000EF ∧
      get_j_imm 0x800000EF ≤ 1048574) :=
  ⟨by decide, get_j_imm_spec 0x800000EF (by decide)⟩

/-! ## The shift instructions with an immediate count (C1, C2) -/

theorem step_of_fetch {M : Type} (h : Host M) (s : State M) (w : Nat)
    (hf : fetch h s = w) : step h s = exec h s w := by
  simp [step, hf]

theorem enter_registers {M : Type} (s : State M) (i : Nat) :
    s.enter.registers i = s.reg i := by
  simp [State.enter, State.reg, setReg]

theorem fetch_flatHostWith (a b c : Nat → Nat → Nat) (s : State FlatMem) :
    fetch (flatHostWith a b c) s = flat_rd_w s.mem s.pc % 4294967296 := rfl

theorem toS32_and_31 (x : Nat) : 0 ≤ toS32 (x &&& 0x1F) ∧ toS32 (x &&& 0x1F) ≤ 31 := by
  have h1 : x &&& 0x1F ≤ 0x1F := Nat.and_le_right
  unfold toS32
  split <;> omega

/-- What the `SLLI` case computes: the shifted pattern cut down to its low five bits. -/
theorem exec_slli {M : Type} (h : Host M) (s : State M) (w : Nat)
    (hop : get_opcode w = 0x13) (hf3 : get_funct3 w = 1) :
    exec h s w = (s.enter.write (get_rd w)
      (toS32 (shl32 h (s.reg (get_rs1 w)) (w >>> 20) &&& 0x1F))).retire
        ((s.pc + 4) % 4294967296) := by
  simp [exec, exec_imm_arith, hop, hf3, enter_registers]

/-- What the `SRAI` case computes. -/
theorem exec_srai {M : Type} (h : Host M) (s : State M) (w : Nat)
    (hop : get_opcode w = 0x13) (hf3 : get_funct3 w = 5) (hf7 : get_funct7 w = 0x20) :
    exec h s w = (s.enter.write (get_rd w)
      (toS32 (toU32 (sar32 h (s.reg (get_rs1 w)) (w >>> 20)) &&& 0x1F))).retire
        ((s.pc + 4) % 4294967296) := by
  simp [exec, exec_imm_arith, hop, hf3, hf7, enter_registers]

/-- C1 (the code at the failing input): with `t0 = 10`, `slli t1,t0,2` leaves
`t1 = 8`, not `(10 << 2) mod 2^32 = 40`; with `t0 = 256`, `srli t1,t0,2` leaves
`t1 = 0`, not `256 >> 2 = 64`.  Both words have opcode 0x13, funct7 0 and
`rd = 6`; the step keeps only the low five bits of the shifted value. -/
theorem slli_srli_keep_low_five_bits :
    (get_opcode 0x00229313 = 0x13 ∧ get_funct3 0x00229313 = 1 ∧ get_funct7 0x00229313 = 0 ∧
      get_rd 0x00229313 = 6 ∧ get_rs1 0x00229313 = 5 ∧ bitsOf 0x00229313 24 20 = 2 ∧
      fetch flatHost (progState [0x00229313] (setReg (fun _ => 0) 5 10)) = 0x00229313 ∧
      ∃ s1, step flatHost (progState [0x00229313] (setReg (fun _ => 0) 5 10))
          = Outcome.running s1 ∧
        s1.registers 6 = 8 ∧ toU32 (s1.registers 6) ≠ (10 <<< 2) % 4294967296) ∧
    (get_opcode 0x0022D313 = 0x13 ∧ get_funct3 0x0022D313 = 5 ∧ get_funct7 0x0022D313 = 0 ∧
      get_rd 0x0022D313 = 6 ∧ get_rs1 0x0022D313 = 5 ∧ bitsOf 0x0022D313 24 20 = 2 ∧
      fetch flatHost (progState [0x0022D313] (setReg (fun _ => 0) 5 256)) = 0x0022D313 ∧
      ∃ s1, step flatHost (progState [0x0022D313] (setReg (fun _ => 0) 5 256))
          = Outcome.running s1 ∧
        s1.registers 6 = 0 ∧ toU32 (s1.registers 6) ≠ 256 >>> 2) := by
  refine ⟨⟨by decide, by decide, by decide, by decide, by decide, by decide, by decide,
      _, rfl, by decide, by decide⟩,
    ⟨by decide, by decide, by decide, by decide, by decide, by decide, by decide,
      _, rfl, by decide, by decide⟩⟩

/-- C2 (the code at the failing input): with `t0 = -1`, `srai t1,t0,1`
(opcode 0x13, funct3 5, funct7 0x20, `rd = 6`) shifts by `instruction >> 20 = 1025`
and keeps the low five bits of the result: whatever the host yields for the
oversized shift, `t1` ends between 0 and 31 and so is not `-1`; on a host that
shifts by the count modulo 32 it is 31. -/
theorem srai_keeps_low_five_bits :
    get_opcode 0x4012D313 = 0x13 ∧ get_funct3 0x4012D313 = 5 ∧ get_funct7 0x4012D313 = 0x20 ∧
    get_rd 0x4012D313 = 6 ∧ get_rs1 0x4012D313 = 5 ∧ bitsOf 0x4012D313 24 20 = 1 ∧
    0x4012D313 >>> 20 = 1025 ∧
    (∀ f : Nat → Nat → Nat, ∃ s1,
      step (flatHostWith f f f) (progState [0x4012D313] (setReg (fun _ => 0) 5 (-1)))
        = Outcome.running s1 ∧
      0 ≤ s1.registers 6 ∧ s1.registers 6 ≤ 31 ∧ s1.registers 6 ≠ -1) ∧
    (∃ s1, step flatHost (progState [0x4012D313] (setReg (fun _ => 0) 5 (-1)))
        = Outcome.running s1 ∧ s1.registers 6 = 31) := by
  refine ⟨by decide, by decide, by decide, by decide, by decide, by decide, by decide, ?_,
    ⟨_, rfl, by decide⟩⟩
  intro f
  have hf : fetch (flatHostWith f f f) (progState [0x4012D313] (setReg (fun _ => 0) 5 (-1)))
      = 0x4012D313 := by
    rw [fetch_flatHostWith]; decide
  rw [step_of_fetch _ _ _ hf, exec_srai _ _ _ (by decide) (by decide) (by decide)]
  refine ⟨_, rfl, ?_⟩
  have hb := toS32_and_31 (toU32 (sar32 (flatHostWith f f f)
    ((progState [0x4012D313] (setReg (fun _ => 0) 5 (-1))).reg (get_rs1 0x4012D313))
    (0x4012D313 >>> 20)))
  have e : ∀ v : Int, (((progState [0x4012D313] (setReg (fun _ => 0) 5 (-1))).enter.write
      (get_rd 0x4012D313) v).registers 6) = v := by
    intro v; rfl
  simp only [e]
  refine ⟨hb.1, hb.2, ?_⟩
  have h2 := hb.1
  intro h3
  rw [h3] at h2
  omega

/-! ## Index 0 of the register file (C3) -/

/-- C3 (counterexample): from the initial state, the step that executes
`addi zero,zero,5` (0x00500013, rd field 0) continues the run and leaves the
value 5, not 0, at index 0 of the register file: the write is not discarded. -/
theorem x0_write_is_stored :
    get_rd 0x00500013 = 0 ∧
    ∃ s1, step flatHost (init (loadWords 0x1000 [0x00500013]) 0x1000 []) = Outcome.running s1 ∧
      s1.registers 0 = 5 ∧ s1.registers 0 ≠ 0 :=
  ⟨by decide, _, rfl, by decide, by decide⟩

/-- C3 (amended): when a step on the word `w` continues the run, index 0 of the
register file holds 0 afterwards provided the rd field of `w` is not 0 or `w` is
a branch, store or system word (opcodes 0x63, 0x23, 0x73, which write no rd);
and whatever a word with rd field 0 left at index 0, the next step resets it
to 0 before it reads an operand. -/
theorem x0_zero_after_step {M : Type} (h : Host M) (s s1 : State M) (w : Nat)
    (hf : fetch h s = w) (hs : step h s = Outcome.running s1) :
    ((get_rd w ≠ 0 ∨ get_opcode w = 0x63 ∨ get_opcode w = 0x23 ∨ get_opcode w = 0x73) →
      s1.registers 0 = 0) ∧
    s1.enter.registers 0 = 0 ∧ s1.reg 0 = 0 := by
  refine ⟨?_, enter_x0 s1, by simp [State.reg]⟩
  intro hrd
  rw [step_of_fetch h s w hf] at hs
  rw [exec_keepsX0 h s w hrd s1 hs, enter_x0]

/-- C3 (witness): `addi a0,zero,5` (0x00500513, rd field 10) from the initial
state: `a0` becomes 5 and index 0 holds 0. -/
theorem x0_zero_after_step_witness :
    fetch flatHost (init (loadWords 0x1000 [0x00500513]) 0x1000 []) = 0x00500513 ∧
    get_rd 0x00500513 ≠ 0 ∧
    ∃ s1, step flatHost (init (loadWords 0x1000 [0x00500513]) 0x1000 []) = Outcome.running s1 ∧
      s1.registers 10 = 5 ∧ s1.registers 0 = 0 :=
  ⟨by decide, by decide, _, rfl, by decide,
    (x0_zero_after_step flatHost (init (loadWords 0x1000 [0x00500513]) 0x1000 []) _ 0x00500513
      (by decide) rfl).1 (Or.inl (by decide))⟩

/-! ## Undefined funct3 and funct7 (C4) -/

theorem get_funct3_lt (w : Nat) : get_funct3 w < 8 := by
  unfold get_funct3
  rw [and_7]
  omega

theorem retire_enter_frame {M : Type} (s : State M) (n : Nat) :
    ∃ s1, s.enter.retire n = Outcome.running s1 ∧ s1.pc = n ∧
      (∀ i, s1.reg i = s.reg i) ∧ (∀ i, i ≠ 0 → s1.registers i = s.registers i) ∧
      s1.mem = s.mem := by
  refine ⟨_, rfl, rfl, ?_, ?_, rfl⟩
  · intro i
    by_cases hi : i = 0 <;> simp [State.reg, State.enter, setReg, hi]
  · intro i hi; simp [State.enter, setReg, hi]

theorem and_clear_bit0 (x : Nat) (hx : x < 4294967296) :
    x &&& 0xFFFFFFFE = x - x % 2 := by
  have h1 : (x &&& 0xFFFFFFFE) % 2 ≠ 1 := by
    rw [Ne, Nat.and_mod_two_eq_one]
    omega
  have h2 : (x &&& 0xFFFFFFFE) / 2 = x / 2 := by
    rw [Nat.and_div_two]
    have : x / 2 &&& 0xFFFFFFFE / 2 = x / 2 % 2 ^ 31 :=
      Nat.and_pow_two_sub_one_eq_mod (x / 2) 31
    rw [this]
    omega
  omega

theorem toU32_eq_emod (x : Int) : (toU32 x : Int) = x % 4294967296 := by
  unfold toU32; omega

theorem pc_add_imm (p : Nat) (imm : Int) :
    (((p + toU32 imm) % 4294967296 : Nat) : Int) = ((p : Int) + imm) % 4294967296 := by
  have := toU32_eq_emod imm
  omega

theorem toU32_wrap32 (x : Int) : toU32 (wrap32 x) = toU32 x := by
  unfold wrap32
  rw [toU32_toS32]
  have := toU32_lt x
  omega

/-- C7: a step on a JALR word (opcode 0x67) at PC `p` continues at
`((rs1 + I-imm) mod 2^32)` with bit 0 cleared, where `rs1` is the value the
register has before the step, so the next PC is even; and when `rd` is not 0
it leaves `(p + 4) mod 2^32` in `rd`.  Nothing is assumed about `rd` and `rs1`
being different registers. -/
theorem jalr_step {M : Type} (h : Host M) (s : State M) (w : Nat)
    (hf : fetch h s = w) (hop : get_opcode w = 0x67) :
    ∃ s1, step h s = Outcome.running s1 ∧
      s1.pc = toU32 (s.reg (get_rs1 w) + get_i_imm w)
        - toU32 (s.reg (get_rs1 w) + get_i_imm w) % 2 ∧
      (toU32 (s.reg (get_rs1 w) + get_i_imm w) : Int)
        = (s.reg (get_rs1 w) + get_i_imm w) % 4294967296 ∧
      s1.pc % 2 = 0 ∧
      (get_rd w ≠ 0 → s1.registers (get_rd w) = toS32 ((s.pc + 4) % 4294967296) ∧
        toU32 (s1.registers (get_rd w)) = (s.pc + 4) % 4294967296) := by
  rw [step_of_fetch h s w hf]
  have e : exec h s w = (s.enter.write (get_rd w) (toS32 ((s.pc + 4) % 4294967296))).retire
      (toU32 (wrap32 (s.enter.registers (get_rs1 w) + get_i_imm w)) &&& 0xFFFFFFFE) := by
    simp [exec, hop]
  rw [e, enter_registers, toU32_wrap32, and_clear_bit0 _ (toU32_lt _)]
  refine ⟨_, rfl, rfl, toU32_eq_emod _, ?_, ?_⟩
  · show (toU32 (s.reg (get_rs1 w) + get_i_imm w)
      - toU32 (s.reg (get_rs1 w) + get_i_imm w) % 2) % 2 = 0
    omega
  · intro _
    have e2 : ((s.enter.write (get_rd w) (toS32 ((s.pc + 4) % 4294967296))).registers
        (get_rd w)) = toS32 ((s.pc + 4) % 4294967296) := by
      simp [State.write, setReg]
    refine ⟨e2, ?_⟩
    show toU32 ((s.enter.write (get_rd w) (toS32 ((s.pc + 4) % 4294967296))).registers
        (get_rd w)) = _
    rw [e2, toU32_toS32]
    omega

/-- C7 (witness): `jalr ra,5(ra)` (0x005080E7) at PC 0x1000 with `ra = 0x2000`:
the destination is the source register; the next PC is 0x2004 and `ra`
becomes 0x1004. -/
theorem jalr_step_witness :
    fetch flatHost (progState [0x005080E7] (setReg (fun _ => 0) 1 0x2000)) = 0x005080E7 ∧
    get_opcode 0x005080E7 = 0x67 ∧ get_rd 0x005080E7 = 1 ∧ get_rs1 0x005080E7 = 1 ∧
    get_i_imm 0x005080E7 = 5 ∧
    ∃ s1, step flatHost (progState [0x005080E7] (setReg (fun _ => 0) 1 0x2000))
        = Outcome.running s1 ∧ s1.pc = 0x2004 ∧ s1.registers 1 = 0x1004 := by
  obtain ⟨s1, h1, h2, _, _, h5⟩ :=
    jalr_step flatHost (progState [0x005080E7] (setReg (fun _ => 0) 1 0x2000)) 0x005080E7
      (by decide) (by decide)
  refine ⟨by decide, by decide, by decide, by decide, by decide, s1, h1, ?_, ?_⟩
  · rw [h2]; decide
  · have := (h5 (by decide)).1
    rw [show get_rd 0x005080E7 = 1 by decide] at this
    rw [this]; decide

theorem write_retire_frame {M : Type} (s0 : State M) (rd : Nat) (v : Int) (n : Nat) :
    ∃ s1, (s0.write rd v).retire n = Outcome.running s1 ∧ s1.registers rd = v ∧ s1.pc = n ∧
      (∀ i, i ≠ rd → s1.registers i = s0.registers i) ∧ s1.mem = s0.mem ∧
      s1.insns = s0.insns ∧ s1.stdin = s0.stdin ∧ s1.stdout = s0.stdout := by
  refine ⟨_, rfl, ?_, rfl, ?_, rfl, rfl, rfl, rfl⟩
  · simp [State.write, setReg]
  · intro i hi
    simp [State.write, setReg, hi]

theorem jal_effect {M : Type} (h : Host M) (s : State M) (w : Nat)
    (hf : fetch h s = w) (hop : get_opcode w = 0x6F) (_hrd : get_rd w ≠ 0) :
    ∃ s1, step h s = Outcome.running s1 ∧
      s1.registers (get_rd w) = toS32 ((s.pc + 4) % 4294967296) ∧
      toU32 (s1.registers (get_rd w)) = (s.pc + 4) % 4294967296 ∧
      (s1.pc : Int) = ((s.pc : Int) + get_j_imm w) % 4294967296 ∧
      (∀ i, i ≠ get_rd w → s1.reg i = s.reg i) ∧
      (∀ i, i ≠ get_rd w → i ≠ 0 → s1.registers i = s.registers i) ∧
      s1.mem = s.mem := by
  rw [step_of_fetch h s w hf]
  have e : exec h s w = (s.enter.write (get_rd w) (toS32 ((s.pc + 4) % 4294967296))).retire
      ((s.pc + toU32 (get_j_imm w)) % 4294967296) := by
    simp [exec, hop]
  rw [e]
  obtain ⟨s1, h1, h2, h3, h4, h5, _⟩ := write_retire_frame s.enter (get_rd w)
    (toS32 ((s.pc + 4) % 4294967296)) ((s.pc + toU32 (get_j_imm w)) % 4294967296)
  refine ⟨s1, h1, h2, ?_, ?_, ?_, ?_, ?_⟩
  · rw [h2, toU32_toS32]
    omega
  · rw [h3]
    exact pc_add_imm _ _
  · intro i hi
    unfold State.reg
    by_cases h0 : i = 0
    · simp [h0]
    · simp only [h0, if_false]
      rw [h4 i hi]
      simp [State.enter, setReg, h0]
  · intro i hi h0
    rw [h4 i hi]
    simp [State.enter, setReg, h0]
  · rw [h5]; rfl

theorem jal_ra_example :
    get_opcode 0x008000EF = 0x6F ∧ get_rd 0x008000EF = 1 ∧ get_j_imm 0x008000EF = 8 ∧
      fetch flatHost (progState [0x008000EF] (fun _ => 0)) = 0x008000EF ∧
      (progState [0x008000EF] (fun _ => 0)).pc = 0x1000 ∧
      ∃ s1, step flatHost (progState [0x008000EF] (fun _ => 0)) = Outcome.running s1 ∧
        s1.registers 1 = 0x1004 ∧ s1.pc = 0x1008 :=
  ⟨by decide, by decide, by decide, by decide, by decide, _, rfl, by decide, by decide⟩

/-- C8: a step on a JAL word (opcode 0x6F) with `rd` not 0 at PC `p` leaves
`(p + 4) mod 2^32` in `rd`, continues at `(p + J-imm) mod 2^32`, and changes
neither the memory nor the value of any other register (index 0 reads as 0
before and after).  For `p = 0x1000` and `jal ra,+8` (0x008000EF) this gives
`ra = 0x1004` and the next PC 0x1008. -/
theorem jal_step {M : Type} (h : Host M) (s : State M) (w : Nat)
    (hf : fetch h s = w) (hop : get_opcode w = 0x6F) (hrd : get_rd w ≠ 0) :
    (∃ s1, step h s = Outcome.running s1 ∧
        s1.registers (get_rd w) = toS32 ((s.pc + 4) % 4294967296) ∧
        toU32 (s1.registers (get_rd w)) = (s.pc + 4) % 4294967296 ∧
        (s1.pc : Int) = ((s.pc : Int) + get_j_imm w) % 4294967296 ∧
        (∀ i, i ≠ get_rd w → s1.reg i = s.reg i) ∧
        (∀ i, i ≠ get_rd w → i ≠ 0 → s1.registers i = s.registers i) ∧
        s1.mem = s.mem) ∧
    (get_opcode 0x008000EF = 0x6F ∧ get_rd 0x008000EF = 1 ∧ get_j_imm 0x008000EF = 8 ∧
      fetch flatHost (progState [0x008000EF] (fun _ => 0)) = 0x008000EF ∧
      (progState [0x008000EF] (fun _ => 0)).pc = 0x1000 ∧
      ∃ s1, step flatHost (progState [0x008000EF] (fun _ => 0)) = Outcome.running s1 ∧
        s1.registers 1 = 0x1004 ∧ s1.pc = 0x1008) :=
  ⟨jal_effect h s w hf hop hrd, jal_ra_example⟩

/-- C8 (witness): `jal t0,-4` (0xFFDFF2EF) at PC 0x1000 with `t1 = 7`. -/
theorem jal_step_witness :
    fetch flatHost (progState [0xFFDFF2EF] (setReg (fun _ => 0) 6 7)) = 0xFFDFF2EF ∧
    get_opcode 0xFFDFF2EF = 0x6F ∧ get_rd 0xFFDFF2EF ≠ 0 ∧
    ∃ s1, step flatHost (progState [0xFFDFF2EF] (setReg (fun _ => 0) 6 7))
        = Outcome.running s1 ∧
      (s1.pc : Int) = ((0x1000 : Int) + get_j_imm 0xFFDFF2EF) % 4294967296 ∧
      s1.reg 6 = 7 := by
  obtain ⟨s1, h1, _, _, h4, h5, _, _⟩ :=
    (jal_step flatHost (progState [0xFFDFF2EF] (setReg (fun _ => 0) 6 7)) 0xFFDFF2EF
      (by decide) (by decide) (by decide)).1
  refine ⟨by decide, by decide, by decide, s1, h1, h4, ?_⟩
  rw [h5 6 (by decide)]; decide

/-! ## Branches (C9, C10) -/

theorem branch_effect {M : Type} (h : Host M) (s : State M) (w : Nat)
    (hf : fetch h s = w) (hop : get_opcode w = 0x63) :
    ∃ s1, step h s = Outcome.running s1 ∧
      (∀ i, s1.reg i = s.reg i) ∧ (∀ i, i ≠ 0 → s1.registers i = s.registers i) ∧
      s1.mem = s.mem ∧
      (take_branch (get_funct3 w) (s.reg (get_rs1 w)) (s.reg (get_rs2 w)) = true →
        (s1.pc : Int) = ((s.pc : Int) + get_b_imm w) % 4294967296) ∧
      (take_branch (get_funct3 w) (s.reg (get_rs1 w)) (s.reg (get_rs2 w)) = false →
        s1.pc = (s.pc + 4) % 4294967296) := by
  rw [step_of_fetch h s w hf]
  have e : exec h s w = exec_branch s.enter s.pc (get_funct3 w) (s.reg (get_rs1 w))
      (s.reg (get_rs2 w)) w := by
    simp [exec, hop, enter_registers]
  rw [e]
  unfold exec_branch
  by_cases ht : take_branch (get_funct3 w) (s.reg (get_rs1 w)) (s.reg (get_rs2 w)) = true
  · rw [if_pos ht]
    obtain ⟨s1, h1, h2, h3, h4, h5⟩ :=
      retire_enter_frame s ((s.pc + toU32 (get_b_imm w)) % 4294967296)
    refine ⟨s1, h1, h3, h4, h5, ?_, ?_⟩
    · intro _
      rw [h2]
      exact pc_add_imm _ _
    · intro hn
      rw [ht] at hn
      cases hn
  · rw [if_neg ht]
    obtain ⟨s1, h1, h2, h3, h4, h5⟩ := retire_enter_frame s ((s.pc + 4) % 4294967296)
    exact ⟨s1, h1, h3, h4, h5, fun hp => absurd hp ht, fun _ => h2⟩

theorem extreme_b_imm_examples :
    get_b_imm 0x80000063 = -4096 ∧ get_b_imm 0x7E000FE3 = 4094 ∧
    get_b_imm 0x80001063 = -4096 ∧ get_b_imm 0x7E001FE3 = 4094 ∧
    (∃ s1, step flatHost (progState [0x80000063] (fun _ => 0)) = Outcome.running s1 ∧
      s1.pc = 0) ∧
    (∃ s1, step flatHost (progState [0x7E000FE3] (fun _ => 0)) = Outcome.running s1 ∧
      s1.pc = 0x1FFE) ∧
    (∃ s1, step flatHost (progState [0x80001063] (fun _ => 0)) = Outcome.running s1 ∧
      s1.pc = 0x1004) ∧
    (∃ s1, step flatHost (progState [0x7E001FE3] (fun _ => 0)) = Outcome.running s1 ∧
      s1.pc = 0x1004) :=
  ⟨by decide, by decide, by decide, by decide, ⟨_, rfl, by decide⟩, ⟨_, rfl, by decide⟩,
    ⟨_, rfl, by decide⟩, ⟨_, rfl, by decide⟩⟩

/-- C9: a step on a word of opcode 0x63 at PC `p` changes no register value and
no memory; it continues at `(p + B-imm) mod 2^32` when the branch condition
`take_branch` holds for the values of `rs1` and `rs2`, and at `(p + 4) mod 2^32`
when it does not.  At `p = 0x1000` the taken `beq zero,zero` with the extreme
immediates -4096 and 4094 continues at 0 and 0x1FFE, and the not-taken
`bne zero,zero` with the same immediates continues at 0x1004. -/
theorem branch_step {M : Type} (h : Host M) (s : State M) (w : Nat)
    (hf : fetch h s = w) (hop : get_opcode w = 0x63) :
    (∃ s1, step h s = Outcome.running s1 ∧
        (∀ i, s1.reg i = s.reg i) ∧ (∀ i, i ≠ 0 → s1.registers i = s.registers i) ∧
        s1.mem = s.mem ∧
        (take_branch (get_funct3 w) (s.reg (get_rs1 w)) (s.reg (get_rs2 w)) = true →
          (s1.pc : Int) = ((s.pc : Int) + get_b_imm w) % 4294967296) ∧
        (take_branch (get_funct3 w) (s.reg (get_rs1 w)) (s.reg (get_rs2 w)) = false →
          s1.pc = (s.pc + 4) % 4294967296)) ∧
    (get_b_imm 0x80000063 = -4096 ∧ get_b_imm 0x7E000FE3 = 4094 ∧
      get_b_imm 0x80001063 = -4096 ∧ get_b_imm 0x7E001FE3 = 4094 ∧
      (∃ s1, step flatHost (progState [0x80000063] (fun _ => 0)) = Outcome.running s1 ∧
        s1.pc = 0) ∧
      (∃ s1, step flatHost (progState [0x7E000FE3] (fun _ => 0)) = Outcome.running s1 ∧
        s1.pc = 0x1FFE) ∧
      (∃ s1, step flatHost (progState [0x80001063] (fun _ => 0)) = Outcome.running s1 ∧
        s1.pc = 0x1004) ∧
      (∃ s1, step flatHost (progState [0x7E001FE3] (fun _ => 0)) = Outcome.running s1 ∧
        s1.pc = 0x1004)) :=
  ⟨branch_effect h s w hf hop, extreme_b_imm_examples⟩

/-- C9 (witness): `blt t0,t1,-4096` (0x8062C063) at PC 0x1000 with `t0 = -1`
and `t1 = 1` is taken and wraps to PC 0; every register keeps its value. -/
theorem branch_step_witness :
    fetch flatHost (progState [0x8062C063] (setReg (setReg (fun _ => 0) 5 (-1)) 6 1))
      = 0x8062C063 ∧
    get_opcode 0x8062C063 = 0x63 ∧
    ∃ s1, step flatHost (progState [0x8062C063] (setReg (setReg (fun _ => 0) 5 (-1)) 6 1))
        = Outcome.running s1 ∧
      (s1.pc : Int) = ((0x1000 : Int) + get_b_imm 0x8062C063) % 4294967296 ∧
      s1.reg 5 = -1 ∧ s1.reg 6 = 1 := by
  obtain ⟨s1, h1, h2, _, _, h5, _⟩ :=
    (branch_step flatHost (progState [0x8062C063] (setReg (setReg (fun _ => 0) 5 (-1)) 6 1))
      0x8062C063 (by decide) (by decide)).1
  refine ⟨by decide, by decide, s1, h1, h5 (by decide), ?_, ?_⟩
  · rw [h2 5]; decide
  · rw [h2 6]; decide

theorem exec_of_reg_arith {M : Type} (h : Host M) (s : State M) (w : Nat)
    (hop : get_opcode w = 0x33) :
    exec h s w = exec_reg_arith h s.enter ((s.pc + 4) % 4294967296) (get_rd w)
      (get_funct3 w) (get_funct7 w) (s.reg (get_rs1 w)) (s.reg (get_rs2 w)) := by
  simp [exec, hop, enter_registers]

theorem exec_of_imm_arith {M : Type} (h : Host M) (s : State M) (w : Nat)
    (hop : get_opcode w = 0x13) :
    exec h s w = exec_imm_arith h s.enter ((s.pc + 4) % 4294967296) (get_rd w)
      (get_funct3 w) (get_funct7 w) (s.reg (get_rs1 w)) w := by
  simp [exec, hop, enter_registers]

theorem exec_of_load {M : Type} (h : Host M) (s : State M) (w : Nat)
    (hop : get_opcode w = 0x03) :
    exec h s w = exec_load h s.enter ((s.pc + 4) % 4294967296) (get_rd w)
      (get_funct3 w) (toU32 (s.reg (get_rs1 w) + get_i_imm w)) := by
  simp [exec, hop, enter_registers]

theorem exec_of_store {M : Type} (h : Host M) (s : State M) (w : Nat)
    (hop : get_opcode w = 0x23) :
    exec h s w = exec_store h s.enter ((s.pc + 4) % 4294967296) (get_funct3 w)
      (toU32 (s.reg (get_rs1 w) + get_s_imm w)) (toU32 (s.reg (get_rs2 w))) := by
  simp [exec, hop, enter_registers]

theorem exec_of_system {M : Type} (h : Host M) (s : State M) (w : Nat)
    (hop : get_opcode w = 0x73) :
    exec h s w = exec_system s.enter ((s.pc + 4) % 4294967296) w := by
  simp [exec, hop]

theorem exec_of_lui {M : Type} (h : Host M) (s : State M) (w : Nat)
    (hop : get_opcode w = 0x37) :
    exec h s w = (s.enter.write (get_rd w) (get_u_imm w)).retire
      ((s.pc + 4) % 4294967296) := by
  simp [exec, hop]

/-- The effect of a step that writes `v` to `rd` and goes on at `n`. -/
theorem step_write_effect {M : Type} (h : Host M) (s : State M) (w : Nat) (v : Int) (n : Nat)
    (hf : fetch h s = w)
    (he : exec h s w = (s.enter.write (get_rd w) v).retire n) :
    ∃ s1, step h s = Outcome.running s1 ∧ s1.registers (get_rd w) = v ∧ s1.pc = n ∧
      (∀ i, i ≠ get_rd w → s1.reg i = s.reg i) ∧ s1.mem = s.mem ∧
      s1.insns = s.insns + 1 := by
  rw [step_of_fetch h s w hf, he]
  obtain ⟨s1, h1, h2, h3, h4, h5, h6, _⟩ := write_retire_frame s.enter (get_rd w) v n
  refine ⟨s1, h1, h2, h3, ?_, ?_, ?_⟩
  · intro i hi
    unfold State.reg
    by_cases h0 : i = 0
    · simp [h0]
    · simp only [h0, if_false]
      rw [h4 i hi]
      simp [State.enter, setReg, h0]
  · rw [h5]; rfl
  · rw [h6]; rfl

theorem toU32_neg_one : toU32 (-1) = 4294967295 := by decide

/-- C11: division by zero.  When the value of `rs2` is 0 and `rd` is not 0, a
step of DIV or DIVU (opcode 0x33, funct7 1, funct3 4 or 5) leaves -1, the
pattern 0xFFFFFFFF, in `rd`, and a step of REM or REMU (funct3 6 or 7) leaves
the value of `rs1` in `rd`; the step is not fatal, it continues at PC + 4. -/
theorem div_rem_by_zero {M : Type} (h : Host M) (s : State M) (w : Nat)
    (hf : fetch h s = w) (hop : get_opcode w = 0x33) (hf7 : get_funct7 w = 1)
    (hf3 : get_funct3 w = 4 ∨ get_funct3 w = 5 ∨ get_funct3 w = 6 ∨ get_funct3 w = 7)
    (_hrd : get_rd w ≠ 0) (hz : s.reg (get_rs2 w) = 0) :
    ∃ s1, step h s = Outcome.running s1 ∧ s1.pc = (s.pc + 4) % 4294967296 ∧
      (get_funct3 w = 4 ∨ get_funct3 w = 5 →
        s1.registers (get_rd w) = -1 ∧ toU32 (s1.registers (get_rd w)) = 0xFFFFFFFF) ∧
      (get_funct3 w = 6 ∨ get_funct3 w = 7 →
        s1.registers (get_rd w) = s.reg (get_rs1 w)) := by
  have he := exec_of_reg_arith h s w hop
  rcases hf3 with h3 | h3 | h3 | h3
  · have e : exec h s w = (s.enter.write (get_rd w) (-1)).retire
        ((s.pc + 4) % 4294967296) := by
      rw [he]; simp [exec_reg_arith, h3, hf7, hz]
    obtain ⟨s1, h1, h2, hp, _⟩ := step_write_effect h s w _ _ hf e
    refine ⟨s1, h1, hp, fun _ => ⟨h2, by rw [h2]; exact toU32_neg_one⟩, ?_⟩
    intro hc; rw [h3] at hc; omega
  · have e : exec h s w = (s.enter.write (get_rd w) (-1)).retire
        ((s.pc + 4) % 4294967296) := by
      rw [he]; simp [exec_reg_arith, h3, hf7, hz]
    obtain ⟨s1, h1, h2, hp, _⟩ := step_write_effect h s w _ _ hf e
    refine ⟨s1, h1, hp, fun _ => ⟨h2, by rw [h2]; exact toU32_neg_one⟩, ?_⟩
    intro hc; rw [h3] at hc; omega
  · have e : exec h s w = (s.enter.write (get_rd w) (s.reg (get_rs1 w))).retire
        ((s.pc + 4) % 4294967296) := by
      rw [he]; simp [exec_reg_arith, h3, hf7, hz]
    obtain ⟨s1, h1, h2, hp, _⟩ := step_write_effect h s w _ _ hf e
    refine ⟨s1, h1, hp, ?_, fun _ => h2⟩
    intro hc; rw [h3] at hc; omega
  · have e : exec h s w = (s.enter.write (get_rd w) (s.reg (get_rs1 w))).retire
        ((s.pc + 4) % 4294967296) := by
      rw [he]; simp [exec_reg_arith, h3, hf7, hz]
    obtain ⟨s1, h1, h2, hp, _⟩ := step_write_effect h s w _ _ hf e
    refine ⟨s1, h1, hp, ?_, fun _ => h2⟩
    intro hc; rw [h3] at hc; omega

/-- C11 (witness): with `a0 = 7` and `a1 = 0`, `div a2,a0,a1` (0x02B54633)
leaves -1 in `a2` and `rem a3,a0,a1` (0x02B566B3) leaves 7 in `a3`. -/
theorem div_rem_by_zero_witness :
    (fetch flatHost (progState [0x02B54633] (setReg (fun _ => 0) 10 7)) = 0x02B54633 ∧
      (progState [0x02B54633] (setReg (fun _ => 0) 10 7)).reg (get_rs2 0x02B54633) = 0 ∧
      ∃ s1, step flatHost (progState [0x02B54633] (setReg (fun _ => 0) 10 7))
          = Outcome.running s1 ∧ s1.pc = 0x1004 ∧ s1.registers 12 = -1) ∧
    (fetch flatHost (progState [0x02B566B3] (setReg (fun _ => 0) 10 7)) = 0x02B566B3 ∧
      ∃ s1, step flatHost (progState [0x02B566B3] (setReg (fun _ => 0) 10 7))
          = Outcome.running s1 ∧ s1.pc = 0x1004 ∧ s1.registers 13 = 7) := by
  obtain ⟨s1, h1, h2, h3, _⟩ :=
    div_rem_by_zero flatHost (progState [0x02B54633] (setReg (fun _ => 0) 10 7)) 0x02B54633
      (by decide) (by decide) (by decide) (Or.inl (by decide)) (by decide) (by decide)
  obtain ⟨t1, k1, k2, _, k4⟩ :=
    div_rem_by_zero flatHost (progState [0x02B566B3] (setReg (fun _ => 0) 10 7)) 0x02B566B3
      (by decide) (by decide) (by decide) (Or.inr (Or.inr (Or.inl (by decide))))
      (by decide) (by decide)
  refine ⟨⟨by decide, by decide, s1, h1, h2, ?_⟩, ⟨by decide, t1, k1, k2, ?_⟩⟩
  · exact (h3 (Or.inl (by decide))).1
  · have := k4 (Or.inl (by decide))
    rw [show get_rd 0x02B566B3 = 13 by decide] at this
    rw [this]; decide

theorem mulh_in_range (a b : Int) (ha : IsInt32 a) (hb : IsInt32 b) :
    IsInt32 (a * b / 4294967296) := by
  unfold IsInt32 at *
  obtain ⟨ha1, ha2⟩ := ha
  obtain ⟨hb1, hb2⟩ := hb
  have h1 : a * b ≤ 4611686018427387904 := by nlinarith
  have h2 : -4611686018427387904 ≤ a * b := by nlinarith
  generalize a * b = p at h1 h2
  omega

theorem int_floor_div (p : Int) :
    4294967296 * (p / 4294967296) ≤ p ∧ p < 4294967296 * (p / 4294967296 + 1) := by
  omega

/-- C12: for register values `a` (rs1) and `b` (rs2) in the signed 32-bit
range and `rd` not 0, a step of MULH (opcode 0x33, funct3 1, funct7 1) leaves in
`rd` the number `q = floor(a * b / 2^32)`, that is the `q` with
`2^32 * q ≤ a * b < 2^32 * (q + 1)`: the upper 32 bits of the exact 64-bit
product.  For `a = b = 0x7FFFFFFF` it is 0x3FFFFFFF. -/
theorem mulh_step {M : Type} (h : Host M) (s : State M) (w : Nat)
    (hf : fetch h s = w) (hop : get_opcode w = 0x33) (hf3 : get_funct3 w = 1)
    (hf7 : get_funct7 w = 1) (_hrd : get_rd w ≠ 0)
    (ha : IsInt32 (s.reg (get_rs1 w))) (hb : IsInt32 (s.reg (get_rs2 w))) :
    (∃ s1, step h s = Outcome.running s1 ∧ s1.pc = (s.pc + 4) % 4294967296 ∧
      s1.registers (get_rd w) = s.reg (get_rs1 w) * s.reg (get_rs2 w) / 4294967296 ∧
      4294967296 * s1.registers (get_rd w) ≤ s.reg (get_rs1 w) * s.reg (get_rs2 w) ∧
      s.reg (get_rs1 w) * s.reg (get_rs2 w) < 4294967296 * (s1.registers (get_rd w) + 1)) ∧
    ((2147483647 : Int) * 2147483647 / 4294967296 = 0x3FFFFFFF ∧
      toS32 0x7FFFFFFF = 2147483647) := by
  refine ⟨?_, by decide, by decide⟩
  have e : exec h s w = (s.enter.write (get_rd w)
      (s.reg (get_rs1 w) * s.reg (get_rs2 w) / 4294967296)).retire
        ((s.pc + 4) % 4294967296) := by
    rw [exec_of_reg_arith h s w hop]
    simp only [exec_reg_arith, hf3, hf7]
    rw [wrap32_of_isInt32 _ (mulh_in_range _ _ ha hb)]
    simp
  obtain ⟨s1, h1, h2, hp, _⟩ := step_write_effect h s w _ _ hf e
  refine ⟨s1, h1, hp, h2, ?_, ?_⟩
  · rw [h2]; exact (int_floor_div _).1
  · rw [h2]; exact (int_floor_div _).2

/-- C12 (witness): `mulh t2,t0,t1` (0x026293B3) with `t0 = t1 = 0x7FFFFFFF`
leaves 0x3FFFFFFF in `t2`. -/
theorem mulh_step_witness :
    fetch flatHost (progState [0x026293B3]
      (setReg (setReg (fun _ => 0) 5 2147483647) 6 2147483647)) = 0x026293B3 ∧
    get_opcode 0x026293B3 = 0x33 ∧ get_funct3 0x026293B3 = 1 ∧ get_funct7 0x026293B3 = 1 ∧
    ∃ s1, step flatHost (progState [0x026293B3]
        (setReg (setReg (fun _ => 0) 5 2147483647) 6 2147483647)) = Outcome.running s1 ∧
      s1.registers 7 = 0x3FFFFFFF := by
  obtain ⟨s1, h1, _, h3, _⟩ :=
    (mulh_step flatHost (progState [0x026293B3]
      (setReg (setReg (fun _ => 0) 5 2147483647) 6 2147483647)) 0x026293B3
      (by decide) (by decide) (by decide) (by decide) (by decide) (by decide) (by decide)).1
  refine ⟨by decide, by decide, by decide, by decide, s1, h1, ?_⟩
  rw [show get_rd 0x026293B3 = 7 by decide] at h3
  rw [h3]; decide

/-! ## Register shifts and SLTIU (C13, C14) -/

theorem shift_count (b : Int) :
    toU32 b &&& 0x1F = (b % 32).toNat ∧ (b % 32).toNat < 32 := by
  have h : toU32 b &&& 0x1F = toU32 b % 32 := and_31 _
  rw [h]
  unfold toU32
  omega

theorem toS32_toU32 (a : Int) (ha : IsInt32 a) : toS32 (toU32 a) = a :=
  wrap32_of_isInt32 a ha

theorem sar_in_range (a : Int) (n : Nat) (ha : IsInt32 a) : IsInt32 (a / (2 : Int) ^ n) := by
  unfold IsInt32 at *
  have hd : (0 : Int) < 2 ^ n := by positivity
  have hd1 : (1 : Int) ≤ 2 ^ n := hd
  obtain ⟨h1, h2⟩ := ha
  constructor
  · apply Int.le_ediv_of_mul_le hd
    nlinarith
  · apply Int.ediv_lt_of_lt_mul hd
    nlinarith

theorem exec_sll {M : Type} (h : Host M) (s : State M) (w : Nat)
    (hop : get_opcode w = 0x33) (hf3 : get_funct3 w = 1) (hf7 : get_funct7 w ≠ 1) :
    exec h s w = (s.enter.write (get_rd w)
      (toS32 ((toU32 (s.reg (get_rs1 w)) * 2 ^ (s.reg (get_rs2 w) % 32).toNat)
        % 4294967296))).retire ((s.pc + 4) % 4294967296) := by
  rw [exec_of_reg_arith h s w hop]
  obtain ⟨c1, c2⟩ := shift_count (s.reg (get_rs2 w))
  simp only [exec_reg_arith, hf3, hf7, shl32, c1, c2, Nat.shiftLeft_eq]
  simp

theorem exec_srl {M : Type} (h : Host M) (s : State M) (w : Nat)
    (hop : get_opcode w = 0x33) (hf3 : get_funct3 w = 5) (hf7 : get_funct7 w ≠ 0x20)
    (hf7b : get_funct7 w ≠ 1) :
    exec h s w = (s.enter.write (get_rd w)
      (toS32 (toU32 (s.reg (get_rs1 w)) / 2 ^ (s.reg (get_rs2 w) % 32).toNat))).retire
        ((s.pc + 4) % 4294967296) := by
  rw [exec_of_reg_arith h s w hop]
  obtain ⟨c1, c2⟩ := shift_count (s.reg (get_rs2 w))
  have hlt := toU32_lt (s.reg (get_rs1 w))
  simp only [exec_reg_arith, hf3, hf7, hf7b, shr32, c1, c2, Nat.shiftRight_eq_div_pow,
    Nat.mod_eq_of_lt hlt]
  simp

theorem exec_sra {M : Type} (h : Host M) (s : State M) (w : Nat)
    (hop : get_opcode w = 0x33) (hf3 : get_funct3 w = 5) (hf7 : get_funct7 w = 0x20)
    (ha : IsInt32 (s.reg (get_rs1 w))) :
    exec h s w = (s.enter.write (get_rd w)
      (s.reg (get_rs1 w) / (2 : Int) ^ (s.reg (get_rs2 w) % 32).toNat)).retire
        ((s.pc + 4) % 4294967296) := by
  rw [exec_of_reg_arith h s w hop]
  obtain ⟨c1, c2⟩ := shift_count (s.reg (get_rs2 w))
  simp only [exec_reg_arith, hf3, hf7, sar32, c1, c2]
  simp [wrap32_of_isInt32 _ (sar_in_range _ (s.reg (get_rs2 w) % 32).toNat ha)]


theorem reg_shift_low_bits_only {M : Type} (h : Host M) (s0 : State M) (n rd f3 f7 : Nat)
    (a b b2 : Int) (hb : b2 % 32 = b % 32)
    (hsh : (f3 = 1 ∧ f7 = 0) ∨ (f3 = 5 ∧ f7 = 0) ∨ (f3 = 5 ∧ f7 = 0x20)) :
    exec_reg_arith h s0 n rd f3 f7 a b2 = exec_reg_arith h s0 n rd f3 f7 a b := by
  have c1 := (shift_count b).1
  have c2 := (shift_count b2).1
  rw [hb] at c2
  rcases hsh with ⟨h3, h7⟩ | ⟨h3, h7⟩ | ⟨h3, h7⟩ <;>
    simp [exec_reg_arith, h3, h7, c1, c2]

/-- C13: the register shifts of opcode 0x33 for the values `a` of `rs1` (in the
signed 32-bit range) and `b` of `rs2`, with the count `sh = b mod 32`: SLL
(funct3 1, funct7 0) leaves the pattern `(a << sh) mod 2^32` in `rd`, SRL
(funct3 5, funct7 0) the pattern of `a` divided by `2^sh`, SRA (funct3 5,
funct7 0x20) the value `floor(a / 2^sh)`.  Nothing else of `rs2` matters: a value
`b2` with `b2 mod 32 = b mod 32` in place of `b` gives the same outcome; and
when the count is 0, `rd` gets `a` unchanged. -/
theorem reg_shift_step {M : Type} (h : Host M) (s : State M) (w : Nat)
    (hf : fetch h s = w) (hop : get_opcode w = 0x33) (_hrd : get_rd w ≠ 0)
    (ha : IsInt32 (s.reg (get_rs1 w))) :
    (get_funct3 w = 1 ∧ get_funct7 w = 0 →
      ∃ s1, step h s = Outcome.running s1 ∧ s1.pc = (s.pc + 4) % 4294967296 ∧
        toU32 (s1.registers (get_rd w))
          = (toU32 (s.reg (get_rs1 w)) * 2 ^ (s.reg (get_rs2 w) % 32).toNat) % 4294967296 ∧
        (s.reg (get_rs2 w) % 32 = 0 → s1.registers (get_rd w) = s.reg (get_rs1 w))) ∧
    (get_funct3 w = 5 ∧ get_funct7 w = 0 →
      ∃ s1, step h s = Outcome.running s1 ∧ s1.pc = (s.pc + 4) % 4294967296 ∧
        toU32 (s1.registers (get_rd w))
          = toU32 (s.reg (get_rs1 w)) / 2 ^ (s.reg (get_rs2 w) % 32).toNat ∧
        (s.reg (get_rs2 w) % 32 = 0 → s1.registers (get_rd w) = s.reg (get_rs1 w))) ∧
    (get_funct3 w = 5 ∧ get_funct7 w = 0x20 →
      ∃ s1, step h s = Outcome.running s1 ∧ s1.pc = (s.pc + 4) % 4294967296 ∧
        s1.registers (get_rd w)
          = s.reg (get_rs1 w) / (2 : Int) ^ (s.reg (get_rs2 w) % 32).toNat ∧
        (s.reg (get_rs2 w) % 32 = 0 → s1.registers (get_rd w) = s.reg (get_rs1 w))) ∧
    ((get_funct3 w = 1 ∧ get_funct7 w = 0) ∨ (get_funct3 w = 5 ∧ get_funct7 w = 0) ∨
        (get_funct3 w = 5 ∧ get_funct7 w = 0x20) →
      ∀ b2 : Int, b2 % 32 = s.reg (get_rs2 w) % 32 →
        exec_reg_arith h s.enter ((s.pc + 4) % 4294967296) (get_rd w) (get_funct3 w)
            (get_funct7 w) (s.reg (get_rs1 w)) b2 = step h s) := by
  have hlt := toU32_lt (s.reg (get_rs1 w))
  refine ⟨?_, ?_, ?_, ?_⟩
  · rintro ⟨h3, h7⟩
    have e := exec_sll h s w hop h3 (by omega)
    obtain ⟨s1, h1, h2, hp, _⟩ := step_write_effect h s w _ _ hf e
    refine ⟨s1, h1, hp, ?_, ?_⟩
    · rw [h2, toU32_toS32, Nat.mod_mod]
    · intro h0
      rw [h2, h0]
      simp only [Int.toNat_zero, pow_zero, Nat.mul_one, Nat.mod_eq_of_lt hlt]
      exact toS32_toU32 _ ha
  · rintro ⟨h3, h7⟩
    have e := exec_srl h s w hop h3 (by omega) (by omega)
    obtain ⟨s1, h1, h2, hp, _⟩ := step_write_effect h s w _ _ hf e
    refine ⟨s1, h1, hp, ?_, ?_⟩
    · rw [h2, toU32_toS32]
      apply Nat.mod_eq_of_lt
      exact lt_of_le_of_lt (Nat.div_le_self _ _) hlt
    · intro h0
      rw [h2, h0]
      simp only [Int.toNat_zero, pow_zero, Nat.div_one]
      exact toS32_toU32 _ ha
  · rintro ⟨h3, h7⟩
    have e := exec_sra h s w hop h3 h7 ha
    obtain ⟨s1, h1, h2, hp, _⟩ := step_write_effect h s w _ _ hf e
    refine ⟨s1, h1, hp, h2, ?_⟩
    intro h0
    rw [h2, h0]
    simp
  · intro hsh b2 hb
    rw [step_of_fetch h s w hf, exec_of_reg_arith h s w hop]
    exact reg_shift_low_bits_only h _ _ _ _ _ _ _ _ hb hsh

/-- C13 (witness): `sll t2,t0,t1` (0x006293B3) with `t0 = 1` and `t1 = 32`
shifts by 0 and leaves 1 in `t2`. -/
theorem reg_shift_step_witness :
    fetch flatHost (progState [0x006293B3] (setReg (setReg (fun _ => 0) 5 1) 6 32))
      = 0x006293B3 ∧
    get_opcode 0x006293B3 = 0x33 ∧ get_funct3 0x006293B3 = 1 ∧ get_funct7 0x006293B3 = 0 ∧
    (progState [0x006293B3] (setReg (setReg (fun _ => 0) 5 1) 6 32)).reg
      (get_rs1 0x006293B3) = 1 ∧
    (progState [0x006293B3] (setReg (setReg (fun _ => 0) 5 1) 6 32)).reg
      (get_rs2 0x006293B3) = 32 ∧
    ∃ s1, step flatHost (progState [0x006293B3] (setReg (setReg (fun _ => 0) 5 1) 6 32))
        = Outcome.running s1 ∧ s1.registers 7 = 1 := by
  obtain ⟨s1, h1, _, _, h4⟩ :=
    (reg_shift_step flatHost (progState [0x006293B3] (setReg (setReg (fun _ => 0) 5 1) 6 32))
      0x006293B3 (by decide) (by decide) (by decide) (by decide)).1 ⟨by decide, by decide⟩
  refine ⟨by decide, by decide, by decide, by decide, by decide, by decide, s1, h1, ?_⟩
  have := h4 (by decide)
  rw [show get_rd 0x006293B3 = 7 by decide] at this
  rw [this]; decide

theorem get_i_imm_eq (w : Nat) (hw : w < 4294967296) :
    get_i_imm w = signed_of_field 12 (bitsOf w 31 20) := by
  have h1 : w >>> 20 = bitsOf w 31 20 := by
    unfold bitsOf
    rw [Nat.shiftRight_eq_div_pow]
    norm_num
    omega
  unfold get_i_imm
  rw [h1]
  apply sign_extend_eq 12 _ (by norm_num) (by norm_num)
  unfold bitsOf
  norm_num
  omega

theorem sltiu_cases (a imm : Int) :
    (toU32 a < toU32 imm ↔ a % 4294967296 < imm % 4294967296) ∧
    (imm = -1 → (toU32 a < toU32 imm ↔ toU32 a ≠ 4294967295)) ∧
    (imm = 0 → ¬ toU32 a < toU32 imm) := by
  have ha := toU32_eq_emod a
  have hi := toU32_eq_emod imm
  refine ⟨by omega, ?_, ?_⟩
  · intro h; subst h
    have hl := toU32_lt a
    rw [toU32_neg_one]; omega
  · intro h; subst h
    have : toU32 0 = 0 := by decide
    rw [this]; omega

/-- C14: a step on an SLTIU word (opcode 0x13, funct3 3) with `rd` not 0 leaves
1 in `rd` when the pattern of `rs1`, read as an unsigned number, is below the
sign-extended I-immediate read as an unsigned 32-bit number, and 0 otherwise.
So with the immediate -1 the result is 1 for every `rs1` other than 0xFFFFFFFF,
and with the immediate 0 it is 0. -/
theorem sltiu_step {M : Type} (h : Host M) (s : State M) (w : Nat)
    (hf : fetch h s = w) (hop : get_opcode w = 0x13) (hf3 : get_funct3 w = 3)
    (_hrd : get_rd w ≠ 0) :
    ∃ s1, step h s = Outcome.running s1 ∧ s1.pc = (s.pc + 4) % 4294967296 ∧
      (s.reg (get_rs1 w) % 4294967296 < get_i_imm w % 4294967296 →
        s1.registers (get_rd w) = 1) ∧
      (¬ s.reg (get_rs1 w) % 4294967296 < get_i_imm w % 4294967296 →
        s1.registers (get_rd w) = 0) ∧
      (get_i_imm w = -1 → toU32 (s.reg (get_rs1 w)) ≠ 0xFFFFFFFF →
        s1.registers (get_rd w) = 1) ∧
      (get_i_imm w = -1 → toU32 (s.reg (get_rs1 w)) = 0xFFFFFFFF →
        s1.registers (get_rd w) = 0) ∧
      (get_i_imm w = 0 → s1.registers (get_rd w) = 0) ∧
      (w < 4294967296 → get_i_imm w = signed_of_field 12 (bitsOf w 31 20)) := by
  have e : exec h s w = (s.enter.write (get_rd w)
      (if toU32 (s.reg (get_rs1 w)) < toU32 (get_i_imm w) then 1 else 0)).retire
        ((s.pc + 4) % 4294967296) := by
    rw [exec_of_imm_arith h s w hop]
    simp [exec_imm_arith, hf3]
  obtain ⟨s1, h1, h2, hp, _⟩ := step_write_effect h s w _ _ hf e
  obtain ⟨c1, c2, c3⟩ := sltiu_cases (s.reg (get_rs1 w)) (get_i_imm w)
  refine ⟨s1, h1, hp, ?_, ?_, ?_, ?_, ?_, get_i_imm_eq w⟩
  · intro hlt; rw [h2, if_pos (c1.2 hlt)]
  · intro hlt; rw [h2, if_neg (fun hc => hlt (c1.1 hc))]
  · intro hi hne; rw [h2, if_pos ((c2 hi).2 hne)]
  · intro hi he; rw [h2, if_neg (fun hc => (c2 hi).1 hc he)]
  · intro hi; rw [h2, if_neg (c3 hi)]

/-- C14 (witness): `sltiu t1,t0,-1` (0xFFF2B313) with `t0 = 5` leaves 1 in `t1`. -/
theorem sltiu_step_witness :
    fetch flatHost (progState [0xFFF2B313] (setReg (fun _ => 0) 5 5)) = 0xFFF2B313 ∧
    get_opcode 0xFFF2B313 = 0x13 ∧ get_funct3 0xFFF2B313 = 3 ∧ get_i_imm 0xFFF2B313 = -1 ∧
    ∃ s1, step flatHost (progState [0xFFF2B313] (setReg (fun _ => 0) 5 5))
        = Outcome.running s1 ∧ s1.registers 6 = 1 := by
  obtain ⟨s1, h1, _, _, _, h5, _⟩ :=
    sltiu_step flatHost (progState [0xFFF2B313] (setReg (fun _ => 0) 5 5)) 0xFFF2B313
      (by decide) (by decide) (by decide) (by decide)
  exact ⟨by decide, by decide, by decide, by decide, s1, h1, h5 (by decide) (by decide)⟩

/-! ## The S-immediate and sign extension (C15, C16) -/

theorem s_field_eq (w : Nat) (hw : w < 4294967296) :
    ((((w >>> 25) <<< 5) % 4294967296) ||| ((w >>> 7) &&& 0x1F)) = spec_s_field w := by
  simp only [Nat.shiftRight_eq_div_pow, Nat.shiftLeft_eq, and_31]
  unfold spec_s_field bitsOf
  norm_num
  have hA : w / 33554432 * 32 % 4294967296 = w / 33554432 * 32 := by omega
  rw [hA]
  have e1 : w / 33554432 * 32 ||| w / 128 % 32 = w / 33554432 * 32 + w / 128 % 32 :=
    or_eq_add_of_low 5 _ _ (by omega) (by omega)
  rw [e1]
  omega

theorem spec_s_field_lt (w : Nat) : spec_s_field w < 4096 := by
  unfold spec_s_field bitsOf
  norm_num
  omega

theorem get_s_imm_eq (w : Nat) (hw : w < 4294967296) :
    get_s_imm w = signed_of_field 12 (spec_s_field w) := by
  unfold get_s_imm
  rw [s_field_eq w hw]
  exact sign_extend_eq 12 _ (by norm_num) (by norm_num)
    (by have := spec_s_field_lt w; norm_num; omega)

/-- C15: for every 32-bit word `w`, `get_s_imm w` is the signed value of the
12-bit field with bits 11:5 = `w[31:25]` and bits 4:0 = `w[11:7]`, sign-extended
from 12 bits; it lies between -2048 and 2047, and two words that agree in bits
31:25 and 11:7 have the same S-immediate, whatever their bits 24:12 and 6:0. -/
theorem get_s_imm_spec (w : Nat) (hw : w < 4294967296) :
    get_s_imm w = signed_of_field 12 (spec_s_field w) ∧
    -2048 ≤ get_s_imm w ∧ get_s_imm w ≤ 2047 ∧
    (∀ w2 : Nat, w2 < 4294967296 → bitsOf w2 31 25 = bitsOf w 31 25 →
      bitsOf w2 11 7 = bitsOf w 11 7 → get_s_imm w2 = get_s_imm w) := by
  have h1 := spec_s_field_lt w
  have h2 := get_s_imm_eq w hw
  refine ⟨h2, ?_, ?_, ?_⟩
  · rw [h2]; unfold signed_of_field; norm_num; split <;> omega
  · rw [h2]; unfold signed_of_field; norm_num; split <;> omega
  · intro w2 hw2 e1 e2
    rw [h2, get_s_imm_eq w2 hw2]
    unfold spec_s_field
    rw [e1, e2]

/-- C15 (witness): `sw a1,-4(sp)` (0xFEB12E23) has the S-immediate -4, and so
has the word 0xFE000E00 that keeps only its bits 31:25 and 11:7. -/
theorem get_s_imm_spec_witness :
    (0xFEB12E23 : Nat) < 4294967296 ∧ get_s_imm 0xFEB12E23 = -4 ∧
    get_s_imm 0xFE000E00 = get_s_imm 0xFEB12E23 := by
  have h := get_s_imm_spec 0xFEB12E23 (by decide)
  exact ⟨by decide, by decide, h.2.2.2 0xFE000E00 (by decide) (by decide) (by decide)⟩

theorem bit_top_clear (k x : Nat) (hx : x < 2 ^ (k + 1)) :
    (bitsOf x k k = 0 ↔ x < 2 ^ k) ∧ (bitsOf x k k = 1 ↔ ¬ x < 2 ^ k) := by
  have hp : 2 ^ (k + 1) = 2 * 2 ^ k := by rw [Nat.pow_succ]; omega
  have hpos : 0 < 2 ^ k := by positivity
  have hq : x / 2 ^ k < 2 := by
    rw [Nat.div_lt_iff_lt_mul hpos]; omega
  have h0 : x / 2 ^ k = 0 ↔ x < 2 ^ k := by
    rw [Nat.div_eq_zero_iff hpos]
  have e : bitsOf x k k = x / 2 ^ k := by
    unfold bitsOf
    have e1 : k + 1 - k = 1 := by omega
    rw [e1, pow_one]
    exact Nat.mod_eq_of_lt hq
  rw [e]
  generalize x / 2 ^ k = q at hq h0
  constructor
  · exact h0
  · constructor
    · intro h1 hlt
      have := h0.2 hlt
      omega
    · intro hlt
      have : q ≠ 0 := fun hc => hlt (h0.1 hc)
      omega

theorem sign_extend_wrap (n x : Nat) (hn : 1 ≤ n) (hn32 : n ≤ 32) (hx : x < 2 ^ n) :
    sign_extend x n = wrap32 (((x ^^^ 2 ^ (n - 1) : Nat) : Int) - ((2 ^ (n - 1) : Nat) : Int)) := by
  have hk : n - 1 < 32 := by omega
  have hpk : 2 ^ (n - 1) < 4294967296 := by
    have : 2 ^ (n - 1) < 2 ^ 32 := Nat.pow_lt_pow_right (by norm_num) hk
    simpa using this
  have hpn : 2 ^ n ≤ 4294967296 := by
    have : 2 ^ n ≤ 2 ^ 32 := Nat.pow_le_pow_right (by norm_num) hn32
    simpa using this
  have hX : x ^^^ 2 ^ (n - 1) < 4294967296 := by
    have : x ^^^ 2 ^ (n - 1) < 2 ^ 32 :=
      Nat.xor_lt_two_pow (by simpa using (by omega : x < 4294967296)) (by simpa using hpk)
    simpa using this
  unfold sign_extend wrap32
  simp only [Nat.shiftLeft_eq, Nat.one_mul]
  rw [Nat.mod_eq_of_lt hpk, Nat.mod_eq_of_lt (by omega : x < 4294967296)]
  generalize x ^^^ 2 ^ (n - 1) = X at hX
  generalize 2 ^ (n - 1) = p at hpk
  congr 1
  unfold toU32
  omega

/-- C16: for every width `n` with `1 ≤ n ≤ 32` and every `x < 2^n`,
`sign_extend x n` is `x` when bit `n - 1` of `x` is clear and `x - 2^n` when it
is set; it is the value `(x XOR 2^(n-1)) - 2^(n-1)` wrapped to 32 bits, and it is
a signed 32-bit number.  In particular the I-immediate of a 32-bit word `w` is
that extension of its bits 31:20 with `n = 12`. -/
theorem sign_extend_spec (n x : Nat) (hn : 1 ≤ n) (hn32 : n ≤ 32) (hx : x < 2 ^ n) :
    (bitsOf x (n - 1) (n - 1) = 0 → sign_extend x n = (x : Int)) ∧
    (bitsOf x (n - 1) (n - 1) = 1 → sign_extend x n = (x : Int) - 2 ^ n) ∧
    (bitsOf x (n - 1) (n - 1) = 0 ∨ bitsOf x (n - 1) (n - 1) = 1) ∧
    sign_extend x n
      = wrap32 (((x ^^^ 2 ^ (n - 1) : Nat) : Int) - ((2 ^ (n - 1) : Nat) : Int)) ∧
    IsInt32 (sign_extend x n) ∧
    (∀ w : Nat, w < 4294967296 →
      bitsOf w 31 20 < 2 ^ 12 ∧ get_i_imm w = sign_extend (bitsOf w 31 20) 12) := by
  obtain ⟨k, rfl⟩ : ∃ k, n = k + 1 := ⟨n - 1, by omega⟩
  have hb := bit_top_clear k x hx
  have he := sign_extend_eq (k + 1) x hn hn32 hx
  simp only [Nat.add_sub_cancel] at hb ⊢
  refine ⟨?_, ?_, ?_, ?_, ?_, ?_⟩
  · intro h0
    rw [he]; unfold signed_of_field
    simp only [Nat.add_sub_cancel]
    rw [if_pos (hb.1.1 h0)]
  · intro h1
    rw [he]; unfold signed_of_field
    simp only [Nat.add_sub_cancel]
    rw [if_neg (hb.2.1 h1)]
  · by_cases hlt : x < 2 ^ k
    · exact Or.inl (hb.1.2 hlt)
    · exact Or.inr (hb.2.2 hlt)
  · have := sign_extend_wrap (k + 1) x hn hn32 hx
    simpa using this
  · unfold sign_extend; exact toS32_isInt32 _
  · intro w hw
    have h1 : w >>> 20 = bitsOf w 31 20 := by
      unfold bitsOf
      rw [Nat.shiftRight_eq_div_pow]
      norm_num
      omega
    refine ⟨?_, ?_⟩
    · unfold bitsOf; norm_num; omega
    · unfold get_i_imm; rw [h1]

/-- C16 (witness): the 12-bit field 0xFFF extends to -1 and the 32-bit field
0x80000000 to -2^31. -/
theorem sign_extend_spec_witness :
    (1 ≤ 12 ∧ 12 ≤ 32 ∧ 0xFFF < 2 ^ 12 ∧ bitsOf 0xFFF 11 11 = 1 ∧
      sign_extend 0xFFF 12 = -1) ∧
    (1 ≤ 32 ∧ 32 ≤ 32 ∧ 0x80000000 < 2 ^ 32 ∧ bitsOf 0x80000000 31 31 = 1 ∧
      sign_extend 0x80000000 32 = -2147483648) := by
  have h1 := (sign_extend_spec 12 0xFFF (by decide) (by decide) (by decide)).2.1 (by decide)
  have h2 := (sign_extend_spec 32 0x80000000 (by decide) (by decide) (by decide)).2.1
    (by decide)
  refine ⟨⟨by decide, by decide, by decide, by decide, ?_⟩,
    ⟨by decide, by decide, by decide, by decide, ?_⟩⟩
  · rw [h1]; norm_num
  · rw [h2]; norm_num

/-! ## Store then load, LUI then ADDI (C17, C18) -/

theorem enter_mem {M : Type} (s : State M) : s.enter.mem = s.mem := rfl

/-- The effect of a step that stores: only the memory and the PC change. -/
theorem step_store_effect {M : Type} (h : Host M) (s : State M) (w : Nat) (m : M) (n : Nat)
    (hf : fetch h s = w)
    (he : exec h s w = State.retire { s.enter with mem := m } n) :
    ∃ s1, step h s = Outcome.running s1 ∧ s1.mem = m ∧ (∀ i, s1.reg i = s.reg i) ∧
      s1.pc = n := by
  rw [step_of_fetch h s w hf, he]
  refine ⟨_, rfl, rfl, ?_, rfl⟩
  intro i
  by_cases hi : i = 0 <;> simp [State.reg, State.enter, setReg, hi]

theorem exec_store_width {M : Type} (h : Host M) (s : State M) (w : Nat)
    (hop : get_opcode w = 0x23) :
    (get_funct3 w = 0 → exec h s w = State.retire
      { s.enter with mem := (h.memory_wr_b s.mem (toU32 (s.reg (get_rs1 w) + get_s_imm w))
          (toU32 (s.reg (get_rs2 w)))) } ((s.pc + 4) % 4294967296)) ∧
    (get_funct3 w = 1 → exec h s w = State.retire
      { s.enter with mem := (h.memory_wr_h s.mem (toU32 (s.reg (get_rs1 w) + get_s_imm w))
          (toU32 (s.reg (get_rs2 w)))) } ((s.pc + 4) % 4294967296)) ∧
    (get_funct3 w = 2 → exec h s w = State.retire
      { s.enter with mem := (h.memory_wr_w s.mem (toU32 (s.reg (get_rs1 w) + get_s_imm w))
          (toU32 (s.reg (get_rs2 w)))) } ((s.pc + 4) % 4294967296)) := by
  rw [exec_of_store h s w hop]
  refine ⟨?_, ?_, ?_⟩ <;> intro h3 <;> simp [exec_store, h3, enter_mem]

theorem exec_load_width {M : Type} (h : Host M) (s : State M) (w : Nat)
    (hop : get_opcode w = 0x03) :
    (get_funct3 w = 0 → exec h s w = (s.enter.write (get_rd w)
      (sign_extend (h.memory_rd_b s.mem (toU32 (s.reg (get_rs1 w) + get_i_imm w))) 8)).retire
        ((s.pc + 4) % 4294967296)) ∧
    (get_funct3 w = 1 → exec h s w = (s.enter.write (get_rd w)
      (sign_extend (h.memory_rd_h s.mem (toU32 (s.reg (get_rs1 w) + get_i_imm w))) 16)).retire
        ((s.pc + 4) % 4294967296)) ∧
    (get_funct3 w = 2 → exec h s w = (s.enter.write (get_rd w)
      (toS32 (h.memory_rd_w s.mem (toU32 (s.reg (get_rs1 w) + get_i_imm w))))).retire
        ((s.pc + 4) % 4294967296)) ∧
    (get_funct3 w = 4 → exec h s w = (s.enter.write (get_rd w)
      (toS32 ((h.memory_rd_b s.mem (toU32 (s.reg (get_rs1 w) + get_i_imm w))
        % 4294967296) &&& 0xFF))).retire ((s.pc + 4) % 4294967296)) ∧
    (get_funct3 w = 5 → exec h s w = (s.enter.write (get_rd w)
      (toS32 ((h.memory_rd_h s.mem (toU32 (s.reg (get_rs1 w) + get_i_imm w))
        % 4294967296) &&& 0xFFFF))).retire ((s.pc + 4) % 4294967296)) := by
  rw [exec_of_load h s w hop]
  refine ⟨?_, ?_, ?_, ?_, ?_⟩ <;> intro h3 <;> simp [exec_load, h3, enter_mem]

theorem sign_extend_byte (v : Nat) :
    sign_extend (v % 256) 8 = signed_of_field 8 (v % 256) :=
  sign_extend_eq 8 _ (by norm_num) (by norm_num) (by norm_num; omega)

theorem sign_extend_half (v : Nat) :
    sign_extend (v % 65536) 16 = signed_of_field 16 (v % 65536) :=
  sign_extend_eq 16 _ (by norm_num) (by norm_num) (by norm_num; omega)

theorem zero_extend_byte (v : Nat) :
    toS32 ((v % 256 % 4294967296) &&& 0xFF) = ((v % 256 : Nat) : Int) := by
  rw [and_255]
  unfold toS32
  split <;> omega

theorem zero_extend_half (v : Nat) :
    toS32 ((v % 65536 % 4294967296) &&& 0xFFFF) = ((v % 65536 : Nat) : Int) := by
  rw [and_65535]
  unfold toS32
  split <;> omega

theorem toS32_mod (v : Nat) : toS32 (v % 4294967296) = toS32 v := by
  unfold toS32
  rw [Nat.mod_mod]

/-- C17: over a memory whose reads return the last value written at the address
at that width, a store through `imm(rs1)` followed by a load through the same
`imm(rs1)` into `rd` (not 0) leaves in `rd`: after SB then LB the low 8 bits of
the value `b` of `rs2` sign-extended from 8 bits, after SB then LBU those bits
zero-extended, after SH then LH or LHU the same at 16 bits, and after SW then LW
the value `b` itself.  The first step is the store `w1`, the second the load
`w2` fetched after it. -/
theorem store_load_round_trip {M : Type} (h : Host M) (hm : ReadsLastWrite h)
    (s : State M) (w1 w2 : Nat) (hf1 : fetch h s = w1)
    (hop1 : get_opcode w1 = 0x23) (hop2 : get_opcode w2 = 0x03)
    (hrs : get_rs1 w2 = get_rs1 w1) (himm : get_i_imm w2 = get_s_imm w1)
    (_hrd : get_rd w2 ≠ 0) (hb : IsInt32 (s.reg (get_rs2 w1))) :
    (get_funct3 w1 = 0 ∧ get_funct3 w2 = 0 →
      ∃ s1, step h s = Outcome.running s1 ∧ (fetch h s1 = w2 →
        ∃ s2, step h s1 = Outcome.running s2 ∧
          s2.registers (get_rd w2) = signed_of_field 8 (toU32 (s.reg (get_rs2 w1)) % 256))) ∧
    (get_funct3 w1 = 0 ∧ get_funct3 w2 = 4 →
      ∃ s1, step h s = Outcome.running s1 ∧ (fetch h s1 = w2 →
        ∃ s2, step h s1 = Outcome.running s2 ∧
          s2.registers (get_rd w2) = ((toU32 (s.reg (get_rs2 w1)) % 256 : Nat) : Int))) ∧
    (get_funct3 w1 = 1 ∧ get_funct3 w2 = 1 →
      ∃ s1, step h s = Outcome.running s1 ∧ (fetch h s1 = w2 →
        ∃ s2, step h s1 = Outcome.running s2 ∧
          s2.registers (get_rd w2)
            = signed_of_field 16 (toU32 (s.reg (get_rs2 w1)) % 65536))) ∧
    (get_funct3 w1 = 1 ∧ get_funct3 w2 = 5 →
      ∃ s1, step h s = Outcome.running s1 ∧ (fetch h s1 = w2 →
        ∃ s2, step h s1 = Outcome.running s2 ∧
          s2.registers (get_rd w2) = ((toU32 (s.reg (get_rs2 w1)) % 65536 : Nat) : Int))) ∧
    (get_funct3 w1 = 2 ∧ get_funct3 w2 = 2 →
      ∃ s1, step h s = Outcome.running s1 ∧ (fetch h s1 = w2 →
        ∃ s2, step h s1 = Outcome.running s2 ∧
          s2.registers (get_rd w2) = s.reg (get_rs2 w1))) := by
  obtain ⟨mb, mh, mw⟩ := hm
  have hst := exec_store_width h s w1 hop1
  refine ⟨?_, ?_, ?_, ?_, ?_⟩
  · rintro ⟨h31, h32⟩
    obtain ⟨s1, hs1, hmem, hreg, _⟩ := step_store_effect h s w1 _ _ hf1 (hst.1 h31)
    refine ⟨s1, hs1, fun hf2 => ?_⟩
    have e2 := (exec_load_width h s1 w2 hop2).1 h32
    rw [hmem, hreg, hrs, himm, mb, sign_extend_byte] at e2
    obtain ⟨s2, hs2, hval, _⟩ := step_write_effect h s1 w2 _ _ hf2 e2
    exact ⟨s2, hs2, hval⟩
  · rintro ⟨h31, h32⟩
    obtain ⟨s1, hs1, hmem, hreg, _⟩ := step_store_effect h s w1 _ _ hf1 (hst.1 h31)
    refine ⟨s1, hs1, fun hf2 => ?_⟩
    have e2 := (exec_load_width h s1 w2 hop2).2.2.2.1 h32
    rw [hmem, hreg, hrs, himm, mb, zero_extend_byte] at e2
    obtain ⟨s2, hs2, hval, _⟩ := step_write_effect h s1 w2 _ _ hf2 e2
    exact ⟨s2, hs2, hval⟩
  · rintro ⟨h31, h32⟩
    obtain ⟨s1, hs1, hmem, hreg, _⟩ := step_store_effect h s w1 _ _ hf1 (hst.2.1 h31)
    refine ⟨s1, hs1, fun hf2 => ?_⟩
    have e2 := (exec_load_width h s1 w2 hop2).2.1 h32
    rw [hmem, hreg, hrs, himm, mh, sign_extend_half] at e2
    obtain ⟨s2, hs2, hval, _⟩ := step_write_effect h s1 w2 _ _ hf2 e2
    exact ⟨s2, hs2, hval⟩
  · rintro ⟨h31, h32⟩
    obtain ⟨s1, hs1, hmem, hreg, _⟩ := step_store_effect h s w1 _ _ hf1 (hst.2.1 h31)
    refine ⟨s1, hs1, fun hf2 => ?_⟩
    have e2 := (exec_load_width h s1 w2 hop2).2.2.2.2 h32
    rw [hmem, hreg, hrs, himm, mh, zero_extend_half] at e2
    obtain ⟨s2, hs2, hval, _⟩ := step_write_effect h s1 w2 _ _ hf2 e2
    exact ⟨s2, hs2, hval⟩
  · rintro ⟨h31, h32⟩
    obtain ⟨s1, hs1, hmem, hreg, _⟩ := step_store_effect h s w1 _ _ hf1 (hst.2.2 h31)
    refine ⟨s1, hs1, fun hf2 => ?_⟩
    have e2 := (exec_load_width h s1 w2 hop2).2.2.1 h32
    rw [hmem, hreg, hrs, himm, mw, toS32_mod, toS32_toU32 _ hb] at e2
    obtain ⟨s2, hs2, hval, _⟩ := step_write_effect h s1 w2 _ _ hf2 e2
    exact ⟨s2, hs2, hval⟩

theorem flat_wr_b_same (m : FlatMem) (a v : Nat) :
    flat_rd_b (flat_wr_b m a v) a = v % 256 := by
  simp [flat_rd_b, flat_wr_b]

theorem flat_wr_b_other (m : FlatMem) (a c v : Nat)
    (hne : c % 4294967296 ≠ a % 4294967296) :
    flat_rd_b (flat_wr_b m a v) c = flat_rd_b m c := by
  simp [flat_rd_b, flat_wr_b, hne]

theorem flat_reads_last_write : ReadsLastWrite flatHost := by
  refine ⟨?_, ?_, ?_⟩
  · intro m a v
    exact flat_wr_b_same m a v
  · intro m a v
    show flat_rd_h (flat_wr_h m a v) a = v % 65536
    unfold flat_rd_h flat_wr_h
    rw [flat_wr_b_same, flat_wr_b_other _ _ _ _ (by omega), flat_wr_b_same]
    omega
  · intro m a v
    show flat_rd_w (flat_wr_w m a v) a = v % 4294967296
    unfold flat_rd_w flat_wr_w
    rw [flat_wr_b_same, flat_wr_b_other _ _ (a + 2) _ (by omega), flat_wr_b_same,
      flat_wr_b_other _ _ (a + 1) _ (by omega), flat_wr_b_other _ _ (a + 1) _ (by omega),
      flat_wr_b_same, flat_wr_b_other _ _ a _ (by omega), flat_wr_b_other _ _ a _ (by omega),
      flat_wr_b_other _ _ a _ (by omega), flat_wr_b_same]
    omega

/-- C17 (witness): over the flat memory, `sb t1,8(t0)` then `lb t2,8(t0)`
(0x00628423, 0x00828383) with `t0 = 0x2000` and `t1 = 0x1F0` leaves -16, the
sign-extended byte 0xF0, in `t2`. -/
theorem store_load_round_trip_witness :
    ReadsLastWrite flatHost ∧
    fetch flatHost (progState [0x00628423, 0x00828383]
      (setReg (setReg (fun _ => 0) 5 0x2000) 6 0x1F0)) = 0x00628423 ∧
    get_opcode 0x00628423 = 0x23 ∧ get_opcode 0x00828383 = 0x03 ∧
    get_funct3 0x00628423 = 0 ∧ get_funct3 0x00828383 = 0 ∧
    get_i_imm 0x00828383 = get_s_imm 0x00628423 ∧
    signed_of_field 8 (toU32 0x1F0 % 256) = -16 ∧
    ∃ s1, step flatHost (progState [0x00628423, 0x00828383]
        (setReg (setReg (fun _ => 0) 5 0x2000) 6 0x1F0)) = Outcome.running s1 ∧
      ∃ s2, step flatHost s1 = Outcome.running s2 ∧ s2.registers 7 = -16 := by
  obtain ⟨s1, hs1, hnext⟩ :=
    (store_load_round_trip flatHost flat_reads_last_write
      (progState [0x00628423, 0x00828383] (setReg (setReg (fun _ => 0) 5 0x2000) 6 0x1F0))
      0x00628423 0x00828383 (by decide) (by decide) (by decide) (by decide) (by decide)
      (by decide) (by decide)).1 ⟨by decide, by decide⟩
  have hs1b : step flatHost (progState [0x00628423, 0x00828383]
      (setReg (setReg (fun _ => 0) 5 0x2000) 6 0x1F0)) = Outcome.running _ := rfl
  have e : s1 = _ := Outcome.running.inj (hs1.symm.trans hs1b)
  obtain ⟨s2, hs2, hv⟩ := hnext (by rw [e]; decide)
  refine ⟨flat_reads_last_write, by decide, by decide, by decide, by decide, by decide,
    by decide, by decide, s1, hs1, s2, hs2, ?_⟩
  rw [show get_rd 0x00828383 = 7 by decide] at hv
  rw [hv]; decide

theorem and_div_two_pow (a b k : Nat) : (a &&& b) / 2 ^ k = a / 2 ^ k &&& b / 2 ^ k := by
  induction k with
  | zero => simp
  | succ k ih =>
    rw [Nat.pow_succ, ← Nat.div_div_eq_div_mul, ← Nat.div_div_eq_div_mul,
      ← Nat.div_div_eq_div_mul, ih, Nat.and_div_two]

theorem and_upper20 (w : Nat) (hw : w < 4294967296) :
    w &&& 0xFFFFF000 = 4096 * bitsOf w 31 12 ∧ w &&& 0xFFFFF000 < 4294967296 := by
  have h1 : (w &&& 0xFFFFF000) / 2 ^ 12 = w / 4096 := by
    rw [and_div_two_pow]
    have e : (0xFFFFF000 : Nat) / 2 ^ 12 = 2 ^ 20 - 1 := by norm_num
    rw [e, Nat.and_pow_two_sub_one_eq_mod]
    norm_num
    omega
  have h2 : (w &&& 0xFFFFF000) % 2 ^ 12 = 0 := by
    rw [← Nat.and_pow_two_sub_one_eq_mod, Nat.and_assoc]
    have e : (0xFFFFF000 : Nat) &&& (2 ^ 12 - 1) = 0 := by decide
    rw [e, Nat.and_zero]
  have h3 : w &&& 0xFFFFF000 ≤ w := Nat.and_le_left
  have hb : bitsOf w 31 12 = w / 4096 := by
    unfold bitsOf
    norm_num
    omega
  rw [hb]
  norm_num at h1 h2
  omega

theorem exec_addi {M : Type} (h : Host M) (s : State M) (w : Nat)
    (hop : get_opcode w = 0x13) (hf3 : get_funct3 w = 0) :
    exec h s w = (s.enter.write (get_rd w)
      (wrap32 (s.reg (get_rs1 w) + get_i_imm w))).retire ((s.pc + 4) % 4294967296) := by
  rw [exec_of_imm_arith h s w hop]
  simp [exec_imm_arith, hf3]

theorem fetch_lt {M : Type} (h : Host M) (s : State M) : fetch h s < 4294967296 := by
  unfold fetch
  omega

theorem reg_of_registers {M : Type} (s : State M) (i : Nat) (hi : i ≠ 0) :
    s.reg i = s.registers i := by
  simp [State.reg, hi]

/-- C18: for a LUI word `w1` (opcode 0x37) with `rd` not 0, the step on `w1`
followed by the step on `addi rd,rd,0` leaves in `rd` the pattern
`w1 AND 0xFFFFF000`, which is 4096 times the 20-bit field `w1[31:12]`, whatever
`rd` held before. -/
theorem lui_addi_round_trip {M : Type} (h : Host M) (s : State M) (w1 w2 : Nat)
    (hf1 : fetch h s = w1) (hop1 : get_opcode w1 = 0x37) (hrd : get_rd w1 ≠ 0)
    (hop2 : get_opcode w2 = 0x13) (hf3 : get_funct3 w2 = 0)
    (hrd2 : get_rd w2 = get_rd w1) (hrs2 : get_rs1 w2 = get_rd w1)
    (himm : get_i_imm w2 = 0) :
    ∃ s1, step h s = Outcome.running s1 ∧
      toU32 (s1.registers (get_rd w1)) = w1 &&& 0xFFFFF000 ∧
      (fetch h s1 = w2 →
        ∃ s2, step h s1 = Outcome.running s2 ∧
          toU32 (s2.registers (get_rd w1)) = w1 &&& 0xFFFFF000 ∧
          s2.registers (get_rd w1) = toS32 (w1 &&& 0xFFFFF000) ∧
          w1 &&& 0xFFFFF000 = 4096 * bitsOf w1 31 12) := by
  have hw : w1 < 4294967296 := by rw [← hf1]; exact fetch_lt h s
  obtain ⟨hu1, hu2⟩ := and_upper20 w1 hw
  obtain ⟨s1, hs1, hv1, _⟩ := step_write_effect h s w1 _ _ hf1 (exec_of_lui h s w1 hop1)
  have hpat : toU32 (toS32 (w1 &&& 0xFFFFF000)) = w1 &&& 0xFFFFF000 := by
    rw [toU32_toS32]; exact Nat.mod_eq_of_lt hu2
  refine ⟨s1, hs1, ?_, fun hf2 => ?_⟩
  · rw [hv1]; exact hpat
  · have e2 := exec_addi h s1 w2 hop2 hf3
    rw [hrs2, himm, reg_of_registers s1 _ hrd, hv1, Int.add_zero] at e2
    have hin : wrap32 (get_u_imm w1) = get_u_imm w1 :=
      wrap32_of_isInt32 _ (toS32_isInt32 _)
    rw [hin] at e2
    obtain ⟨s2, hs2, hv2, _⟩ := step_write_effect h s1 w2 _ _ hf2 e2
    rw [hrd2] at hv2
    refine ⟨s2, hs2, ?_, hv2, hu1⟩
    rw [hv2]; exact hpat

/-- C18 (witness): `lui a0,0x12345` then `addi a0,a0,0` (0x12345537,
0x00050513) with `a0 = -7` before leaves 0x12345000 in `a0`. -/
theorem lui_addi_round_trip_witness :
    fetch flatHost (progState [0x12345537, 0x00050513] (setReg (fun _ => 0) 10 (-7)))
      = 0x12345537 ∧
    get_opcode 0x12345537 = 0x37 ∧ get_rd 0x12345537 = 10 ∧
    get_opcode 0x00050513 = 0x13 ∧ get_funct3 0x00050513 = 0 ∧ get_rd 0x00050513 = 10 ∧
    get_rs1 0x00050513 = 10 ∧ get_i_imm 0x00050513 = 0 ∧
    ∃ s1, step flatHost (progState [0x12345537, 0x00050513] (setReg (fun _ => 0) 10 (-7)))
        = Outcome.running s1 ∧
      ∃ s2, step flatHost s1 = Outcome.running s2 ∧ s2.registers 10 = 0x12345000 := by
  obtain ⟨s1, hs1, _, hnext⟩ :=
    lui_addi_round_trip flatHost
      (progState [0x12345537, 0x00050513] (setReg (fun _ => 0) 10 (-7)))
      0x12345537 0x00050513 (by decide) (by decide) (by decide) (by decide) (by decide)
      (by decide) (by decide) (by decide)
  have hs1b : step flatHost (progState [0x12345537, 0x00050513]
      (setReg (fun _ => 0) 10 (-7))) = Outcome.running _ := rfl
  have e : s1 = _ := Outcome.running.inj (hs1.symm.trans hs1b)
  obtain ⟨s2, hs2, _, hv, _⟩ := hnext (by rw [e]; decide)
  refine ⟨by decide, by decide, by decide, by decide, by decide, by decide, by decide,
    by decide, s1, hs1, s2, hs2, ?_⟩
  rw [show get_rd 0x12345537 = 10 by decide] at hv
  rw [hv]; decide

/-! ## Every path of one iteration (C19, C20) -/

theorem sat_ite {M : Type} (P Q : State M → Prop) (F T : Prop) (c : Prop) [Decidable c]
    (x y : Outcome M) (hx : Outcome.Sat P Q F T x) (hy : Outcome.Sat P Q F T y) :
    Outcome.Sat P Q F T (if c then x else y) := by
  split <;> assumption

theorem sat_dite {M : Type} (P Q : State M → Prop) (F T : Prop) (c : Prop) [Decidable c]
    (x y : Outcome M) (hx : c → Outcome.Sat P Q F T x) (hy : ¬ c → Outcome.Sat P Q F T y) :
    Outcome.Sat P Q F T (if c then x else y) := by
  split
  · exact hx (by assumption)
  · exact hy (by assumption)

theorem sat_write_or_trap {M : Type} (P Q : State M → Prop) (F T : Prop) (s0 : State M)
    (rd : Nat) (v : Option Int) (n : Nat)
    (hP : ∀ x, v = some x → P { s0.write rd x with pc := n }) (hT : v = none → T) :
    Outcome.Sat P Q F T (s0.write_or_trap rd v n) := by
  cases v with
  | none => exact hT rfl
  | some x => exact hP x rfl

theorem sdiv32_some {M : Type} (h : Host M) (a b x : Int) (hx : sdiv32 h a b = some x) :
    IsInt32 x := by
  unfold sdiv32 at hx
  split at hx
  · cases hd : h.div_overflow with
    | none => rw [hd] at hx; cases hx
    | some v =>
      rw [hd] at hx
      cases hx
      exact toS32_isInt32 _
  · cases hx
    exact toS32_isInt32 _

theorem srem32_some {M : Type} (h : Host M) (a b x : Int) (hx : srem32 h a b = some x) :
    IsInt32 x := by
  unfold srem32 at hx
  split at hx
  · cases hd : h.rem_overflow with
    | none => rw [hd] at hx; cases hx
    | some v =>
      rw [hd] at hx
      cases hx
      exact toS32_isInt32 _
  · cases hx
    exact toS32_isInt32 _

theorem sdiv32_none {M : Type} (h : Host M) (a b : Int) :
    sdiv32 h a b = none ↔ (h.div_overflow = none ∧ a = -2147483648 ∧ b = -1) := by
  unfold sdiv32
  constructor
  · intro hn
    split at hn
    · rename_i hc
      cases hd : h.div_overflow with
      | none => exact ⟨rfl, hc.1, hc.2⟩
      | some v => rw [hd] at hn; cases hn
    · cases hn
  · rintro ⟨hd, ha, hb⟩
    rw [if_pos ⟨ha, hb⟩, hd]
    rfl

theorem srem32_none {M : Type} (h : Host M) (a b : Int) :
    srem32 h a b = none ↔ (h.rem_overflow = none ∧ a = -2147483648 ∧ b = -1) := by
  unfold srem32
  constructor
  · intro hn
    split at hn
    · rename_i hc
      cases hd : h.rem_overflow with
      | none => exact ⟨rfl, hc.1, hc.2⟩
      | some v => rw [hd] at hn; cases hn
    · cases hn
  · rintro ⟨hd, ha, hb⟩
    rw [if_pos ⟨ha, hb⟩, hd]
    rfl

theorem sdiv32_of_no_overflow {M : Type} (h : Host M) (a b : Int)
    (hov : ¬ (a = -2147483648 ∧ b = -1)) : sdiv32 h a b = some (wrap32 (Int.tdiv a b)) := by
  unfold sdiv32; rw [if_neg hov]

theorem srem32_of_no_overflow {M : Type} (h : Host M) (a b : Int)
    (hov : ¬ (a = -2147483648 ∧ b = -1)) : srem32 h a b = some (wrap32 (Int.tmod a b)) := by
  unfold srem32; rw [if_neg hov]

theorem sat_write {M : Type} (P Q : State M → Prop) (F T : Prop) (s0 : State M)
    (rd : Nat) (v : Int) (n : Nat) (hP : P { s0.write rd v with pc := n }) :
    Outcome.Sat P Q F T ((s0.write rd v).retire n) := hP

theorem sat_retire {M : Type} (P Q : State M → Prop) (F T : Prop) (s0 : State M) (n : Nat)
    (hP : P { s0 with pc := n }) : Outcome.Sat P Q F T (s0.retire n) := hP

theorem exec_branch_sat {M : Type} (P Q : State M → Prop) (F T : Prop) (s0 : State M)
    (p f3 : Nat) (a b : Int) (w : Nat) (h0 : ∀ n, P { s0 with pc := n }) :
    Outcome.Sat P Q F T (exec_branch s0 p f3 a b w) := by
  unfold exec_branch
  repeat (first
    | apply sat_ite
    | exact sat_retire P Q F T _ _ (h0 _))

theorem isInt32_bool (c : Prop) [Decidable c] : IsInt32 (if c then 1 else 0) := by
  unfold IsInt32; split <;> omega

theorem isInt32_wrap32 (x : Int) : IsInt32 (wrap32 x) := toS32_isInt32 _

theorem isInt32_neg_one : IsInt32 (-1) := by decide

theorem isInt32_sign_extend (x n : Nat) : IsInt32 (sign_extend x n) := toS32_isInt32 _

theorem isInt32_get_u_imm (w : Nat) : IsInt32 (get_u_imm w) := toS32_isInt32 _

theorem exec_load_sat {M : Type} (P Q : State M → Prop) (F T : Prop) (h : Host M)
    (s0 : State M) (n rd f3 addr : Nat)
    (hw : ∀ v, IsInt32 v → P { s0.write rd v with pc := n }) (h0 : P { s0 with pc := n }) :
    Outcome.Sat P Q F T (exec_load h s0 n rd f3 addr) := by
  unfold exec_load
  repeat (first
    | apply sat_ite
    | exact sat_retire P Q F T _ _ h0
    | (apply sat_write; apply hw
       with_reducible first
         | exact toS32_isInt32 _
         | exact isInt32_sign_extend _ _))

theorem exec_store_sat {M : Type} (P Q : State M → Prop) (F T : Prop) (h : Host M)
    (s0 : State M) (n f3 addr v : Nat)
    (hm : ∀ m, P { ({ s0 with mem := m } : State M) with pc := n }) :
    Outcome.Sat P Q F T (exec_store h s0 n f3 addr v) := by
  unfold exec_store
  repeat (first
    | apply sat_ite
    | exact hm _)

theorem exec_imm_arith_sat {M : Type} (P Q : State M → Prop) (F T : Prop) (h : Host M)
    (s0 : State M) (n rd f3 f7 : Nat) (a : Int) (w : Nat)
    (hw : ∀ v, IsInt32 v → P { s0.write rd v with pc := n }) (h0 : P { s0 with pc := n }) :
    Outcome.Sat P Q F T (exec_imm_arith h s0 n rd f3 f7 a w) := by
  unfold exec_imm_arith
  repeat (first
    | apply sat_ite
    | exact sat_retire P Q F T _ _ h0
    | (apply sat_write; apply hw
       with_reducible first
         | exact toS32_isInt32 _
         | exact isInt32_wrap32 _
         | exact isInt32_bool _))

theorem exec_reg_arith_sat {M : Type} (P Q : State M → Prop) (F T : Prop) (h : Host M)
    (s0 : State M) (n rd f3 f7 : Nat) (a b : Int)
    (hw : ∀ v, IsInt32 v ∨ v = a → P { s0.write rd v with pc := n })
    (h0 : P { s0 with pc := n })
    (hT : f7 = 0x01 →
      ((f3 = 0x4 ∧ h.div_overflow = none) ∨ (f3 = 0x6 ∧ h.rem_overflow = none)) →
      a = -2147483648 → b = -1 → T) :
    Outcome.Sat P Q F T (exec_reg_arith h s0 n rd f3 f7 a b) := by
  unfold exec_reg_arith
  repeat (first
    | (apply sat_dite <;> intro _)
    | exact sat_retire P Q F T _ _ h0
    | (apply sat_write; apply hw
       with_reducible first
         | exact Or.inl (toS32_isInt32 _)
         | exact Or.inl (isInt32_wrap32 _)
         | exact Or.inl (isInt32_bool _)
         | exact Or.inl isInt32_neg_one
         | exact Or.inr rfl)
    | (apply sat_write_or_trap
       · intro x hx
         apply hw
         first
           | exact Or.inl (sdiv32_some h a b x hx)
           | exact Or.inl (srem32_some h a b x hx)
       · intro hn
         first
           | (obtain ⟨e1, e2, e3⟩ := (sdiv32_none h a b).1 hn
              exact hT (by assumption) (Or.inl ⟨by assumption, e1⟩) e2 e3)
           | (obtain ⟨e1, e2, e3⟩ := (srem32_none h a b).1 hn
              exact hT (by assumption) (Or.inr ⟨by assumption, e1⟩) e2 e3)))

theorem not_defined_opcode_fatal {M : Type} (h : Host M) (s : State M) (w : Nat)
    (hn : ¬ defined_opcode (get_opcode w)) : exec h s w = Outcome.fatal := by
  unfold defined_opcode at hn
  simp only [not_or] at hn
  obtain ⟨h1, h2, h3, h4, h5, h6, h7, h8, h9, h10⟩ := hn
  unfold exec
  rw [if_neg h1, if_neg h2, if_neg h3, if_neg h4, if_neg h5, if_neg h6, if_neg h7,
    if_neg h8, if_neg h9, if_neg h10]

/-- Every path of `exec`: what holds of all states a register write, a store
or a plain advance can produce, and of the outcome of the system case, holds of
the outcome of the iteration; the host ends the process only at a signed
division or remainder of `INT32_MIN` by `-1`. -/
theorem exec_sat {M : Type} (P Q : State M → Prop) (F T : Prop) (h : Host M) (s : State M)
    (w : Nat)
    (hw : ∀ rd v n, IsInt32 v ∨ v = s.reg (get_rs1 w) →
      P { s.enter.write rd v with pc := n })
    (hm : ∀ m n, P { ({ s.enter with mem := m } : State M) with pc := n })
    (hsys : get_opcode w = 0x73 →
      Outcome.Sat P Q F T (exec_system s.enter ((s.pc + 4) % 4294967296) w))
    (hF : ¬ defined_opcode (get_opcode w) → F)
    (hT : overflow_trap h s w → T) :
    Outcome.Sat P Q F T (exec h s w) := by
  have h0 : ∀ n, P { s.enter with pc := n } := fun n => hm s.enter.mem n
  have hwi : ∀ rd v n, IsInt32 v → P { s.enter.write rd v with pc := n } :=
    fun rd v n hv => hw rd v n (Or.inl hv)
  by_cases hd : defined_opcode (get_opcode w)
  · unfold exec
    by_cases h1 : get_opcode w = 0x37
    · rw [if_pos h1]; exact sat_write P Q F T _ _ _ _ (hwi _ _ _ (isInt32_get_u_imm _))
    rw [if_neg h1]
    by_cases h2 : get_opcode w = 0x17
    · rw [if_pos h2]; exact sat_write P Q F T _ _ _ _ (hwi _ _ _ (toS32_isInt32 _))
    rw [if_neg h2]
    by_cases h3 : get_opcode w = 0x6F
    · rw [if_pos h3]; exact sat_write P Q F T _ _ _ _ (hwi _ _ _ (toS32_isInt32 _))
    rw [if_neg h3]
    by_cases h4 : get_opcode w = 0x67
    · rw [if_pos h4]; exact sat_write P Q F T _ _ _ _ (hwi _ _ _ (toS32_isInt32 _))
    rw [if_neg h4]
    by_cases h5 : get_opcode w = 0x63
    · rw [if_pos h5]; exact exec_branch_sat P Q F T _ _ _ _ _ _ h0
    rw [if_neg h5]
    by_cases h6 : get_opcode w = 0x03
    · rw [if_pos h6]; exact exec_load_sat P Q F T _ _ _ _ _ _ (fun v hv => hwi _ v _ hv) (h0 _)
    rw [if_neg h6]
    by_cases h7 : get_opcode w = 0x23
    · rw [if_pos h7]; exact exec_store_sat P Q F T _ _ _ _ _ _ (fun m => hm m _)
    rw [if_neg h7]
    by_cases h8 : get_opcode w = 0x13
    · rw [if_pos h8]
      exact exec_imm_arith_sat P Q F T _ _ _ _ _ _ _ _ (fun v hv => hwi _ v _ hv) (h0 _)
    rw [if_neg h8]
    by_cases h9 : get_opcode w = 0x33
    · rw [if_pos h9]
      refine exec_reg_arith_sat P Q F T _ _ _ _ _ _ _ _ (fun v hv => hw _ v _ ?_) (h0 _)
        (fun e7 e3 ea eb => hT ⟨h9, e7, e3, ?_, ?_⟩)
      · rw [← enter_registers]; exact hv
      · rw [← enter_registers]; exact ea
      · rw [← enter_registers]; exact eb
    rw [if_neg h9]
    by_cases h10 : get_opcode w = 0x73
    · rw [if_pos h10]; exact hsys h10
    · exfalso
      unfold defined_opcode at hd
      omega
  · rw [not_defined_opcode_fatal h s w hd]
    exact hF hd

theorem exec_system_cases {M : Type} (s0 : State M) (n w : Nat) :
    (w ≠ 0x73 → exec_system s0 n w = s0.retire n) ∧
    (w = 0x73 → s0.registers 17 = 1 → exec_system s0 n w = State.retire
      { (s0.write 10 (getchar_value s0.stdin)) with stdin := s0.stdin.tail } n) ∧
    (w = 0x73 → s0.registers 17 = 2 → exec_system s0 n w = State.retire
      { s0 with stdout := s0.stdout ++ [toU32 (s0.registers 10) % 256] } n) ∧
    (w = 0x73 → s0.registers 17 = 3 ∨ s0.registers 17 = 93 →
      exec_system s0 n w = Outcome.exited s0) ∧
    (w = 0x73 → s0.registers 17 ≠ 1 → s0.registers 17 ≠ 2 → s0.registers 17 ≠ 3 →
      s0.registers 17 ≠ 93 → exec_system s0 n w = Outcome.fatal) := by
  unfold exec_system
  refine ⟨?_, ?_, ?_, ?_, ?_⟩
  · intro hw; rw [if_neg hw]
  · intro hw h1; rw [if_pos hw, if_pos h1]
  · intro hw h2
    have h1 : s0.registers 17 ≠ 1 := by omega
    rw [if_pos hw, if_neg h1, if_pos h2]
  · intro hw h3
    have h1 : s0.registers 17 ≠ 1 := by omega
    have h2 : s0.registers 17 ≠ 2 := by omega
    rw [if_pos hw, if_neg h1, if_neg h2, if_pos h3]
  · intro hw h1 h2 h3 h93
    have h4 : ¬ (s0.registers 17 = 3 ∨ s0.registers 17 = 93) := by omega
    rw [if_pos hw, if_neg h1, if_neg h2, if_neg h4]

theorem exec_system_sat {M : Type} (P Q : State M → Prop) (F T : Prop) (s0 : State M)
    (n w : Nat)
    (h0 : w ≠ 0x73 → P { s0 with pc := n })
    (hget : w = 0x73 → s0.registers 17 = 1 →
      P { ({ (s0.write 10 (getchar_value s0.stdin)) with stdin := s0.stdin.tail } : State M)
        with pc := n })
    (hput : w = 0x73 → s0.registers 17 = 2 →
      P { ({ s0 with stdout := s0.stdout ++ [toU32 (s0.registers 10) % 256] } : State M)
        with pc := n })
    (hex : w = 0x73 → s0.registers 17 = 3 ∨ s0.registers 17 = 93 → Q s0)
    (hF : w = 0x73 → s0.registers 17 ≠ 1 → s0.registers 17 ≠ 2 → s0.registers 17 ≠ 3 →
      s0.registers 17 ≠ 93 → F) :
    Outcome.Sat P Q F T (exec_system s0 n w) := by
  obtain ⟨c0, c1, c2, c3, c4⟩ := exec_system_cases s0 n w
  by_cases hw : w = 0x73
  · by_cases h1 : s0.registers 17 = 1
    · rw [c1 hw h1]; exact hget hw h1
    by_cases h2 : s0.registers 17 = 2
    · rw [c2 hw h2]; exact hput hw h2
    by_cases h3 : s0.registers 17 = 3 ∨ s0.registers 17 = 93
    · rw [c3 hw h3]; exact hex hw h3
    · have h3a : s0.registers 17 ≠ 3 := fun hc => h3 (Or.inl hc)
      have h3b : s0.registers 17 ≠ 93 := fun hc => h3 (Or.inr hc)
      rw [c4 hw h1 h2 h3a h3b]; exact hF hw h1 h2 h3a h3b
  · rw [c0 hw]; exact h0 hw

theorem enter_a7 {M : Type} (s : State M) : s.enter.registers 17 = s.registers 17 := by
  simp [State.enter, setReg]

theorem get_opcode_ecall : get_opcode 0x73 = 0x73 := by decide

theorem step_counts_one {M : Type} (h : Host M) (s : State M) :
    Outcome.Sat (fun s1 => s1.insns = s.insns + 1) (fun s1 => s1.insns = s.insns + 1) True
      True (step h s) := by
  apply exec_sat
  · intros; rfl
  · intros; rfl
  · intro _
    apply exec_system_sat
    · intros; rfl
    · intros; rfl
    · intros; rfl
    · intros; rfl
    · intros; trivial
  · intros; trivial
  · intros; trivial

theorem step_exited_only_ecall {M : Type} (h : Host M) (s : State M) :
    Outcome.Sat (fun _ => True)
      (fun s1 => fetch h s = 0x73 ∧ (s.registers 17 = 3 ∨ s.registers 17 = 93) ∧
        s1 = s.enter) True True (step h s) := by
  apply exec_sat
  · intros; trivial
  · intros; trivial
  · intro _
    apply exec_system_sat
    · intros; trivial
    · intros; trivial
    · intros; trivial
    · intro hw h3
      rw [enter_a7] at h3
      exact ⟨hw, h3, rfl⟩
    · intros; trivial
  · intros; trivial
  · intros; trivial

theorem step_exited_iff {M : Type} (h : Host M) (s s1 : State M) :
    step h s = Outcome.exited s1 ↔
      (fetch h s = 0x73 ∧ (s.registers 17 = 3 ∨ s.registers 17 = 93) ∧ s1 = s.enter) := by
  constructor
  · intro hs
    have := step_exited_only_ecall h s
    rw [hs] at this
    exact this
  · rintro ⟨hw, h3, rfl⟩
    show exec h s (fetch h s) = Outcome.exited s.enter
    rw [hw, exec_of_system h s _ get_opcode_ecall]
    apply (exec_system_cases _ _ _).2.2.2.1 rfl
    rw [enter_a7]; exact h3

theorem steps_insns {M : Type} (h : Host M) (n : Nat) :
    ∀ s sn : State M, steps h n s = some sn → sn.insns = s.insns + n := by
  induction n with
  | zero =>
    intro s sn hs
    simp only [steps, Option.some.injEq] at hs
    rw [← hs]; rfl
  | succ n ih =>
    intro s sn hs
    unfold steps at hs
    cases hst : step h s with
    | running s1 =>
      rw [hst] at hs
      have h1 := ih s1 sn hs
      have h2 := step_counts_one h s
      rw [hst] at h2
      have h3 : s1.insns = s.insns + 1 := h2
      omega
    | exited s1 => rw [hst] at hs; cases hs
    | fatal => rw [hst] at hs; cases hs
    | trapped => rw [hst] at hs; cases hs

theorem run_of_steps {M : Type} (h : Host M) (n : Nat) :
    ∀ (s sn sf : State M) (fuel : Nat), steps h n s = some sn →
      step h sn = Outcome.exited sf → n < fuel → run h fuel s = some (Outcome.exited sf) := by
  induction n with
  | zero =>
    intro s sn sf fuel hs hx hlt
    simp only [steps, Option.some.injEq] at hs
    subst hs
    obtain ⟨f, rfl⟩ : ∃ f, fuel = f + 1 := ⟨fuel - 1, by omega⟩
    unfold run
    rw [hx]
  | succ n ih =>
    intro s sn sf fuel hs hx hlt
    obtain ⟨f, rfl⟩ : ∃ f, fuel = f + 1 := ⟨fuel - 1, by omega⟩
    unfold steps at hs
    unfold run
    cases hst : step h s with
    | running s1 =>
      rw [hst] at hs
      exact ih s1 sn sf f hs hx (by omega)
    | exited s1 => rw [hst] at hs; cases hs
    | fatal => rw [hst] at hs; cases hs
    | trapped => rw [hst] at hs; cases hs

theorem steps_of_run {M : Type} (h : Host M) (fuel : Nat) :
    ∀ (s sf : State M), run h fuel s = some (Outcome.exited sf) →
      ∃ n sn, n < fuel ∧ steps h n s = some sn ∧ step h sn = Outcome.exited sf := by
  induction fuel with
  | zero =>
    intro s sf hr
    simp [run] at hr
  | succ f ih =>
    intro s sf hr
    unfold run at hr
    cases hst : step h s with
    | running s1 =>
      rw [hst] at hr
      obtain ⟨n, sn, hn, hs, hx⟩ := ih s1 sf hr
      refine ⟨n + 1, sn, by omega, ?_, hx⟩
      unfold steps
      rw [hst]
      exact hs
    | exited s1 =>
      rw [hst] at hr
      simp only [Option.some.injEq, Outcome.exited.injEq] at hr
      subst hr
      exact ⟨0, s, by omega, rfl, hst⟩
    | fatal =>
      rw [hst] at hr
      simp at hr
    | trapped =>
      rw [hst] at hr
      simp at hr

theorem simulate_e1 :
    ∃ sf, simulate flatHost (loadWords 0x1000 [0x00500513, 0x00300893, 0x00000073])
        0x1000 [] 3 = some (Outcome.exited sf) ∧ sf.insns = 3 ∧ sf.registers 10 = 5 :=
  ⟨_, rfl, by decide, by decide⟩

/-- C19: the count of retired instructions is 0 in the initial state and one
more after every step, whether the step continues or returns; a step returns
exactly when the fetched word is 0x00000073 and `a7` is 3 or 93.  Hence, when
the first `n` steps of a run continue and the next one is that exit, `simulate`
(with any bound above `n`) returns with `insns = n + 1`, the ecall included; and
whenever `simulate` returns, it is from such a run.  The program 0x00500513,
0x00300893, 0x00000073 at the start address returns `insns = 3` with
`a0 = 5`. -/
theorem insns_count_and_return {M : Type} (h : Host M) (mem : M) (start_addr : Int)
    (input : List Nat) (s : State M) :
    (init mem start_addr input).insns = 0 ∧
    (∀ s1, step h s = Outcome.running s1 → s1.insns = s.insns + 1) ∧
    (∀ s1, step h s = Outcome.exited s1 → s1.insns = s.insns + 1) ∧
    (∀ s1, step h s = Outcome.exited s1 ↔
      (fetch h s = 0x73 ∧ (s.registers 17 = 3 ∨ s.registers 17 = 93) ∧ s1 = s.enter)) ∧
    (∀ n sn sf, steps h n (init mem start_addr input) = some sn →
      step h sn = Outcome.exited sf → ∀ fuel, n < fuel →
        simulate h mem start_addr input fuel = some (Outcome.exited sf) ∧
          sf.insns = n + 1) ∧
    (∀ fuel sf, simulate h mem start_addr input fuel = some (Outcome.exited sf) →
      ∃ n sn, n < fuel ∧ steps h n (init mem start_addr input) = some sn ∧
        step h sn = Outcome.exited sf ∧ sf.insns = n + 1) ∧
    (∃ sf, simulate flatHost (loadWords 0x1000 [0x00500513, 0x00300893, 0x00000073])
        0x1000 [] 3 = some (Outcome.exited sf) ∧ sf.insns = 3 ∧ sf.registers 10 = 5) := by
  have hcount := step_counts_one h s
  have hexit : ∀ (n : Nat) (sn sf : State M),
      steps h n (init mem start_addr input) = some sn →
      step h sn = Outcome.exited sf → sf.insns = n + 1 := by
    intro n sn sf hs hx
    have h1 := steps_insns h n _ _ hs
    have h2 := step_counts_one h sn
    rw [hx] at h2
    have h3 : sf.insns = sn.insns + 1 := h2
    have h4 : (init mem start_addr input).insns = 0 := rfl
    omega
  refine ⟨rfl, ?_, ?_, fun s1 => step_exited_iff h s s1, ?_, ?_, simulate_e1⟩
  · intro s1 hs; rw [hs] at hcount; exact hcount
  · intro s1 hs; rw [hs] at hcount; exact hcount
  · intro n sn sf hs hx fuel hlt
    exact ⟨run_of_steps h n _ sn sf fuel hs hx hlt, hexit n sn sf hs hx⟩
  · intro fuel sf hr
    obtain ⟨n, sn, hn, hs, hx⟩ := steps_of_run h fuel _ sf hr
    exact ⟨n, sn, hn, hs, hx, hexit n sn sf hs hx⟩

/-- C19 (witness): the program `addi a0,zero,5; addi a7,zero,3; ecall` at
0x1000: two steps continue, the third is the exit, and `simulate` returns
`insns = 3` for every bound above 2. -/
theorem insns_count_and_return_witness :
    ∃ sn sf, steps flatHost 2 (init (loadWords 0x1000 [0x00500513, 0x00300893, 0x00000073])
        0x1000 []) = some sn ∧
      step flatHost sn = Outcome.exited sf ∧
      (∀ fuel, 2 < fuel →
        simulate flatHost (loadWords 0x1000 [0x00500513, 0x00300893, 0x00000073])
          0x1000 [] fuel = some (Outcome.exited sf) ∧ sf.insns = 2 + 1) ∧
      sf.registers 10 = 5 :=
  ⟨_, _, rfl, rfl,
    (insns_count_and_return flatHost (loadWords 0x1000 [0x00500513, 0x00300893, 0x00000073])
      0x1000 [] (init (loadWords 0x1000 [0x00500513, 0x00300893, 0x00000073]) 0x1000 [])
      ).2.2.2.2.1 2 _ _ rfl rfl,
    by decide⟩

/-! ## The register file holds 32-bit values -/

theorem isInt32_zero : IsInt32 0 := by decide

theorem isInt32_reg {M : Type} (s : State M) (hs : RegsInt32 s) (i : Nat) :
    IsInt32 (s.reg i) := by
  unfold State.reg
  split
  · exact isInt32_zero
  · exact hs i

theorem isInt32_getchar (l : List Nat) : IsInt32 (getchar_value l) := by
  unfold getchar_value IsInt32
  cases l with
  | nil => decide
  | cons c t => simp only; omega

theorem regsInt32_enter {M : Type} (s : State M) (hs : RegsInt32 s) : RegsInt32 s.enter := by
  intro i
  show IsInt32 (setReg s.registers 0 0 i)
  unfold setReg
  split
  · exact isInt32_zero
  · exact hs i

theorem regsInt32_write {M : Type} (s0 : State M) (hs : RegsInt32 s0) (rd : Nat) (v : Int)
    (hv : IsInt32 v) : RegsInt32 (s0.write rd v) := by
  intro i
  show IsInt32 (setReg s0.registers rd v i)
  unfold setReg
  split
  · exact hv
  · exact hs i

/-- The initial register file is all zero, and every step that continues or
returns leaves a register file of signed 32-bit values when it starts from
one: the range assumed of register values is an invariant of every run. -/
theorem regsInt32_invariant {M : Type} (h : Host M) (mem : M) (start_addr : Int)
    (input : List Nat) (s : State M) (hs : RegsInt32 s) :
    RegsInt32 (init mem start_addr input) ∧
    Outcome.Sat RegsInt32 RegsInt32 True True (step h s) := by
  refine ⟨fun _ => isInt32_zero, ?_⟩
  have he := regsInt32_enter s hs
  apply exec_sat
  · intro rd v n hv
    apply regsInt32_write _ he
    rcases hv with hv | rfl
    · exact hv
    · exact isInt32_reg s hs _
  · intro m n; exact he
  · intro _
    apply exec_system_sat
    · intro _; exact he
    · intro _ _; exact regsInt32_write _ he 10 _ (isInt32_getchar _)
    · intro _ _; exact he
    · intro _ _; exact he
    · intros; trivial
  · intros; trivial
  · intros; trivial

/-! ## The disassembler: label lines and the system words (C21, C24) -/

theorem snprintf_fits (result text : List Char) (buf_size : Nat)
    (h : text.length < buf_size) : snprintf result buf_size text = text := by
  unfold snprintf
  have h0 : buf_size ≠ 0 := by omega
  rw [if_neg h0]
  exact List.take_of_length_le (by omega)

theorem disassemble_no_symbol {S : Type} (vts : S → Nat → Option (List Char))
    (addr w : Nat) (result : List Char) (buf_size : Nat) (symbols : Option S)
    (hsym : symbol_at vts symbols addr = none) :
    disassemble vts addr w result buf_size symbols = dis_opcode addr w result buf_size := by
  unfold disassemble; rw [hsym]

theorem disassemble_symbol {S : Type} (vts : S → Nat → Option (List Char))
    (addr w : Nat) (result : List Char) (buf_size : Nat) (symbols : Option S)
    (name : List Char) (hsym : symbol_at vts symbols addr = some name) :
    disassemble vts addr w result buf_size symbols
      = snprintf result buf_size (name ++ ":".toList) := by
  unfold disassemble; rw [hsym]

theorem dis_opcode_system (addr w : Nat) (result : List Char) (buf_size : Nat)
    (hop : get_opcode w = 0x73) :
    dis_opcode addr w result buf_size
      = if w = 0x73 then snprintf result buf_size "ecall".toList
        else snprintf result buf_size "unknown system".toList := by
  simp [dis_opcode, hop]

/-- C21: a word of opcode 0x73 other than 0x00000073 is a silent no-op of the
engine, whatever `a7` holds: the step is not fatal and does not return, it goes
on at PC + 4 with every register value, the memory, the standard input and the
standard output unchanged (no system call is made).  At an address without a
symbol `disassemble` formats the text "unknown system" for it, which is what
the buffer holds when it has room for the 14 characters and the terminator;
for the word 0x00000073 the text is "ecall". -/
theorem unknown_system_word {M S : Type} (h : Host M) (s : State M) (w : Nat)
    (vts : S → Nat → Option (List Char)) (symbols : Option S) (addr : Nat)
    (hf : fetch h s = w) (hop : get_opcode w = 0x73) (hne : w ≠ 0x73)
    (hsym : symbol_at vts symbols addr = none) :
    (∃ s1, step h s = Outcome.running s1 ∧ s1.pc = (s.pc + 4) % 4294967296 ∧
      (∀ i, s1.reg i = s.reg i) ∧ (∀ i, i ≠ 0 → s1.registers i = s.registers i) ∧
      s1.mem = s.mem ∧ s1.stdin = s.stdin ∧ s1.stdout = s.stdout) ∧
    (∀ result buf_size, disassemble vts addr w result buf_size symbols
      = snprintf result buf_size "unknown system".toList) ∧
    (∀ result buf_size, 15 ≤ buf_size →
      disassemble vts addr w result buf_size symbols = "unknown system".toList) ∧
    (∀ result buf_size, disassemble vts addr 0x73 result buf_size symbols
      = snprintf result buf_size "ecall".toList) ∧
    (∀ result buf_size, 6 ≤ buf_size →
      disassemble vts addr 0x73 result buf_size symbols = "ecall".toList) := by
  have e1 : ∀ result buf_size, disassemble vts addr w result buf_size symbols
      = snprintf result buf_size "unknown system".toList := by
    intro result buf_size
    rw [disassemble_no_symbol vts addr w result buf_size symbols hsym,
      dis_opcode_system addr w result buf_size hop, if_neg hne]
  have e2 : ∀ result buf_size, disassemble vts addr 0x73 result buf_size symbols
      = snprintf result buf_size "ecall".toList := by
    intro result buf_size
    rw [disassemble_no_symbol vts addr 0x73 result buf_size symbols hsym,
      dis_opcode_system addr 0x73 result buf_size (by decide), if_pos rfl]
  refine ⟨?_, e1, ?_, e2, ?_⟩
  · have e : exec h s w = s.enter.retire ((s.pc + 4) % 4294967296) := by
      rw [exec_of_system h s w hop]
      unfold exec_system
      rw [if_neg hne]
    rw [step_of_fetch h s w hf, e]
    obtain ⟨s1, h1, h2, h3, h4, h5⟩ := retire_enter_frame s ((s.pc + 4) % 4294967296)
    refine ⟨s1, h1, h2, h3, h4, h5, ?_, ?_⟩
    · have h6 : s1 = { s.enter with pc := (s.pc + 4) % 4294967296 } := by
        unfold State.retire at h1
        exact (Outcome.running.inj h1).symm
      rw [h6]; rfl
    · have h6 : s1 = { s.enter with pc := (s.pc + 4) % 4294967296 } := by
        unfold State.retire at h1
        exact (Outcome.running.inj h1).symm
      rw [h6]; rfl
  · intro result buf_size hb
    rw [e1]
    exact snprintf_fits _ _ _ (by
      have : "unknown system".toList.length = 14 := by decide
      omega)
  · intro result buf_size hb
    rw [e2]
    exact snprintf_fits _ _ _ (by
      have : "ecall".toList.length = 5 := by decide
      omega)

/-- C21 (witness): the word 0x00100073 with `a7 = 3`, the number of `exit`: the
step goes on at 0x1004 and does not return; the disassembler prints
"unknown system" for it and "ecall" for 0x00000073. -/
theorem unknown_system_word_witness :
    fetch flatHost (progState [0x00100073] (setReg (fun _ => 0) 17 3)) = 0x00100073 ∧
    get_opcode 0x00100073 = 0x73 ∧
    (∃ s1, step flatHost (progState [0x00100073] (setReg (fun _ => 0) 17 3))
        = Outcome.running s1 ∧ s1.pc = 0x1004 ∧ s1.registers 17 = 3) ∧
    disassemble lookup_sym 0x1000 0x00100073 [] 100 none = "unknown system".toList ∧
    disassemble lookup_sym 0x1000 0x73 [] 100 none = "ecall".toList := by
  have t := unknown_system_word flatHost (progState [0x00100073] (setReg (fun _ => 0) 17 3))
    0x00100073 lookup_sym none 0x1000 (by decide) (by decide) (by decide) rfl
  obtain ⟨⟨s1, h1, h2, _, h4, _⟩, _, t3, _, t5⟩ := t
  refine ⟨by decide, by decide, ⟨s1, h1, h2, ?_⟩, t3 [] 100 (by decide), t5 [] 100 (by decide)⟩
  rw [h4 17 (by decide)]; rfl

/-- C24: when the symbol table maps the address to a name and the buffer has
room for the name, the colon and the terminator, `disassemble` leaves exactly
the name followed by ":" in the buffer, whatever the instruction word is, also
a word with an undefined opcode.  For every buffer the call is the `snprintf`
of that text. -/
theorem label_line {S : Type} (vts : S → Nat → Option (List Char)) (t : S) (addr : Nat)
    (name result : List Char) (buf_size : Nat)
    (hsym : vts t addr = some name) (hbuf : name.length + 2 ≤ buf_size) :
    (∀ w, disassemble vts addr w result buf_size (some t) = name ++ ":".toList) ∧
    (∀ w n r, disassemble vts addr w r n (some t) = snprintf r n (name ++ ":".toList)) := by
  have e : ∀ w n r, disassemble vts addr w r n (some t)
      = snprintf r n (name ++ ":".toList) :=
    fun w n r => disassemble_symbol vts addr w r n (some t) name hsym
  refine ⟨fun w => ?_, e⟩
  rw [e]
  apply snprintf_fits
  have : (name ++ ":".toList).length = name.length + 1 := by
    rw [List.length_append]; rfl
  omega

/-- C24 (witness): with 0x1000 mapped to "_start" the output is "_start:" for
the word 0x00500513 as for the word 0x0000007F, whose opcode is undefined. -/
theorem label_line_witness :
    lookup_sym (fun a => if a = 0x1000 then some "_start".toList else none) 0x1000
      = some "_start".toList ∧
    "_start".toList.length + 2 ≤ 100 ∧
    disassemble lookup_sym 0x1000 0x00500513 [] 100
      (some (fun a => if a = 0x1000 then some "_start".toList else none)) = "_start:".toList ∧
    disassemble lookup_sym 0x1000 0x0000007F [] 100
      (some (fun a => if a = 0x1000 then some "_start".toList else none)) = "_start:".toList ∧
    ¬ defined_opcode (get_opcode 0x0000007F) := by
  have t := label_line lookup_sym (fun a => if a = 0x1000 then some "_start".toList else none)
    0x1000 "_start".toList [] 100 (by decide) (by decide)
  exact ⟨by decide, by decide, t.1 0x00500513, t.1 0x0000007F, by decide⟩

/-! ## Division and remainder with a non-zero divisor (C25) -/

theorem natAbs_tmod_eq (a b : Int) : (Int.tmod a b).natAbs = a.natAbs % b.natAbs := by
  cases a <;> cases b <;> simp [Int.tmod] <;> norm_cast

theorem tmod_nonpos_of_nonpos (a b : Int) (ha : a ≤ 0) : Int.tmod a b ≤ 0 := by
  cases a with
  | ofNat n =>
    have : n = 0 := by
      have h : (n : Int) ≤ 0 := ha
      omega
    subst this; simp
  | negSucc n =>
    cases b <;> simp [Int.tmod] <;> norm_cast <;> exact Nat.zero_le _

theorem tdiv_in_range (a b : Int) (ha : IsInt32 a) (hb : IsInt32 b) (hnz : b ≠ 0)
    (hov : ¬ (a = -2147483648 ∧ b = -1)) : IsInt32 (Int.tdiv a b) := by
  unfold IsInt32 at *
  have h1 := Int.natAbs_tdiv a b
  have h3 : a.natAbs ≤ 2147483648 := by omega
  by_cases hb1 : b = -1
  · subst hb1
    have : Int.tdiv a (-1) = -a := by
      rw [show (-1 : Int) = -(1 : Int) from rfl, Int.tdiv_neg, Int.tdiv_one]
    rw [this]
    have : a ≠ -2147483648 := fun h => hov ⟨h, rfl⟩
    omega
  · by_cases hb2 : b = 1
    · subst hb2; rw [Int.tdiv_one]; exact ha
    · have h4 : 2 ≤ b.natAbs := by omega
      have h5 : a.natAbs / b.natAbs ≤ a.natAbs / 2 :=
        Nat.div_le_div_left h4 (by decide)
      have h7 : a.natAbs / 2 ≤ 1073741824 := by omega
      have h6 : (Int.tdiv a b).natAbs ≤ 1073741824 := by
        rw [h1]; exact le_trans h5 h7
      clear h1 h5
      omega

theorem tmod_in_range (a b : Int) (hb : IsInt32 b) (hnz : b ≠ 0) :
    IsInt32 (Int.tmod a b) := by
  unfold IsInt32 at *
  have h1 := natAbs_tmod_eq a b
  have h2 : a.natAbs % b.natAbs < b.natAbs := Nat.mod_lt _ (by omega)
  have h3 : (Int.tmod a b).natAbs < 2147483648 := by omega
  by_cases h0 : 0 ≤ a
  · have := Int.tmod_nonneg b h0
    omega
  · have := tmod_nonpos_of_nonpos a b (by omega)
    omega

/-- The quotient truncated toward zero and its remainder: the remainder is
smaller than the divisor in absolute value and is 0 or has the sign of the
dividend. -/
theorem trunc_div_rem (a b : Int) (hnz : b ≠ 0) :
    a = Int.tdiv a b * b + Int.tmod a b ∧ (Int.tmod a b).natAbs < b.natAbs ∧
    (Int.tmod a b = 0 ∨ (0 < Int.tmod a b ∧ 0 < a) ∨ (Int.tmod a b < 0 ∧ a < 0)) := by
  refine ⟨?_, ?_, ?_⟩
  · have := Int.tdiv_add_tmod a b
    rw [Int.mul_comm] at this
    exact this.symm
  · rw [natAbs_tmod_eq]; exact Nat.mod_lt _ (by omega)
  · by_cases h0 : 0 ≤ a
    · have h1 := Int.tmod_nonneg b h0
      by_cases h2 : Int.tmod a b = 0
      · exact Or.inl h2
      · refine Or.inr (Or.inl ⟨by omega, ?_⟩)
        by_cases h3 : a = 0
        · subst h3; simp at h2
        · omega
    · have h1 := tmod_nonpos_of_nonpos a b (by omega)
      by_cases h2 : Int.tmod a b = 0
      · exact Or.inl h2
      · exact Or.inr (Or.inr ⟨by omega, by omega⟩)

theorem toU32_ne_zero (b : Int) (hb : IsInt32 b) (hnz : b ≠ 0) : toU32 b ≠ 0 := by
  unfold IsInt32 at hb
  unfold toU32
  omega

theorem udiv_lt (x y : Nat) (hx : x < 4294967296) : x / y < 4294967296 :=
  lt_of_le_of_lt (Nat.div_le_self _ _) hx

theorem umod_lt (x y : Nat) (hx : x < 4294967296) : x % y < 4294967296 :=
  lt_of_le_of_lt (Nat.mod_le _ _) hx

/-- C25: with a non-zero value `b` in `rs2` and a value `a` in `rs1`, both in the
signed 32-bit range and not the pair `a = -2^31`, `b = -1`, and with `rd` not 0:
DIV (opcode 0x33, funct7 1, funct3 4) leaves in `rd` the quotient `q` of `a` by
`b` truncated toward zero, and REM (funct3 6) leaves the `r` with
`a = q * b + r`, `|r| < |b|` and `r` zero or of the sign of `a`; DIVU
(funct3 5) and REMU (funct3 7) leave the quotient, rounded down, and the
remainder of the two bit patterns read as unsigned 32-bit numbers.  Each step
continues at PC + 4.  So -123 / 456 = 0 and -123 rem 456 = -123. -/
theorem div_rem_step {M : Type} (h : Host M) (s : State M) (w : Nat)
    (hf : fetch h s = w) (hop : get_opcode w = 0x33) (hf7 : get_funct7 w = 1)
    (_hrd : get_rd w ≠ 0)
    (ha : IsInt32 (s.reg (get_rs1 w))) (hb : IsInt32 (s.reg (get_rs2 w)))
    (hnz : s.reg (get_rs2 w) ≠ 0)
    (hov : ¬ (s.reg (get_rs1 w) = -2147483648 ∧ s.reg (get_rs2 w) = -1)) :
    (get_funct3 w = 4 → ∃ s1 r, step h s = Outcome.running s1 ∧
      s1.pc = (s.pc + 4) % 4294967296 ∧
      s1.registers (get_rd w) = Int.tdiv (s.reg (get_rs1 w)) (s.reg (get_rs2 w)) ∧
      s.reg (get_rs1 w) = s1.registers (get_rd w) * s.reg (get_rs2 w) + r ∧
      r.natAbs < (s.reg (get_rs2 w)).natAbs ∧
      (r = 0 ∨ (0 < r ∧ 0 < s.reg (get_rs1 w)) ∨ (r < 0 ∧ s.reg (get_rs1 w) < 0))) ∧
    (get_funct3 w = 6 → ∃ s1, step h s = Outcome.running s1 ∧
      s1.pc = (s.pc + 4) % 4294967296 ∧
      s.reg (get_rs1 w) = Int.tdiv (s.reg (get_rs1 w)) (s.reg (get_rs2 w)) * s.reg (get_rs2 w)
        + s1.registers (get_rd w) ∧
      (s1.registers (get_rd w)).natAbs < (s.reg (get_rs2 w)).natAbs ∧
      (s1.registers (get_rd w) = 0 ∨
        (0 < s1.registers (get_rd w) ∧ 0 < s.reg (get_rs1 w)) ∨
        (s1.registers (get_rd w) < 0 ∧ s.reg (get_rs1 w) < 0))) ∧
    (get_funct3 w = 5 → ∃ s1, step h s = Outcome.running s1 ∧
      s1.pc = (s.pc + 4) % 4294967296 ∧ toU32 (s.reg (get_rs2 w)) ≠ 0 ∧
      toU32 (s1.registers (get_rd w))
        = toU32 (s.reg (get_rs1 w)) / toU32 (s.reg (get_rs2 w))) ∧
    (get_funct3 w = 7 → ∃ s1, step h s = Outcome.running s1 ∧
      s1.pc = (s.pc + 4) % 4294967296 ∧ toU32 (s.reg (get_rs2 w)) ≠ 0 ∧
      toU32 (s1.registers (get_rd w))
        = toU32 (s.reg (get_rs1 w)) % toU32 (s.reg (get_rs2 w))) ∧
    (Int.tdiv (-123) 456 = 0 ∧ Int.tmod (-123) 456 = -123) := by
  have he := exec_of_reg_arith h s w hop
  have hu := toU32_ne_zero _ hb hnz
  refine ⟨?_, ?_, ?_, ?_, by decide, by decide⟩
  · intro h3
    have e : exec h s w = (s.enter.write (get_rd w)
        (Int.tdiv (s.reg (get_rs1 w)) (s.reg (get_rs2 w)))).retire
          ((s.pc + 4) % 4294967296) := by
      rw [he]
      simp only [exec_reg_arith, h3, hf7]
      rw [sdiv32_of_no_overflow h _ _ hov,
        wrap32_of_isInt32 _ (tdiv_in_range _ _ ha hb hnz hov)]
      simp [hnz, State.write_or_trap]
    obtain ⟨s1, h1, h2, hp, _⟩ := step_write_effect h s w _ _ hf e
    obtain ⟨t1, t2, t3⟩ := trunc_div_rem (s.reg (get_rs1 w)) (s.reg (get_rs2 w)) hnz
    refine ⟨s1, Int.tmod (s.reg (get_rs1 w)) (s.reg (get_rs2 w)), h1, hp, h2, ?_, t2, t3⟩
    rw [h2]; exact t1
  · intro h3
    have e : exec h s w = (s.enter.write (get_rd w)
        (Int.tmod (s.reg (get_rs1 w)) (s.reg (get_rs2 w)))).retire
          ((s.pc + 4) % 4294967296) := by
      rw [he]
      simp only [exec_reg_arith, h3, hf7]
      rw [srem32_of_no_overflow h _ _ hov,
        wrap32_of_isInt32 _ (tmod_in_range _ _ hb hnz)]
      simp [hnz, State.write_or_trap]
    obtain ⟨s1, h1, h2, hp, _⟩ := step_write_effect h s w _ _ hf e
    obtain ⟨t1, t2, t3⟩ := trunc_div_rem (s.reg (get_rs1 w)) (s.reg (get_rs2 w)) hnz
    refine ⟨s1, h1, hp, ?_, ?_, ?_⟩
    · rw [h2]; exact t1
    · rw [h2]; exact t2
    · rw [h2]; exact t3
  · intro h3
    have e : exec h s w = (s.enter.write (get_rd w)
        (toS32 (toU32 (s.reg (get_rs1 w)) / toU32 (s.reg (get_rs2 w))))).retire
          ((s.pc + 4) % 4294967296) := by
      rw [he]
      simp [exec_reg_arith, h3, hf7, hnz]
    obtain ⟨s1, h1, h2, hp, _⟩ := step_write_effect h s w _ _ hf e
    refine ⟨s1, h1, hp, hu, ?_⟩
    rw [h2, toU32_toS32]
    exact Nat.mod_eq_of_lt (udiv_lt _ _ (toU32_lt _))
  · intro h3
    have e : exec h s w = (s.enter.write (get_rd w)
        (toS32 (toU32 (s.reg (get_rs1 w)) % toU32 (s.reg (get_rs2 w))))).retire
          ((s.pc + 4) % 4294967296) := by
      rw [he]
      simp [exec_reg_arith, h3, hf7, hnz]
    obtain ⟨s1, h1, h2, hp, _⟩ := step_write_effect h s w _ _ hf e
    refine ⟨s1, h1, hp, hu, ?_⟩
    rw [h2, toU32_toS32]
    exact Nat.mod_eq_of_lt (umod_lt _ _ (toU32_lt _))

/-- C25 (witness): with `a0 = -123` and `a1 = 456`, `div a2,a0,a1` (0x02B54633)
leaves 0 in `a2` and `rem a3,a0,a1` (0x02B566B3) leaves -123 in `a3`;
`divu a2,a0,a1` (0x02B55633) leaves 0xFFFFFF85 / 456 = 9418787. -/
theorem div_rem_step_witness :
    (fetch flatHost (progState [0x02B54633] (setReg (setReg (fun _ => 0) 10 (-123)) 11 456))
        = 0x02B54633 ∧
      get_opcode 0x02B54633 = 0x33 ∧ get_funct7 0x02B54633 = 1 ∧ get_funct3 0x02B54633 = 4 ∧
      ∃ s1, step flatHost (progState [0x02B54633]
          (setReg (setReg (fun _ => 0) 10 (-123)) 11 456)) = Outcome.running s1 ∧
        s1.registers 12 = 0) ∧
    (get_funct3 0x02B566B3 = 6 ∧
      ∃ s1, step flatHost (progState [0x02B566B3]
          (setReg (setReg (fun _ => 0) 10 (-123)) 11 456)) = Outcome.running s1 ∧
        s1.registers 13 = -123) ∧
    (get_funct3 0x02B55633 = 5 ∧
      ∃ s1, step flatHost (progState [0x02B55633]
          (setReg (setReg (fun _ => 0) 10 (-123)) 11 456)) = Outcome.running s1 ∧
        toU32 (s1.registers 12) = 9418787) := by
  obtain ⟨s1, _, h1, _, h3, _⟩ :=
    (div_rem_step flatHost (progState [0x02B54633]
      (setReg (setReg (fun _ => 0) 10 (-123)) 11 456)) 0x02B54633
      (by decide) (by decide) (by decide) (by decide) (by decide) (by decide) (by decide)
      (by decide)).1 (by decide)
  obtain ⟨t1, k1, _, k3, k4, _⟩ :=
    (div_rem_step flatHost (progState [0x02B566B3]
      (setReg (setReg (fun _ => 0) 10 (-123)) 11 456)) 0x02B566B3
      (by decide) (by decide) (by decide) (by decide) (by decide) (by decide) (by decide)
      (by decide)).2.1 (by decide)
  obtain ⟨u1, m1, _, _, m4⟩ :=
    (div_rem_step flatHost (progState [0x02B55633]
      (setReg (setReg (fun _ => 0) 10 (-123)) 11 456)) 0x02B55633
      (by decide) (by decide) (by decide) (by decide) (by decide) (by decide) (by decide)
      (by decide)).2.2.1 (by decide)
  refine ⟨⟨by decide, by decide, by decide, by decide, s1, h1, ?_⟩, ⟨by decide, t1, k1, ?_⟩,
    ⟨by decide, u1, m1, ?_⟩⟩
  · rw [show get_rd 0x02B54633 = 12 by decide] at h3
    rw [h3]; decide
  · rw [show get_rd 0x02B566B3 = 13 by decide] at k3
    have e1 : (progState [0x02B566B3] (setReg (setReg (fun _ => 0) 10 (-123)) 11 456)).reg
        (get_rs1 0x02B566B3) = -123 := by decide
    have e2 : (progState [0x02B566B3] (setReg (setReg (fun _ => 0) 10 (-123)) 11 456)).reg
        (get_rs2 0x02B566B3) = 456 := by decide
    rw [e1, e2] at k3
    have e3 : Int.tdiv (-123) 456 = 0 := by decide
    rw [e3] at k3
    omega
  · rw [show get_rd 0x02B55633 = 12 by decide] at m4
    rw [m4]; decide

/-! ## Register 0 as an operand (C26) -/

theorem enter_forget_x0 {M : Type} (s : State M) (v : Int) :
    State.enter { s with registers := setReg s.registers 0 v } = s.enter := by
  have e : setReg (setReg s.registers 0 v) 0 0 = setReg s.registers 0 0 := by
    funext j
    by_cases hj : j = 0 <;> simp [setReg, hj]
  unfold State.enter
  simp only [e]

theorem exec_forget_x0 {M : Type} (h : Host M) (s : State M) (v : Int) (w : Nat) :
    exec h { s with registers := setReg s.registers 0 v } w = exec h s w := by
  unfold exec
  rw [enter_forget_x0]

/-- C26: every iteration resets index 0 of the register file (`zero = 0`,
line 116) before the `switch` reads any operand.  The state in which the
instruction is executed holds 0 at index 0, so an `rs1` or `rs2` field of 0
yields the operand 0, and the outcome of the step is the same whatever value
`v` index 0 held when the step began: a value left there by an earlier
instruction with `rd = 0` has no effect.  ADDI with `rs1 = 0` therefore writes
its immediate.  Example: after `lui zero,0x12345`, which leaves 0x12345000 at
index 0, the instruction `addi a0,zero,0` sets `a0`, which held 7, to 0. -/
theorem x0_operand_is_zero {M : Type} (h : Host M) (s : State M) (v : Int) :
    s.enter.registers 0 = 0 ∧
    (State.enter { s with registers := setReg s.registers 0 v }).registers 0 = 0 ∧
    (∀ w, get_rs1 w = 0 →
      (State.enter { s with registers := setReg s.registers 0 v }).registers (get_rs1 w) = 0) ∧
    (∀ w, get_rs2 w = 0 →
      (State.enter { s with registers := setReg s.registers 0 v }).registers (get_rs2 w) = 0) ∧
    (∀ w, exec h { s with registers := setReg s.registers 0 v } w = exec h s w) ∧
    step h { s with registers := setReg s.registers 0 v } = step h s ∧
    (∀ w, get_opcode w = 0x13 → get_funct3 w = 0 → get_rs1 w = 0 →
      exec h { s with registers := setReg s.registers 0 v } w
        = (s.enter.write (get_rd w) (get_i_imm w)).retire ((s.pc + 4) % 4294967296)) ∧
    (∃ s1 s2,
      step flatHost (progState [0x12345037, 0x00000513] (setReg (fun _ => 0) 10 7))
        = Outcome.running s1 ∧
      s1.registers 0 = 0x12345000 ∧ s1.registers 10 = 7 ∧
      fetch flatHost s1 = 0x00000513 ∧ get_rs1 0x00000513 = 0 ∧ get_rd 0x00000513 = 10 ∧
      step flatHost s1 = Outcome.running s2 ∧ s2.registers 10 = 0) := by
  refine ⟨enter_x0 s, enter_x0 _, ?_, ?_, exec_forget_x0 h s v, ?_, ?_, ?_⟩
  · intro w hw; rw [hw]; exact enter_x0 _
  · intro w hw; rw [hw]; exact enter_x0 _
  · show exec h _ (fetch h s) = exec h s (fetch h s)
    exact exec_forget_x0 h s v _
  · intro w hop h3 h1
    rw [exec_forget_x0, exec_of_imm_arith h s w hop]
    simp only [exec_imm_arith, h3, h1]
    have e : s.reg 0 = 0 := by simp [State.reg]
    have e2 : wrap32 (get_i_imm w) = get_i_imm w :=
      wrap32_of_isInt32 _ (isInt32_sign_extend _ _)
    rw [e, Int.zero_add, e2]
    simp
  · exact ⟨_, _, rfl, by decide, by decide, by decide, by decide, by decide, rfl, by decide⟩

/-! ## Every path of the disassembler -/

theorem dis_branch_class (result : List Char) (buf_size addr rs1 rs2 f3 w : Nat) :
    (∃ text, IsLine text ∧ dis_branch result buf_size addr rs1 rs2 f3 w
        = snprintf result buf_size text) ∨
    ((f3 = 2 ∨ f3 = 3 ∨ 8 ≤ f3) ∧ dis_branch result buf_size addr rs1 rs2 f3 w
        = snprintf result buf_size "unknown branch".toList) := by
  unfold dis_branch
  split_ifs <;>
    first
    | exact Or.inl ⟨_, ⟨_, _, by decide, rfl⟩, rfl⟩
    | exact Or.inr ⟨by omega, rfl⟩

theorem dis_load_class (result : List Char) (buf_size rd rs1 f3 w : Nat) :
    (∃ text, IsLine text ∧ dis_load result buf_size rd rs1 f3 w
        = snprintf result buf_size text) ∨
    ((f3 = 3 ∨ f3 = 6 ∨ f3 = 7 ∨ 8 ≤ f3) ∧ dis_load result buf_size rd rs1 f3 w
        = snprintf result buf_size "unknown load".toList) := by
  unfold dis_load
  split_ifs <;>
    first
    | exact Or.inl ⟨_, ⟨_, _, by decide, rfl⟩, rfl⟩
    | exact Or.inr ⟨by omega, rfl⟩

theorem dis_store_class (result : List Char) (buf_size rs1 rs2 f3 w : Nat) :
    (∃ text, IsLine text ∧ dis_store result buf_size rs1 rs2 f3 w
        = snprintf result buf_size text) ∨
    (3 ≤ f3 ∧ dis_store result buf_size rs1 rs2 f3 w
        = snprintf result buf_size "unknown store".toList) := by
  unfold dis_store
  split_ifs <;>
    first
    | exact Or.inl ⟨_, ⟨_, _, by decide, rfl⟩, rfl⟩
    | exact Or.inr ⟨by omega, rfl⟩

theorem dis_imm_arith_class (result : List Char) (buf_size rd rs1 rs2 f3 f7 w : Nat)
    (h3 : f3 < 8) :
    ∃ text, IsLine text ∧ dis_imm_arith result buf_size rd rs1 rs2 f3 f7 w
        = snprintf result buf_size text := by
  have hc : f3 = 0 ∨ f3 = 1 ∨ f3 = 2 ∨ f3 = 3 ∨ f3 = 4 ∨ f3 = 5 ∨ f3 = 6 ∨ f3 = 7 := by omega
  rcases hc with rfl | rfl | rfl | rfl | rfl | rfl | rfl | rfl <;>
    simp only [dis_imm_arith, reduceIte, Nat.reduceEqDiff, OfNat.ofNat_ne_zero,
      OfNat.zero_ne_ofNat, one_ne_zero, zero_ne_one] <;>
    (try split_ifs) <;>
    exact ⟨_, ⟨_, _, by decide, rfl⟩, rfl⟩

theorem dis_reg_arith_class (result : List Char) (buf_size rd rs1 rs2 f3 f7 : Nat)
    (h3 : f3 < 8) :
    ∃ text, IsLine text ∧ dis_reg_arith result buf_size rd rs1 rs2 f3 f7
        = snprintf result buf_size text := by
  have hc : f3 = 0 ∨ f3 = 1 ∨ f3 = 2 ∨ f3 = 3 ∨ f3 = 4 ∨ f3 = 5 ∨ f3 = 6 ∨ f3 = 7 := by omega
  rcases hc with rfl | rfl | rfl | rfl | rfl | rfl | rfl | rfl <;>
    simp only [dis_reg_arith, reduceIte, Nat.reduceEqDiff, OfNat.ofNat_ne_zero,
      OfNat.zero_ne_ofNat, one_ne_zero, zero_ne_one] <;>
    (try split_ifs) <;>
    exact ⟨_, ⟨_, _, by decide, rfl⟩, rfl⟩

theorem dis_opcode_undefined (addr w : Nat) (result : List Char) (buf_size : Nat)
    (hn : ¬ defined_opcode (get_opcode w)) :
    dis_opcode addr w result buf_size
      = snprintf result buf_size ("unknown instruction 0x".toList ++ fmt_08x w) := by
  unfold defined_opcode at hn
  simp only [not_or] at hn
  obtain ⟨h1, h2, h3, h4, h5, h6, h7, h8, h9, h10⟩ := hn
  unfold dis_opcode
  rw [if_neg h1, if_neg h2, if_neg h3, if_neg h4, if_neg h5, if_neg h6, if_neg h7,
    if_neg h8, if_neg h9, if_neg h10]

theorem dis_opcode_branch (addr w : Nat) (result : List Char) (buf_size : Nat)
    (hop : get_opcode w = 0x63) :
    dis_opcode addr w result buf_size
      = dis_branch result buf_size addr (get_rs1 w) (get_rs2 w) (get_funct3 w) w := by
  simp [dis_opcode, hop]

theorem dis_opcode_load (addr w : Nat) (result : List Char) (buf_size : Nat)
    (hop : get_opcode w = 0x03) :
    dis_opcode addr w result buf_size
      = dis_load result buf_size (get_rd w) (get_rs1 w) (get_funct3 w) w := by
  simp [dis_opcode, hop]

theorem dis_opcode_store (addr w : Nat) (result : List Char) (buf_size : Nat)
    (hop : get_opcode w = 0x23) :
    dis_opcode addr w result buf_size
      = dis_store result buf_size (get_rs1 w) (get_rs2 w) (get_funct3 w) w := by
  simp [dis_opcode, hop]

theorem dis_opcode_imm_arith (addr w : Nat) (result : List Char) (buf_size : Nat)
    (hop : get_opcode w = 0x13) :
    dis_opcode addr w result buf_size
      = dis_imm_arith result buf_size (get_rd w) (get_rs1 w) (get_rs2 w) (get_funct3 w)
          (get_funct7 w) w := by
  simp [dis_opcode, hop]

theorem dis_opcode_reg_arith (addr w : Nat) (result : List Char) (buf_size : Nat)
    (hop : get_opcode w = 0x33) :
    dis_opcode addr w result buf_size
      = dis_reg_arith result buf_size (get_rd w) (get_rs1 w) (get_rs2 w) (get_funct3 w)
          (get_funct7 w) := by
  simp [dis_opcode, hop]

theorem dis_opcode_lui (addr w : Nat) (result : List Char) (buf_size : Nat)
    (hop : get_opcode w = 0x37) :
    dis_opcode addr w result buf_size
      = snprintf result buf_size ("lui      ".toList ++ reg_name (get_rd w)
          ++ ",0x".toList ++ fmt_x (toU32 (Dis.get_u_imm w / 4096))) := by
  simp [dis_opcode, hop]

theorem dis_opcode_auipc (addr w : Nat) (result : List Char) (buf_size : Nat)
    (hop : get_opcode w = 0x17) :
    dis_opcode addr w result buf_size
      = snprintf result buf_size ("auipc    ".toList ++ reg_name (get_rd w)
          ++ ",0x".toList ++ fmt_x (toU32 (Dis.get_u_imm w / 4096))) := by
  simp [dis_opcode, hop]

theorem dis_opcode_jal (addr w : Nat) (result : List Char) (buf_size : Nat)
    (hop : get_opcode w = 0x6F) :
    dis_opcode addr w result buf_size
      = snprintf result buf_size ("jal      ".toList ++ reg_name (get_rd w)
          ++ ",0x".toList ++ fmt_x ((addr + toU32 (Dis.get_j_imm w)) % 4294967296)) := by
  simp [dis_opcode, hop]

theorem dis_opcode_jalr (addr w : Nat) (result : List Char) (buf_size : Nat)
    (hop : get_opcode w = 0x67) :
    dis_opcode addr w result buf_size
      = snprintf result buf_size ("jalr     ".toList ++ reg_name (get_rd w)
          ++ ",".toList ++ reg_name (get_rs1 w)
          ++ ",".toList ++ fmt_d (Dis.get_i_imm w)) := by
  simp [dis_opcode, hop]

/-- Every path of the `switch (opcode)` of `disassemble`: the text formatted is
an instruction line, or one of the placeholders of a branch, a load, a store or
a system word under the condition given, or the placeholder of an undefined
opcode.  The placeholders of the two arithmetic families are never reached. -/
theorem dis_opcode_class (addr w : Nat) (result : List Char) (buf_size : Nat) :
    (∃ text, IsLine text ∧ dis_opcode addr w result buf_size
        = snprintf result buf_size text) ∨
    (get_opcode w = 0x63 ∧ (get_funct3 w = 2 ∨ get_funct3 w = 3) ∧
      dis_opcode addr w result buf_size = snprintf result buf_size "unknown branch".toList) ∨
    (get_opcode w = 0x03 ∧ (get_funct3 w = 3 ∨ get_funct3 w = 6 ∨ get_funct3 w = 7) ∧
      dis_opcode addr w result buf_size = snprintf result buf_size "unknown load".toList) ∨
    (get_opcode w = 0x23 ∧ 3 ≤ get_funct3 w ∧
      dis_opcode addr w result buf_size = snprintf result buf_size "unknown store".toList) ∨
    (get_opcode w = 0x73 ∧ w ≠ 0x73 ∧
      dis_opcode addr w result buf_size = snprintf result buf_size "unknown system".toList) ∨
    (¬ defined_opcode (get_opcode w) ∧
      dis_opcode addr w result buf_size
        = snprintf result buf_size ("unknown instruction 0x".toList ++ fmt_08x w)) := by
  have h8 := get_funct3_lt w
  by_cases hd : defined_opcode (get_opcode w)
  · unfold defined_opcode at hd
    rcases hd with hop | hop | hop | hop | hop | hop | hop | hop | hop | hop
    · rw [dis_opcode_lui addr w result buf_size hop]
      exact Or.inl ⟨_, ⟨_, _, by decide, rfl⟩, rfl⟩
    · rw [dis_opcode_auipc addr w result buf_size hop]
      exact Or.inl ⟨_, ⟨_, _, by decide, rfl⟩, rfl⟩
    · rw [dis_opcode_jal addr w result buf_size hop]
      exact Or.inl ⟨_, ⟨_, _, by decide, rfl⟩, rfl⟩
    · rw [dis_opcode_jalr addr w result buf_size hop]
      exact Or.inl ⟨_, ⟨_, _, by decide, rfl⟩, rfl⟩
    · rw [dis_opcode_branch addr w result buf_size hop]
      rcases dis_branch_class result buf_size addr (get_rs1 w) (get_rs2 w) (get_funct3 w) w
        with hl | ⟨hc, he⟩
      · exact Or.inl hl
      · exact Or.inr (Or.inl ⟨hop, by omega, he⟩)
    · rw [dis_opcode_load addr w result buf_size hop]
      rcases dis_load_class result buf_size (get_rd w) (get_rs1 w) (get_funct3 w) w
        with hl | ⟨hc, he⟩
      · exact Or.inl hl
      · exact Or.inr (Or.inr (Or.inl ⟨hop, by omega, he⟩))
    · rw [dis_opcode_store addr w result buf_size hop]
      rcases dis_store_class result buf_size (get_rs1 w) (get_rs2 w) (get_funct3 w) w
        with hl | ⟨hc, he⟩
      · exact Or.inl hl
      · exact Or.inr (Or.inr (Or.inr (Or.inl ⟨hop, hc, he⟩)))
    · rw [dis_opcode_imm_arith addr w result buf_size hop]
      exact Or.inl (dis_imm_arith_class _ _ _ _ _ _ _ _ h8)
    · rw [dis_opcode_reg_arith addr w result buf_size hop]
      exact Or.inl (dis_reg_arith_class _ _ _ _ _ _ _ h8)
    · rw [dis_opcode_system addr w result buf_size hop]
      by_cases hw : w = 0x73
      · rw [if_pos hw]
        exact Or.inl ⟨_, ⟨_, _, by decide, rfl⟩, rfl⟩
      · rw [if_neg hw]
        exact Or.inr (Or.inr (Or.inr (Or.inr (Or.inl ⟨hop, hw, rfl⟩))))
  · exact Or.inr (Or.inr (Or.inr (Or.inr (Or.inr
      ⟨hd, dis_opcode_undefined addr w result buf_size hd⟩))))

/-- An instruction line in the buffer does not start with `u`. -/
theorem snprintf_line_head (result text : List Char) (buf_size : Nat) (hl : IsLine text)
    (hb : buf_size ≠ 0) (t : List Char) : snprintf result buf_size text ≠ 'u' :: t := by
  obtain ⟨c, r, hc, rfl⟩ := hl
  unfold snprintf
  rw [if_neg hb]
  intro he
  cases hn : buf_size - 1 with
  | zero => rw [hn] at he; simp at he
  | succ n =>
    rw [hn] at he
    simp only [List.take_succ_cons, List.cons.injEq] at he
    exact hc he.1

theorem fmt_x_length (n : Nat) : (fmt_x n).length ≤ 8 := by
  unfold fmt_x Nat.toDigits
  exact Nat.toDigitsCore_length 16 (by decide) _ _ 8
    (lt_of_lt_of_le (Nat.mod_lt _ (by decide)) (by decide)) (by decide)

theorem fmt_08x_length (n : Nat) : (fmt_08x n).length = 8 := by
  unfold fmt_08x
  have := fmt_x_length n
  rw [List.length_append, List.length_replicate]
  omega

theorem dis_reg_arith_unlisted (result : List Char) (buf_size rd rs1 rs2 f3 f7 : Nat)
    (hrow : spec_reg_arith_row f3 f7 = false) :
    dis_reg_arith result buf_size rd rs1 rs2 f3 f7
      = dis_reg_arith result buf_size rd rs1 rs2 f3 0 := by
  unfold spec_reg_arith_row at hrow
  simp only [decide_eq_false_iff_not, not_or, not_and] at hrow
  obtain ⟨r0, r1, r2, r3, r4, r5, r6, r7⟩ := hrow
  unfold dis_reg_arith
  by_cases h0 : f3 = 0
  · have := r0 h0; subst h0; simp at this ⊢; simp [this]
  by_cases h1 : f3 = 1
  · have := r1 h1; subst h1; simp at this ⊢; simp [this]
  by_cases h2 : f3 = 2
  · subst h2; simp
  by_cases h3 : f3 = 3
  · subst h3; simp
  by_cases h4 : f3 = 4
  · have := r4 h4; subst h4; simp at this ⊢; simp [this]
  by_cases h5 : f3 = 5
  · have := r5 h5; subst h5; simp at this ⊢; simp [this]
  by_cases h6 : f3 = 6
  · have := r6 h6; subst h6; simp at this ⊢; simp [this]
  by_cases h7 : f3 = 7
  · have := r7 h7; subst h7; simp at this ⊢; simp [this]
  simp [h0, h1, h2, h3, h4, h5, h6, h7]

theorem dis_reg_arith_base (result : List Char) (buf_size rd rs1 rs2 f3 : Nat) (h3 : f3 < 8) :
    dis_reg_arith result buf_size rd rs1 rs2 f3 0
      = snprintf result buf_size (base_mnemonic f3 ++ reg_name rd ++ ",".toList
          ++ reg_name rs1 ++ ",".toList ++ reg_name rs2) := by
  have hc : f3 = 0 ∨ f3 = 1 ∨ f3 = 2 ∨ f3 = 3 ∨ f3 = 4 ∨ f3 = 5 ∨ f3 = 6 ∨ f3 = 7 := by omega
  rcases hc with rfl | rfl | rfl | rfl | rfl | rfl | rfl | rfl <;> rfl

theorem dis_imm_arith_unlisted (result : List Char) (buf_size rd rs1 rs2 f3 f7 w : Nat)
    (hrow : spec_imm_arith_row f3 f7 = false) (h3 : f3 < 8) :
    dis_imm_arith result buf_size rd rs1 rs2 f3 f7 w
      = snprintf result buf_size ("srli     ".toList ++ reg_name rd ++ ",".toList
          ++ reg_name rs1 ++ ",".toList ++ fmt_d (rs2 : Int)) := by
  unfold spec_imm_arith_row at hrow
  simp only [decide_eq_false_iff_not, not_and, not_forall, not_or] at hrow
  obtain ⟨h5, _, h20⟩ := hrow h3
  subst h5
  simp [dis_imm_arith, h20]

theorem spec_table_row_false (w : Nat) (hrow : spec_table_row w = false) :
    (get_opcode w = 0x63 ∧ (get_funct3 w = 2 ∨ get_funct3 w = 3)) ∨
    (get_opcode w = 0x03 ∧ (get_funct3 w = 3 ∨ get_funct3 w = 6 ∨ get_funct3 w = 7)) ∨
    (get_opcode w = 0x23 ∧ 3 ≤ get_funct3 w) ∨
    (get_opcode w = 0x73 ∧ w ≠ 0x73) ∨
    ¬ defined_opcode (get_opcode w) ∨
    (get_opcode w = 0x33 ∧ spec_reg_arith_row (get_funct3 w) (get_funct7 w) = false) ∨
    (get_opcode w = 0x13 ∧ spec_imm_arith_row (get_funct3 w) (get_funct7 w) = false) := by
  have h8 := get_funct3_lt w
  unfold spec_table_row at hrow
  simp only [decide_eq_false_iff_not, not_or, not_and] at hrow
  obtain ⟨r1, r2, r3, r4, r5, r6, r7, r8, r9, r10⟩ := hrow
  by_cases hd : defined_opcode (get_opcode w)
  · unfold defined_opcode at hd
    rcases hd with hop | hop | hop | hop | hop | hop | hop | hop | hop | hop
    · exact absurd hop r1
    · exact absurd hop r2
    · exact absurd hop r3
    · exact absurd hop r4
    · have := r5 hop
      exact Or.inl ⟨hop, by omega⟩
    · have := r6 hop
      exact Or.inr (Or.inl ⟨hop, by omega⟩)
    · have := r7 hop
      exact Or.inr (Or.inr (Or.inl ⟨hop, by omega⟩))
    · have := r8 hop
      exact Or.inr (Or.inr (Or.inr (Or.inr (Or.inr (Or.inr ⟨hop, by simpa using this⟩)))))
    · have := r9 hop
      exact Or.inr (Or.inr (Or.inr (Or.inr (Or.inr (Or.inl ⟨hop, by simpa using this⟩)))))
    · exact Or.inr (Or.inr (Or.inr (Or.inl ⟨hop, r10⟩)))
  · exact Or.inr (Or.inr (Or.inr (Or.inr (Or.inl hd))))

/-! ## The placeholders of the disassembler (C22) -/

/-- C22 (counterexample): the word 0x046283B3 (opcode 0x33, funct3 0, funct7
0x02) matches no row of the mnemonic table, and `disassemble` prints
"add      t2,t0,t1" for it, not "unknown register arithmetic"; for 0x0262A3B3
(funct3 2, funct7 0x01) it prints "slt      t2,t0,t1"; for 0x0202D393 (opcode
0x13, funct3 5, funct7 0x01) it prints "srli     t2,t0,0", not
"unknown immediate arithmetic". -/
theorem unlisted_funct7_is_disassembled :
    (get_opcode 0x046283B3 = 0x33 ∧ get_funct3 0x046283B3 = 0 ∧ get_funct7 0x046283B3 = 0x02 ∧
      spec_table_row 0x046283B3 = false ∧
      disassemble lookup_sym 0x1000 0x046283B3 [] 100 none = "add      t2,t0,t1".toList ∧
      disassemble lookup_sym 0x1000 0x046283B3 [] 100 none
        ≠ "unknown register arithmetic".toList) ∧
    (get_opcode 0x0262A3B3 = 0x33 ∧ get_funct3 0x0262A3B3 = 2 ∧ get_funct7 0x0262A3B3 = 0x01 ∧
      spec_table_row 0x0262A3B3 = false ∧
      disassemble lookup_sym 0x1000 0x0262A3B3 [] 100 none = "slt      t2,t0,t1".toList ∧
      disassemble lookup_sym 0x1000 0x0262A3B3 [] 100 none
        ≠ "unknown register arithmetic".toList) ∧
    (get_opcode 0x0202D393 = 0x13 ∧ get_funct3 0x0202D393 = 5 ∧ get_funct7 0x0202D393 = 0x01 ∧
      spec_table_row 0x0202D393 = false ∧
      disassemble lookup_sym 0x1000 0x0202D393 [] 100 none = "srli     t2,t0,0".toList ∧
      disassemble lookup_sym 0x1000 0x0202D393 [] 100 none
        ≠ "unknown immediate arithmetic".toList) := by
  decide

/-- C22 (amended): for a 32-bit word at an address without a symbol,
`disassemble` formats
"unknown branch" for opcode 0x63 with funct3 2 or 3, "unknown load" for opcode
0x03 with funct3 3, 6 or 7, "unknown store" for opcode 0x23 with funct3 3..7,
"unknown system" for a word of opcode 0x73 other than 0x00000073, and
"unknown instruction 0x" followed by the word in 8 lower-case hexadecimal
digits for an undefined opcode; the buffer holds the text in full when it has
room for it.  Under opcodes 0x13 and 0x33 there is no placeholder: every word
is printed as an instruction line, so neither "unknown immediate arithmetic" nor
"unknown register arithmetic" is ever left in a buffer of non-zero size.  A
word of opcode 0x33 that matches no row is printed with the mnemonic of the
funct7 = 0x00 row of its funct3, and a word of opcode 0x13 that matches no row
(funct3 5, funct7 neither 0x00 nor 0x20) is printed as `srli`.  These are all
the words that match no row. -/
theorem placeholder_lines {S : Type} (vts : S → Nat → Option (List Char))
    (symbols : Option S) (addr w : Nat) (result : List Char) (buf_size : Nat)
    (_hw : w < 4294967296) (hsym : symbol_at vts symbols addr = none) :
    (get_opcode w = 0x63 ∧ (get_funct3 w = 2 ∨ get_funct3 w = 3) →
      disassemble vts addr w result buf_size symbols
        = snprintf result buf_size "unknown branch".toList) ∧
    (get_opcode w = 0x03 ∧ (get_funct3 w = 3 ∨ get_funct3 w = 6 ∨ get_funct3 w = 7) →
      disassemble vts addr w result buf_size symbols
        = snprintf result buf_size "unknown load".toList) ∧
    (get_opcode w = 0x23 ∧ 3 ≤ get_funct3 w →
      disassemble vts addr w result buf_size symbols
        = snprintf result buf_size "unknown store".toList) ∧
    (get_opcode w = 0x73 ∧ w ≠ 0x73 →
      disassemble vts addr w result buf_size symbols
        = snprintf result buf_size "unknown system".toList) ∧
    (¬ defined_opcode (get_opcode w) →
      disassemble vts addr w result buf_size symbols
        = snprintf result buf_size ("unknown instruction 0x".toList ++ fmt_08x w) ∧
      (fmt_08x w).length = 8) ∧
    (∀ text : List Char, text.length < buf_size → snprintf result buf_size text = text) ∧
    (get_opcode w = 0x33 ∧ spec_reg_arith_row (get_funct3 w) (get_funct7 w) = false →
      disassemble vts addr w result buf_size symbols
        = snprintf result buf_size (base_mnemonic (get_funct3 w) ++ reg_name (get_rd w)
            ++ ",".toList ++ reg_name (get_rs1 w) ++ ",".toList ++ reg_name (get_rs2 w))) ∧
    (get_opcode w = 0x13 ∧ spec_imm_arith_row (get_funct3 w) (get_funct7 w) = false →
      disassemble vts addr w result buf_size symbols
        = snprintf result buf_size ("srli     ".toList ++ reg_name (get_rd w)
            ++ ",".toList ++ reg_name (get_rs1 w) ++ ",".toList
            ++ fmt_d (get_rs2 w : Int))) ∧
    (get_opcode w = 0x13 ∨ get_opcode w = 0x33 →
      (∃ text, IsLine text ∧
        disassemble vts addr w result buf_size symbols = snprintf result buf_size text) ∧
      (buf_size ≠ 0 →
        disassemble vts addr w result buf_size symbols
          ≠ "unknown immediate arithmetic".toList ∧
        disassemble vts addr w result buf_size symbols
          ≠ "unknown register arithmetic".toList)) ∧
    (spec_table_row w = false →
      (get_opcode w = 0x63 ∧ (get_funct3 w = 2 ∨ get_funct3 w = 3)) ∨
      (get_opcode w = 0x03 ∧ (get_funct3 w = 3 ∨ get_funct3 w = 6 ∨ get_funct3 w = 7)) ∨
      (get_opcode w = 0x23 ∧ 3 ≤ get_funct3 w) ∨
      (get_opcode w = 0x73 ∧ w ≠ 0x73) ∨
      ¬ defined_opcode (get_opcode w) ∨
      (get_opcode w = 0x33 ∧ spec_reg_arith_row (get_funct3 w) (get_funct7 w) = false) ∨
      (get_opcode w = 0x13 ∧ spec_imm_arith_row (get_funct3 w) (get_funct7 w) = false)) := by
  have h8 := get_funct3_lt w
  rw [disassemble_no_symbol vts addr w result buf_size symbols hsym]
  refine ⟨?_, ?_, ?_, ?_, ?_, fun text ht => snprintf_fits result text buf_size ht,
    ?_, ?_, ?_, spec_table_row_false w⟩
  · rintro ⟨hop, h3⟩
    rw [dis_opcode_branch addr w result buf_size hop]
    rcases h3 with h3 | h3 <;> simp [dis_branch, h3]
  · rintro ⟨hop, h3⟩
    rw [dis_opcode_load addr w result buf_size hop]
    rcases h3 with h3 | h3 | h3 <;> simp [dis_load, h3]
  · rintro ⟨hop, h3⟩
    rw [dis_opcode_store addr w result buf_size hop]
    have h0 : get_funct3 w ≠ 0 := by omega
    have h1 : get_funct3 w ≠ 1 := by omega
    have h2 : get_funct3 w ≠ 2 := by omega
    simp [dis_store, h0, h1, h2]
  · rintro ⟨hop, hne⟩
    rw [dis_opcode_system addr w result buf_size hop, if_neg hne]
  · intro hn
    exact ⟨dis_opcode_undefined addr w result buf_size hn, fmt_08x_length w⟩
  · rintro ⟨hop, hrow⟩
    rw [dis_opcode_reg_arith addr w result buf_size hop,
      dis_reg_arith_unlisted _ _ _ _ _ _ _ hrow, dis_reg_arith_base _ _ _ _ _ _ h8]
  · rintro ⟨hop, hrow⟩
    rw [dis_opcode_imm_arith addr w result buf_size hop,
      dis_imm_arith_unlisted _ _ _ _ _ _ _ _ hrow h8]
  · intro hop
    have hl : ∃ text, IsLine text ∧
        dis_opcode addr w result buf_size = snprintf result buf_size text := by
      rcases hop with hop | hop
      · rw [dis_opcode_imm_arith addr w result buf_size hop]
        exact dis_imm_arith_class _ _ _ _ _ _ _ _ h8
      · rw [dis_opcode_reg_arith addr w result buf_size hop]
        exact dis_reg_arith_class _ _ _ _ _ _ _ h8
    refine ⟨hl, fun hb => ?_⟩
    obtain ⟨text, ht, he⟩ := hl
    rw [he]
    exact ⟨snprintf_line_head result text buf_size ht hb _,
      snprintf_line_head result text buf_size ht hb _⟩

/-- C22 (witness): the branch word 0x00002063 (funct3 2) gives "unknown branch",
the word 0x0000007F "unknown instruction 0x0000007f", and the word 0x046283B3
(opcode 0x33, funct3 0, funct7 0x02), which matches no row, is printed as
`add`. -/
theorem placeholder_lines_witness :
    symbol_at lookup_sym none 0x1000 = none ∧
    disassemble lookup_sym 0x1000 0x00002063 [] 100 none = "unknown branch".toList ∧
    disassemble lookup_sym 0x1000 0x0000007F [] 100 none
      = "unknown instruction 0x0000007f".toList ∧
    spec_table_row 0x046283B3 = false ∧
    disassemble lookup_sym 0x1000 0x046283B3 [] 100 none = "add      t2,t0,t1".toList := by
  have t1 := placeholder_lines lookup_sym none 0x1000 0x00002063 [] 100 (by decide) rfl
  have t2 := placeholder_lines lookup_sym none 0x1000 0x0000007F [] 100 (by decide) rfl
  have t3 := placeholder_lines lookup_sym none 0x1000 0x046283B3 [] 100 (by decide) rfl
  refine ⟨rfl, ?_, ?_, by decide, ?_⟩
  · rw [t1.1 (by decide)]; decide
  · rw [(t2.2.2.2.2.1 (by decide)).1]; decide
  · rw [t3.2.2.2.2.2.2.1 (by decide)]; decide

/-! ## The operand of LUI and AUIPC (C23) -/

theorem u_operand (w : Nat) (hw : w < 4294967296) :
    toU32 (Dis.get_u_imm w / 4096)
      = (if w < 2147483648 then bitsOf w 31 12 else 0xFFF00000 + bitsOf w 31 12) ∧
    bitsOf w 31 12 < 1048576 := by
  obtain ⟨h1, _⟩ := and_upper20 w hw
  have hb : bitsOf w 31 12 = w / 4096 := by
    unfold bitsOf
    norm_num
    omega
  unfold Dis.get_u_imm
  rw [h1, hb]
  unfold toS32 toU32
  split_ifs <;> omega

/-- C23 (the code): for a LUI or AUIPC word `w` at an address without a symbol,
the text is the mnemonic, the name of `rd`, ",0x" and the `%x` form of
`get_u_imm(w) >> 12`, a shift of the signed `int32_t` value.  When bit 31 of `w`
is clear this operand is the 20-bit value of bits 31:12; when bit 31 is set the
shift fills with the sign and the operand is 0xFFF00000 plus that value, a
number above 0xfffff, printed with 8 digits. -/
theorem lui_auipc_operand {S : Type} (vts : S → Nat → Option (List Char))
    (symbols : Option S) (addr w : Nat) (result : List Char) (buf_size : Nat)
    (hw : w < 4294967296) (hsym : symbol_at vts symbols addr = none)
    (hop : get_opcode w = 0x37 ∨ get_opcode w = 0x17) :
    disassemble vts addr w result buf_size symbols
      = snprintf result buf_size
          ((if get_opcode w = 0x37 then "lui      ".toList else "auipc    ".toList)
            ++ reg_name (get_rd w) ++ ",0x".toList
            ++ fmt_x (if w < 2147483648 then bitsOf w 31 12
                else 0xFFF00000 + bitsOf w 31 12)) ∧
    bitsOf w 31 12 ≤ 0xfffff ∧
    (2147483648 ≤ w → 0xfffff < 0xFFF00000 + bitsOf w 31 12) := by
  obtain ⟨h1, h2⟩ := u_operand w hw
  rw [disassemble_no_symbol vts addr w result buf_size symbols hsym]
  refine ⟨?_, by omega, fun _ => by omega⟩
  rcases hop with hop | hop
  · rw [dis_opcode_lui addr w result buf_size hop, h1, if_pos hop]
  · have hne : get_opcode w ≠ 0x37 := by omega
    rw [dis_opcode_auipc addr w result buf_size hop, h1, if_neg hne]

/-- C23 (the code at the failing input): for the LUI word 0x800000B7, whose
bits 31:12 are 0x80000, `disassemble` prints "lui      ra,0xfff80000", not
"lui      ra,0x80000"; likewise "auipc    ra,0xfff80000" for 0x80000097.  For
0x123450B7, with bit 31 clear, it prints "lui      ra,0x12345". -/
theorem lui_auipc_operand_witness :
    (0x800000B7 < 4294967296 ∧ get_opcode 0x800000B7 = 0x37 ∧
      bitsOf 0x800000B7 31 12 = 0x80000 ∧
      disassemble lookup_sym 0 0x800000B7 [] 100 none = "lui      ra,0xfff80000".toList ∧
      disassemble lookup_sym 0 0x800000B7 [] 100 none ≠ "lui      ra,0x80000".toList) ∧
    (get_opcode 0x80000097 = 0x17 ∧
      disassemble lookup_sym 0 0x80000097 [] 100 none = "auipc    ra,0xfff80000".toList) ∧
    (get_opcode 0x123450B7 = 0x37 ∧
      disassemble lookup_sym 0 0x123450B7 [] 100 none = "lui      ra,0x12345".toList) := by
  have t1 := (lui_auipc_operand lookup_sym none 0 0x800000B7 [] 100 (by decide) rfl
    (Or.inl (by decide))).1
  have t2 := (lui_auipc_operand lookup_sym none 0 0x80000097 [] 100 (by decide) rfl
    (Or.inr (by decide))).1
  have t3 := (lui_auipc_operand lookup_sym none 0 0x123450B7 [] 100 (by decide) rfl
    (Or.inl (by decide))).1
  refine ⟨⟨by decide, by decide, by decide, ?_, ?_⟩, ⟨by decide, ?_⟩, ⟨by decide, ?_⟩⟩
  · rw [t1]; decide
  · rw [t1]; decide
  · rw [t2]; decide
  · rw [t3]; decide

/-! ## The engine and the disassembler decode alike (C27) -/

/-- The words the engine steps over without any effect. -/
theorem noop_exec {M : Type} (h : Host M) (s : State M) (w : Nat)
    (hc : (get_opcode w = 0x63 ∧ (get_funct3 w = 2 ∨ get_funct3 w = 3)) ∨
      (get_opcode w = 0x03 ∧ (get_funct3 w = 3 ∨ get_funct3 w = 6 ∨ get_funct3 w = 7)) ∨
      (get_opcode w = 0x23 ∧ 3 ≤ get_funct3 w) ∨
      (get_opcode w = 0x73 ∧ w ≠ 0x73)) :
    exec h s w = s.enter.retire ((s.pc + 4) % 4294967296) := by
  rcases hc with ⟨hop, h3⟩ | ⟨hop, h3⟩ | ⟨hop, h3⟩ | ⟨hop, hne⟩
  · rcases h3 with h3 | h3 <;> simp [exec, exec_branch, take_branch, hop, h3]
  · rcases h3 with h3 | h3 | h3 <;> simp [exec, exec_load, hop, h3]
  · have h0 : get_funct3 w ≠ 0 := by omega
    have h1 : get_funct3 w ≠ 1 := by omega
    have h2 : get_funct3 w ≠ 2 := by omega
    simp [exec, exec_store, hop, h0, h1, h2]
  · rw [exec_of_system h s w hop]
    unfold exec_system
    rw [if_neg hne]

/-- The two fatal exits of an iteration: the default case of the opcode switch
and the default case of the system-call switch. -/
theorem exec_fatal_cases {M : Type} (h : Host M) (s : State M) (w : Nat)
    (hfat : exec h s w = Outcome.fatal) :
    ¬ defined_opcode (get_opcode w) ∨
      (w = 0x73 ∧ s.registers 17 ≠ 1 ∧ s.registers 17 ≠ 2 ∧
        s.registers 17 ≠ 3 ∧ s.registers 17 ≠ 93) := by
  have hsat : Outcome.Sat (fun _ => True) (fun _ => True)
      (¬ defined_opcode (get_opcode w) ∨
        (w = 0x73 ∧ s.registers 17 ≠ 1 ∧ s.registers 17 ≠ 2 ∧
          s.registers 17 ≠ 3 ∧ s.registers 17 ≠ 93)) True (exec h s w) := by
    apply exec_sat
    · intros; trivial
    · intros; trivial
    · intro _
      apply exec_system_sat
      · intros; trivial
      · intros; trivial
      · intros; trivial
      · intros; trivial
      · intro hw h1 h2 h3 h93
        rw [enter_a7] at h1 h2 h3 h93
        exact Or.inr ⟨hw, h1, h2, h3, h93⟩
    · intro hn; exact Or.inl hn
    · intros; trivial
  rw [hfat] at hsat
  exact hsat

theorem placeholder_ne_unknown_instruction (t : List Char) :
    "unknown branch".toList ≠ "unknown instruction 0x".toList ++ t ∧
    "unknown load".toList ≠ "unknown instruction 0x".toList ++ t ∧
    "unknown store".toList ≠ "unknown instruction 0x".toList ++ t ∧
    "unknown system".toList ≠ "unknown instruction 0x".toList ++ t := by
  have h9 : List.take 9 ("unknown instruction 0x".toList ++ t) = "unknown i".toList := rfl
  refine ⟨?_, ?_, ?_, ?_⟩ <;>
    (intro he
     have h := congrArg (List.take 9) he
     rw [h9] at h
     exact absurd h (by decide))

theorem unknown_instruction_fits (w buf_size : Nat) (result : List Char)
    (hbuf : 31 ≤ buf_size) :
    snprintf result buf_size ("unknown instruction 0x".toList ++ fmt_08x w)
      = "unknown instruction 0x".toList ++ fmt_08x w := by
  apply snprintf_fits
  rw [List.length_append, fmt_08x_length]
  have : "unknown instruction 0x".toList.length = 22 := by decide
  omega

/-- C27: the engine and the disassembler decode every word `w` alike (address
without a symbol, buffer with room for the longest placeholder, 30 characters
and the terminator).  The step on `w` ends in the fatal exit of the default
case of the opcode switch, that is, it is fatal and the opcode is not 0x73,
under which the other fatal exit "Unknown syscall" lies, exactly when the
opcode has no case, and exactly then `disassemble` leaves
"unknown instruction 0x" and the 8 hexadecimal digits of `w`.  Whenever it
leaves "unknown branch", "unknown load", "unknown store" or "unknown system",
the step goes on at PC + 4 with every register value and the memory
unchanged.  The functions of `disassemble.c` and of `simulate.c` compute the
same I, S, B, U and J immediates. -/
theorem decode_agreement {M S : Type} (h : Host M) (s : State M) (w addr : Nat)
    (vts : S → Nat → Option (List Char)) (symbols : Option S) (result : List Char)
    (buf_size : Nat)
    (hf : fetch h s = w) (hsym : symbol_at vts symbols addr = none) (hbuf : 31 ≤ buf_size) :
    ((step h s = Outcome.fatal ∧ get_opcode w ≠ 0x73) ↔
      ∃ t, disassemble vts addr w result buf_size symbols
        = "unknown instruction 0x".toList ++ t) ∧
    ((step h s = Outcome.fatal ∧ get_opcode w ≠ 0x73) ↔ ¬ defined_opcode (get_opcode w)) ∧
    (¬ defined_opcode (get_opcode w) →
      disassemble vts addr w result buf_size symbols
        = "unknown instruction 0x".toList ++ fmt_08x w) ∧
    (disassemble vts addr w result buf_size symbols = "unknown branch".toList ∨
      disassemble vts addr w result buf_size symbols = "unknown load".toList ∨
      disassemble vts addr w result buf_size symbols = "unknown store".toList ∨
      disassemble vts addr w result buf_size symbols = "unknown system".toList →
      ∃ s1, step h s = Outcome.running s1 ∧ s1.pc = (s.pc + 4) % 4294967296 ∧
        (∀ i, s1.reg i = s.reg i) ∧ (∀ i, i ≠ 0 → s1.registers i = s.registers i) ∧
        s1.mem = s.mem) ∧
    (Dis.get_i_imm w = get_i_imm w ∧ Dis.get_s_imm w = get_s_imm w ∧
      Dis.get_b_imm w = get_b_imm w ∧ Dis.get_u_imm w = get_u_imm w ∧
      Dis.get_j_imm w = get_j_imm w) := by
  have hb0 : buf_size ≠ 0 := by omega
  rw [disassemble_no_symbol vts addr w result buf_size symbols hsym, step_of_fetch h s w hf]
  have hcls := dis_opcode_class addr w result buf_size
  have hund : ¬ defined_opcode (get_opcode w) →
      dis_opcode addr w result buf_size = "unknown instruction 0x".toList ++ fmt_08x w := by
    intro hn
    rw [dis_opcode_undefined addr w result buf_size hn]
    exact unknown_instruction_fits w buf_size result hbuf
  have heng : (exec h s w = Outcome.fatal ∧ get_opcode w ≠ 0x73) ↔
      ¬ defined_opcode (get_opcode w) := by
    constructor
    · rintro ⟨hfat, hne⟩
      rcases exec_fatal_cases h s w hfat with hn | ⟨hw, _⟩
      · exact hn
      · exact absurd (by rw [hw]; decide) hne
    · intro hn
      refine ⟨not_defined_opcode_fatal h s w hn, fun hop => hn ?_⟩
      unfold defined_opcode
      omega
  have hdis : ¬ defined_opcode (get_opcode w) ↔
      ∃ t, dis_opcode addr w result buf_size = "unknown instruction 0x".toList ++ t := by
    constructor
    · intro hn; exact ⟨_, hund hn⟩
    · rintro ⟨t, ht⟩
      rcases hcls with ⟨text, hl, he⟩ | ⟨_, _, he⟩ | ⟨_, _, he⟩ | ⟨_, _, he⟩ | ⟨_, _, he⟩ |
        ⟨hn, _⟩
      · rw [he] at ht
        exact absurd ht (snprintf_line_head result text buf_size hl hb0 _)
      · rw [he, snprintf_fits _ _ _ (lt_of_lt_of_le (by decide) hbuf)] at ht
        exact absurd ht (placeholder_ne_unknown_instruction t).1
      · rw [he, snprintf_fits _ _ _ (lt_of_lt_of_le (by decide) hbuf)] at ht
        exact absurd ht (placeholder_ne_unknown_instruction t).2.1
      · rw [he, snprintf_fits _ _ _ (lt_of_lt_of_le (by decide) hbuf)] at ht
        exact absurd ht (placeholder_ne_unknown_instruction t).2.2.1
      · rw [he, snprintf_fits _ _ _ (lt_of_lt_of_le (by decide) hbuf)] at ht
        exact absurd ht (placeholder_ne_unknown_instruction t).2.2.2
      · exact hn
  refine ⟨heng.trans hdis, heng, hund, ?_, rfl, rfl, rfl, rfl, rfl⟩
  intro hout
  have hnoop : (get_opcode w = 0x63 ∧ (get_funct3 w = 2 ∨ get_funct3 w = 3)) ∨
      (get_opcode w = 0x03 ∧ (get_funct3 w = 3 ∨ get_funct3 w = 6 ∨ get_funct3 w = 7)) ∨
      (get_opcode w = 0x23 ∧ 3 ≤ get_funct3 w) ∨
      (get_opcode w = 0x73 ∧ w ≠ 0x73) := by
    rcases hcls with ⟨text, hl, he⟩ | ⟨h1, h2, _⟩ | ⟨h1, h2, _⟩ | ⟨h1, h2, _⟩ | ⟨h1, h2, _⟩ |
      ⟨hn, _⟩
    · exfalso
      rw [he] at hout
      rcases hout with ho | ho | ho | ho <;>
        exact absurd ho (snprintf_line_head result text buf_size hl hb0 _)
    · exact Or.inl ⟨h1, h2⟩
    · exact Or.inr (Or.inl ⟨h1, h2⟩)
    · exact Or.inr (Or.inr (Or.inl ⟨h1, h2⟩))
    · exact Or.inr (Or.inr (Or.inr ⟨h1, h2⟩))
    · exfalso
      rw [hund hn] at hout
      obtain ⟨p1, p2, p3, p4⟩ := placeholder_ne_unknown_instruction (fmt_08x w)
      rcases hout with ho | ho | ho | ho
      · exact p1 ho.symm
      · exact p2 ho.symm
      · exact p3 ho.symm
      · exact p4 ho.symm
  rw [noop_exec h s w hnoop]
  exact retire_enter_frame s _

/-- C27 (witness): the word 0x0000007F, whose opcode has no case, is fatal in
the engine and printed as "unknown instruction 0x0000007f"; the branch word
0x00002063 (funct3 2) is printed as "unknown branch" and the step on it goes on
at 0x1004. -/
theorem decode_agreement_witness :
    (fetch flatHost (progState [0x0000007F] (fun _ => 0)) = 0x0000007F ∧
      step flatHost (progState [0x0000007F] (fun _ => 0)) = Outcome.fatal ∧
      disassemble lookup_sym 0x1000 0x0000007F [] 100 none
        = "unknown instruction 0x0000007f".toList) ∧
    (fetch flatHost (progState [0x00002063] (fun _ => 0)) = 0x00002063 ∧
      disassemble lookup_sym 0x1000 0x00002063 [] 100 none = "unknown branch".toList ∧
      ∃ s1, step flatHost (progState [0x00002063] (fun _ => 0)) = Outcome.running s1 ∧
        s1.pc = 0x1004) := by
  have t1 := decode_agreement flatHost (progState [0x0000007F] (fun _ => 0)) 0x0000007F 0x1000
    lookup_sym none [] 100 (by decide) rfl (by decide)
  have t2 := decode_agreement flatHost (progState [0x00002063] (fun _ => 0)) 0x00002063 0x1000
    lookup_sym none [] 100 (by decide) rfl (by decide)
  refine ⟨⟨by decide, (t1.2.1.2 (by decide)).1, ?_⟩, ⟨by decide, by decide, ?_⟩⟩
  · rw [t1.2.2.1 (by decide)]; decide
  · obtain ⟨s1, h1, h2, _⟩ := t2.2.2.2.1 (Or.inl (by decide))
    exact ⟨s1, h1, h2⟩

end A5
